import Mathlib

/-!
# Fleet API: the trip lifecycle engine and the analytics

A shallow embedding of `fleet-api/src/services/tripService.js` over an explicit
store (the `trips`, `vehicles` and `drivers` tables), and the properties of the
trip state machine proved about it; then the HTTP surface of the transitions
(`tripController.js`, `app.js`), the role gate (`middlewares/role.js`), the driver
status edit and the drivers listing (`driverController.js`), the position simulator
(`utils/simulator.js`) and the aggregations of `analyticsController.js` and
`services/vehicleService.js`.

Modelling conventions
* A table is a list of rows.  Row identifiers (UUIDs in the database) are natural
  numbers.  A nullable column is an `Option`; `none` is SQL `NULL`.
* Numeric columns and numeric request values are integers.
* A request field that is absent from the JSON body (`undefined` in the source) is
  `none`; the client library drops such keys from an insert or update payload.
* `.eq('id', x).single()` yields a row exactly when one row matches.
* Every function returns the outcome together with the store it leaves behind, so
  that a thrown error keeps whatever was written before it.
* The store itself is reliable: a query fails only for the reasons the source
  tests for (no row, or more than one row, for `.single()`).
* `new Date()` is a parameter `now`, in milliseconds since the epoch; a `date`
  column is a day number since the epoch.
-/

deriving instance DecidableEq for Except

namespace Fleet

/-- A row of the `vehicles` table. -/
structure Vehicle where
  id : Nat
  model : Option String := none
  license_plate : Option String := none
  max_capacity : Option Int := none
  odometer : Option Int := none
  acquisition_cost : Option Int := none
  region : Option String := none
  vehicle_type : Option String := none
  status : String
  current_lat : Option Int := none
  current_lng : Option Int := none
  last_updated : Option Int := none
deriving DecidableEq, Repr

/-- A row of the `drivers` table; `expiry_date` is a calendar day. -/
structure Driver where
  id : Nat
  name : Option String := none
  license_number : Option String := none
  license_category : Option String := none
  expiry_date : Option Int := none
  safety_score : Option Int := none
  region : Option String := none
  status : String
deriving DecidableEq, Repr

/-- A row of the `trips` table. -/
structure Trip where
  id : Nat
  vehicle_id : Option Nat := none
  driver_id : Option Nat := none
  cargo_weight : Option Int := none
  start_location : Option String := none
  end_location : Option String := none
  start_odometer : Option Int := none
  end_odometer : Option Int := none
  revenue : Option Int := none
  status : String
  created_at : Option Int := none
deriving DecidableEq, Repr

/-- The request body read by `createDraftTrip` and `updateTrip`. -/
structure TripData where
  vehicle_id : Option Nat := none
  driver_id : Option Nat := none
  cargo_weight : Option Int := none
  start_location : Option String := none
  end_location : Option String := none
  start_odometer : Option Int := none
  revenue : Option Int := none
deriving DecidableEq, Repr

/-- The three tables the trip service reads and writes. -/
structure Store where
  trips : List Trip := []
  vehicles : List Vehicle := []
  drivers : List Driver := []
deriving DecidableEq, Repr

/-- What `completeTrip` returns: the updated row spread together with `distance`
(`none` is the `NaN` obtained from an absent end odometer). -/
structure CompletedTrip where
  trip : Trip
  distance : Option Int
deriving DecidableEq, Repr

/-- The source's `.single()`: the row when exactly one row was selected. -/
def single {α : Type} : List α → Option α
  | [r] => some r
  | _ => none

/-- JavaScript numeric coercion of a nullable numeric column: `Number(null)` is `0`. -/
def toNumber (x : Option Int) : Int := x.getD 0

/-- Milliseconds in a day. -/
def msPerDay : Int := 86400000

/-- The source's `new Date(expiry_date)` as milliseconds since the epoch: a date-only string is
midnight UTC of that day, and `new Date(null)` is the epoch. -/
def dateMs (d : Option Int) : Int := toNumber d * msPerDay

/-- The source's `.update(...).eq('id', id)` on a table: the rows matching `p` are rewritten
by `f`. -/
def updateWhere {α : Type} (p : α → Bool) (f : α → α) (rows : List α) : List α :=
  rows.map (fun r => if p r then f r else r)

/-- The identifier the database gives to an inserted trip row: one not in the table. -/
def freshId (trips : List Trip) : Nat := (trips.map (fun t => t.id)).foldr max 0 + 1

/-- The source's `supabase.from('trips').select('*').eq('id', tripId).single()`. -/
def selectTrip (s : Store) (tripId : Nat) : Option Trip :=
  single (s.trips.filter (fun t => decide (t.id = tripId)))

/-- The source's `supabase.from('drivers').select(...).eq('id', trip.driver_id).single()`. -/
def selectDriver (s : Store) (driverId : Option Nat) : Option Driver :=
  single (s.drivers.filter (fun d => decide (some d.id = driverId)))

/-- The source's `supabase.from('vehicles').select(...).eq('id', trip.vehicle_id).single()`. -/
def selectVehicle (s : Store) (vehicleId : Option Nat) : Option Vehicle :=
  single (s.vehicles.filter (fun v => decide (some v.id = vehicleId)))

/-- The source's `supabaseAdmin.from('vehicles').update(...).eq('id', vehicleId)`. -/
def updateVehicles (vehicleId : Option Nat) (f : Vehicle → Vehicle) (s : Store) : Store :=
  { s with vehicles := updateWhere (fun v => decide (some v.id = vehicleId)) f s.vehicles }

/-- The source's `supabaseAdmin.from('drivers').update(...).eq('id', driverId)`. -/
def updateDrivers (driverId : Option Nat) (f : Driver → Driver) (s : Store) : Store :=
  { s with drivers := updateWhere (fun d => decide (some d.id = driverId)) f s.drivers }

/-- The source's `supabaseAdmin.from('trips').update(...).eq('id', tripId)`. -/
def updateTrips (tripId : Nat) (f : Trip → Trip) (s : Store) : Store :=
  { s with trips := updateWhere (fun t => decide (t.id = tripId)) f s.trips }

/-- The source's `createDraftTrip(tripData)`: inserts one `Draft` row and returns it.  The
columns the payload leaves out are filled by the database: `id` with a fresh identifier,
`created_at` with the time of the insert, `end_odometer` with `NULL`. -/
def createDraftTrip (now : Int) (tripData : TripData) (s : Store) : Except String Trip × Store :=
  let trip : Trip :=
    { id := freshId s.trips
      vehicle_id := tripData.vehicle_id
      driver_id := tripData.driver_id
      cargo_weight := tripData.cargo_weight
      start_location := tripData.start_location
      end_location := tripData.end_location
      start_odometer := some (tripData.start_odometer.getD 0)
      end_odometer := none
      revenue := some (tripData.revenue.getD 0)
      status := "Draft"
      created_at := some now }
  (.ok trip, { s with trips := s.trips ++ [trip] })

/-- The source's `dispatchTrip(tripId)`. -/
def dispatchTrip (now : Int) (tripId : Nat) (s : Store) : Except String Trip × Store :=
  match selectTrip s tripId with
  | none => (.error "Trip not found", s)
  | some trip =>
    if trip.status ≠ "Draft" then (.error "Only draft trips can be dispatched", s) else
    match selectDriver s trip.driver_id with
    | none => (.error "Driver not found", s)
    | some driver =>
      if driver.status ∈ ["Suspended"] then
        (.error ("Driver is " ++ driver.status ++ " and cannot be dispatched"), s) else
      if dateMs driver.expiry_date < now then (.error "Driver license expired", s) else
      match selectVehicle s trip.vehicle_id with
      | none => (.error "Vehicle not found", s)
      | some vehicle =>
        if vehicle.status ≠ "Available" then
          (.error ("Vehicle is " ++ vehicle.status ++ ", must be Available"), s) else
        if toNumber trip.cargo_weight > toNumber vehicle.max_capacity then
          (.error "Cargo weight exceeds vehicle capacity", s) else
        let s1 := updateTrips tripId (fun t => { t with status := "Dispatched" }) s
        match selectTrip s1 tripId with
        | none => (.error "JSON object requested, multiple (or no) rows returned", s)
        | some updatedTrip =>
          let s2 := updateVehicles trip.vehicle_id (fun v => { v with status := "On Trip" }) s1
          let s3 := updateDrivers trip.driver_id (fun d => { d with status := "On Duty" }) s2
          (.ok updatedTrip, s3)

/-- The `completeTrip` payload `{ status, end_odometer, revenue }`; an `undefined`
value leaves its column as it was. -/
def completeRow (endOdometer revenue : Option Int) (t : Trip) : Trip :=
  { t with
    status := "Completed"
    end_odometer := if endOdometer.isSome then endOdometer else t.end_odometer
    revenue := if revenue.isSome then revenue else t.revenue }

/-- The vehicle payload of `completeTrip`: `{ status: 'Available', odometer: endOdometer }`. -/
def releaseWithOdometer (endOdometer : Option Int) (v : Vehicle) : Vehicle :=
  { v with
    status := "Available"
    odometer := if endOdometer.isSome then endOdometer else v.odometer }

/-- The test `distance < 0`; it is false when `distance` is `NaN`. -/
def isNegative : Option Int → Bool
  | some d => decide (d < 0)
  | none => false

/-- The source's `completeTrip(tripId, endOdometer, revenue)`. -/
def completeTrip (tripId : Nat) (endOdometer revenue : Option Int) (s : Store) :
    Except String CompletedTrip × Store :=
  match selectTrip s tripId with
  | none => (.error "Trip not found", s)
  | some trip =>
    if trip.status ≠ "Dispatched" then (.error "Only dispatched trips can be completed", s) else
    let distance : Option Int := endOdometer.map (fun e => e - toNumber trip.start_odometer)
    if isNegative distance then
      (.error "End odometer must be greater than start odometer", s) else
    let s1 := updateTrips tripId (completeRow endOdometer revenue) s
    match selectTrip s1 tripId with
    | none => (.error "JSON object requested, multiple (or no) rows returned", s)
    | some updatedTrip =>
      let s2 := updateVehicles trip.vehicle_id (releaseWithOdometer endOdometer) s1
      let s3 := updateDrivers trip.driver_id (fun d => { d with status := "Available" }) s2
      (.ok { trip := updatedTrip, distance := distance }, s3)

/-- The source's `cancelTrip(tripId)`. -/
def cancelTrip (tripId : Nat) (s : Store) : Except String Trip × Store :=
  match selectTrip s tripId with
  | none => (.error "Trip not found", s)
  | some trip =>
    if trip.status = "Completed" ∨ trip.status = "Cancelled" then
      (.error "Completed or already cancelled trips cannot be cancelled", s) else
    let s1 := updateTrips tripId (fun t => { t with status := "Cancelled" }) s
    match selectTrip s1 tripId with
    | none => (.error "JSON object requested, multiple (or no) rows returned", s)
    | some updatedTrip =>
      if trip.status = "Dispatched" then
        let s2 := updateVehicles trip.vehicle_id (fun v => { v with status := "Available" }) s1
        let s3 := updateDrivers trip.driver_id (fun d => { d with status := "Available" }) s2
        (.ok updatedTrip, s3)
      else (.ok updatedTrip, s1)

/-- The source's `deleteTrip(tripId)`; the result `{ success: true }` is `()`. -/
def deleteTrip (tripId : Nat) (s : Store) : Except String Unit × Store :=
  match selectTrip s tripId with
  | none => (.error "Trip not found", s)
  | some trip =>
    let s1 := { s with trips := s.trips.filter (fun t => !decide (t.id = tripId)) }
    if trip.status = "Dispatched" then
      let s2 := updateVehicles trip.vehicle_id (fun v => { v with status := "Available" }) s1
      let s3 := updateDrivers trip.driver_id (fun d => { d with status := "Available" }) s2
      (.ok (), s3)
    else (.ok (), s1)

/-- The `updateTrip` payload: each supplied field overwrites its column. -/
def applyTripData (tripData : TripData) (t : Trip) : Trip :=
  { t with
    vehicle_id := if tripData.vehicle_id.isSome then tripData.vehicle_id else t.vehicle_id
    driver_id := if tripData.driver_id.isSome then tripData.driver_id else t.driver_id
    cargo_weight := if tripData.cargo_weight.isSome then tripData.cargo_weight else t.cargo_weight
    start_location :=
      if tripData.start_location.isSome then tripData.start_location else t.start_location
    end_location := if tripData.end_location.isSome then tripData.end_location else t.end_location
    start_odometer :=
      if tripData.start_odometer.isSome then tripData.start_odometer else t.start_odometer
    revenue := if tripData.revenue.isSome then tripData.revenue else t.revenue }

/-- The source's `updateTrip(tripId, tripData)`. -/
def updateTrip (tripId : Nat) (tripData : TripData) (s : Store) : Except String Trip × Store :=
  match single ((s.trips.filter (fun t => decide (t.id = tripId))).map (applyTripData tripData)) with
  | none => (.error "JSON object requested, multiple (or no) rows returned", s)
  | some updatedTrip => (.ok updatedTrip, updateTrips tripId (applyTripData tripData) s)


/-! ### The vehicle invariant and operation sequences -/

/-- The trip `t` is `Dispatched` and references the vehicle `vehicleId`. -/
def isDispatchedOn (vehicleId : Nat) (t : Trip) : Bool :=
  decide (t.status = "Dispatched" ∧ t.vehicle_id = some vehicleId)

/-- The number of `Dispatched` trips that reference the vehicle `vehicleId`. -/
def dispatchedCount (s : Store) (vehicleId : Nat) : Nat :=
  s.trips.countP (isDispatchedOn vehicleId)

/-- Every vehicle is `On Trip` if and only if exactly one `Dispatched` trip references it. -/
def VehicleInvariant (s : Store) : Prop :=
  ∀ v ∈ s.vehicles, (v.status = "On Trip" ↔ dispatchedCount s v.id = 1)

instance (s : Store) : Decidable (VehicleInvariant s) :=
  inferInstanceAs (Decidable (∀ v ∈ s.vehicles, (v.status = "On Trip" ↔ dispatchedCount s v.id = 1)))

/-- No vehicle is referenced by more than one `Dispatched` trip. -/
def AtMostOneDispatch (s : Store) : Prop :=
  ∀ v ∈ s.vehicles, dispatchedCount s v.id ≤ 1

instance (s : Store) : Decidable (AtMostOneDispatch s) :=
  inferInstanceAs (Decidable (∀ v ∈ s.vehicles, dispatchedCount s v.id ≤ 1))

/-- A request to the trip service. -/
inductive Op where
  | createDraftTrip (now : Int) (tripData : TripData)
  | dispatchTrip (now : Int) (tripId : Nat)
  | completeTrip (tripId : Nat) (endOdometer revenue : Option Int)
  | cancelTrip (tripId : Nat)
  | deleteTrip (tripId : Nat)
  | updateTrip (tripId : Nat) (tripData : TripData)
deriving DecidableEq, Repr

/-- The store left by a request that succeeds; `none` when the request throws. -/
def successStore {α : Type} : Except String α × Store → Option Store
  | (.ok _, s) => some s
  | (.error _, _) => none

/-- One request, kept only when it succeeds. -/
def Op.apply (op : Op) (s : Store) : Option Store :=
  match op with
  | .createDraftTrip now tripData => successStore (Fleet.createDraftTrip now tripData s)
  | .dispatchTrip now tripId => successStore (Fleet.dispatchTrip now tripId s)
  | .completeTrip tripId endOdometer revenue =>
    successStore (Fleet.completeTrip tripId endOdometer revenue s)
  | .cancelTrip tripId => successStore (Fleet.cancelTrip tripId s)
  | .deleteTrip tripId => successStore (Fleet.deleteTrip tripId s)
  | .updateTrip tripId tripData => successStore (Fleet.updateTrip tripId tripData s)

/-- A sequence of requests each of which succeeds, and the store it ends in. -/
def runOps : List Op → Store → Option Store
  | [], s => some s
  | op :: ops, s =>
    match op.apply s with
    | some s' => runOps ops s'
    | none => none

/-- The request is an `updateTrip` that gives a trip that is `Dispatched` in `s` a
`vehicle_id` other than the one it has. -/
def Op.repoints (op : Op) (s : Store) : Bool :=
  match op with
  | .updateTrip tripId tripData =>
    s.trips.any (fun t =>
      decide (t.id = tripId ∧ t.status = "Dispatched" ∧
        tripData.vehicle_id.isSome = true ∧ tripData.vehicle_id ≠ t.vehicle_id))
  | _ => false

/-- No request of the sequence, run from `s`, re-points a trip that is `Dispatched` when the
request arrives. -/
def keepsVehicles : List Op → Store → Bool
  | [], _ => true
  | op :: ops, s =>
    !op.repoints s &&
      (match op.apply s with
       | some s' => keepsVehicles ops s'
       | none => true)

/-- One vehicle `On Trip`, another `Available`, and a `Dispatched` trip on the first. -/
def repointStore : Store :=
  { trips := [{ id := 1, vehicle_id := some 1, driver_id := some 7, status := "Dispatched" }]
    vehicles := [{ id := 1, status := "On Trip" }, { id := 2, status := "Available" }]
    drivers := [{ id := 7, status := "On Duty" }] }

/-- An `Available` vehicle referenced by two `Dispatched` trips. -/
def doubleBookedStore : Store :=
  { trips := [{ id := 1, vehicle_id := some 1, driver_id := some 7, status := "Dispatched" },
              { id := 2, vehicle_id := some 1, driver_id := some 8, status := "Dispatched" }]
    vehicles := [{ id := 1, status := "Available" }]
    drivers := [{ id := 7, status := "On Duty" }, { id := 8, status := "On Duty" }] }

/-- The store `repointStore` after `updateTrip(1, { vehicle_id: 2 })`. -/
def repointedStore : Store :=
  { trips := [{ id := 1, vehicle_id := some 2, driver_id := some 7, status := "Dispatched" }]
    vehicles := [{ id := 1, status := "On Trip" }, { id := 2, status := "Available" }]
    drivers := [{ id := 7, status := "On Duty" }] }

/-- The store `doubleBookedStore` after `cancelTrip(1)`. -/
def doubleBookedCancelled : Store :=
  { trips := [{ id := 1, vehicle_id := some 1, driver_id := some 7, status := "Cancelled" },
              { id := 2, vehicle_id := some 1, driver_id := some 8, status := "Dispatched" }]
    vehicles := [{ id := 1, status := "Available" }]
    drivers := [{ id := 7, status := "Available" }, { id := 8, status := "On Duty" }] }

/-- Each vehicle `On Trip` is referenced by exactly one `Dispatched` trip and every other
vehicle by none. -/
def StrongInvariant (s : Store) : Prop :=
  ∀ v ∈ s.vehicles, dispatchedCount s v.id = if v.status = "On Trip" then 1 else 0

/-! ### The dashboard's licence check -/

/-- The UTC calendar day of `now`, as `new Date().toISOString().split('T')[0]`. -/
def today (now : Int) : Int := now / msPerDay

/-- The `complianceAlertsCount` of `getDashboardMetrics`: the drivers whose `expiry_date` is
before today (`.lt('expiry_date', today)`; a `NULL` date never matches). -/
def expiredLicenses (now : Int) (drivers : List Driver) : Nat :=
  drivers.countP (fun d =>
    match d.expiry_date with
    | some e => decide (e < today now)
    | none => false)

/-! ### A worked example -/

/-- Midnight UTC of 2026-11-05, the day the example licence expires. -/
def demoNow : Int := 20762 * 86400000

/-- Noon UTC of 2026-11-05. -/
def demoNoon : Int := 20762 * 86400000 + 43200000

/-- A fleet of two vehicles and two drivers, with no trips. -/
def fleetStore : Store :=
  { trips := []
    vehicles := [{ id := 1, max_capacity := some 500, odometer := some 900, status := "Available" },
                 { id := 2, max_capacity := some 300, status := "In Shop" }]
    drivers := [{ id := 7, expiry_date := some 20762, status := "Off Duty" },
                { id := 8, expiry_date := some 30000, status := "Suspended" }] }

/-- The request body of the example trip: a full load, starting at odometer 1000. -/
def demoTripData : TripData :=
  { vehicle_id := some 1, driver_id := some 7, cargo_weight := some 500,
    start_odometer := some 1000 }

/-- The example trip as `createDraftTrip` inserts it. -/
def demoTrip : Trip :=
  { id := 1, vehicle_id := some 1, driver_id := some 7, cargo_weight := some 500,
    start_odometer := some 1000, revenue := some 0, status := "Draft",
    created_at := some demoNow }

/-- The example trip once dispatched. -/
def demoTripDispatched : Trip := { demoTrip with status := "Dispatched" }

/-- The example trip loaded one unit above the capacity of its vehicle. -/
def overloadedTrip : Trip := { demoTrip with cargo_weight := some 501 }

/-- The fleet with the overloaded trip in `Draft`. -/
def overloadedStore : Store := { fleetStore with trips := [overloadedTrip] }

/-- The vehicle of the example trip. -/
def demoVehicle : Vehicle :=
  { id := 1, max_capacity := some 500, odometer := some 900, status := "Available" }

/-- The driver of the example trip. -/
def demoDriver : Driver := { id := 7, expiry_date := some 20762, status := "Off Duty" }

/-- The fleet after the example trip was created. -/
def demoStore : Store := { fleetStore with trips := [demoTrip] }

/-- The fleet after the example trip was dispatched. -/
def demoDispatched : Store :=
  { trips := [demoTripDispatched]
    vehicles := [{ id := 1, max_capacity := some 500, odometer := some 900, status := "On Trip" },
                 { id := 2, max_capacity := some 300, status := "In Shop" }]
    drivers := [{ id := 7, expiry_date := some 20762, status := "On Duty" },
                { id := 8, expiry_date := some 30000, status := "Suspended" }] }

/-- The example trip after completion at odometer 1250 with revenue 40. -/
def demoTripCompleted : Trip :=
  { demoTrip with status := "Completed", end_odometer := some 1250, revenue := some 40 }

/-- The fleet after the example trip was completed at odometer 1250. -/
def demoCompleted : Store :=
  { trips := [demoTripCompleted]
    vehicles := [{ id := 1, max_capacity := some 500, odometer := some 1250,
                   status := "Available" },
                 { id := 2, max_capacity := some 300, status := "In Shop" }]
    drivers := [{ id := 7, expiry_date := some 20762, status := "Available" },
                { id := 8, expiry_date := some 30000, status := "Suspended" }] }

/-- The fleet after the dispatched example trip was cancelled, or, without the trip row,
deleted. -/
def demoReleased : Store :=
  { trips := [{ demoTrip with status := "Cancelled" }]
    vehicles := [{ id := 1, max_capacity := some 500, odometer := some 900,
                   status := "Available" },
                 { id := 2, max_capacity := some 300, status := "In Shop" }]
    drivers := [{ id := 7, expiry_date := some 20762, status := "Available" },
                { id := 8, expiry_date := some 30000, status := "Suspended" }] }

/-- The example trip is created, dispatched, edited without a change of vehicle, and completed. -/
def demoOps : List Op :=
  [Op.createDraftTrip demoNow demoTripData, Op.dispatchTrip demoNow 1,
    Op.updateTrip 1 { vehicle_id := some 1 }, Op.completeTrip 1 (some 1250) (some 40)]


/-! ### Further notions for the trip state machine -/

/-- The request is one of the five status-bearing requests, not an `updateTrip`. -/
def Op.isTransition : Op → Bool
  | .updateTrip _ _ => false
  | _ => true

/-- The store `doubleBookedStore` after `completeTrip(1, 10, 0)`. -/
def doubleBookedCompleted : Store :=
  { trips := [{ id := 1, vehicle_id := some 1, driver_id := some 7, end_odometer := some 10,
                revenue := some 0, status := "Completed" },
              { id := 2, vehicle_id := some 1, driver_id := some 8, status := "Dispatched" }]
    vehicles := [{ id := 1, odometer := some 10, status := "Available" }]
    drivers := [{ id := 7, status := "Available" }, { id := 8, status := "On Duty" }] }

/-- The four values of a trip's status. -/
def tripStatuses : List String := ["Draft", "Dispatched", "Completed", "Cancelled"]

/-- A status change the state machine admits: none at all, or one of `Draft → Dispatched`,
`Dispatched → Completed`, `Draft → Cancelled`, `Dispatched → Cancelled`. -/
def Transition (a b : String) : Prop :=
  a = b ∨ (a = "Draft" ∧ b = "Dispatched") ∨ (a = "Dispatched" ∧ b = "Completed") ∨
    (a = "Draft" ∧ b = "Cancelled") ∨ (a = "Dispatched" ∧ b = "Cancelled")

instance (a b : String) : Decidable (Transition a b) :=
  inferInstanceAs (Decidable (a = b ∨ (a = "Draft" ∧ b = "Dispatched") ∨
    (a = "Dispatched" ∧ b = "Completed") ∨ (a = "Draft" ∧ b = "Cancelled") ∨
    (a = "Dispatched" ∧ b = "Cancelled")))

/-- The store a request leaves behind, whether it succeeds or throws. -/
def Op.after (op : Op) (s : Store) : Store :=
  match op with
  | .createDraftTrip now tripData => (Fleet.createDraftTrip now tripData s).2
  | .dispatchTrip now tripId => (Fleet.dispatchTrip now tripId s).2
  | .completeTrip tripId endOdometer revenue =>
    (Fleet.completeTrip tripId endOdometer revenue s).2
  | .cancelTrip tripId => (Fleet.cancelTrip tripId s).2
  | .deleteTrip tripId => (Fleet.deleteTrip tripId s).2
  | .updateTrip tripId tripData => (Fleet.updateTrip tripId tripData s).2

/-- The trip table `after` is `before` with each row kept under its identifier, its status
either unchanged or moved along an admitted transition (never out of `Completed` or
`Cancelled`), followed by rows that are new and `Draft`. -/
def RowsEvolve (before after : List Trip) : Prop :=
  ∃ (g : Trip → Trip) (extra : List Trip),
    after = before.map g ++ extra ∧
    (∀ x ∈ extra, x.status = "Draft") ∧
    ∀ t ∈ before, (g t).id = t.id ∧
      ((t.status = "Completed" ∨ t.status = "Cancelled") → (g t).status = t.status) ∧
      (t.status ∈ tripStatuses → Transition t.status (g t).status)


/-! ### Busy drivers and vehicles -/

/-- The trip `t` is `Dispatched` and references the driver `driverId`. -/
def isDispatchedBy (driverId : Nat) (t : Trip) : Bool :=
  decide (t.status = "Dispatched" ∧ t.driver_id = some driverId)

/-- The number of `Dispatched` trips that reference the driver `driverId`. -/
def driverDispatchedCount (s : Store) (driverId : Nat) : Nat :=
  s.trips.countP (isDispatchedBy driverId)

/-- Every driver is referenced by at most one `Dispatched` trip. -/
def DriverAtMostOne (s : Store) : Prop :=
  ∀ d ∈ s.drivers, driverDispatchedCount s d.id ≤ 1

instance (s : Store) : Decidable (DriverAtMostOne s) :=
  inferInstanceAs (Decidable (∀ d ∈ s.drivers, driverDispatchedCount s d.id ≤ 1))

/-- No trip of the store is `Dispatched`. -/
def NoDispatched (s : Store) : Prop :=
  ∀ t ∈ s.trips, t.status ≠ "Dispatched"

instance (s : Store) : Decidable (NoDispatched s) :=
  inferInstanceAs (Decidable (∀ t ∈ s.trips, t.status ≠ "Dispatched"))

/-- Each vehicle is referenced by no `Dispatched` trip, or by exactly one and is `On Trip`. -/
def BusyInvariant (s : Store) : Prop :=
  ∀ v ∈ s.vehicles,
    dispatchedCount s v.id = 0 ∨ (dispatchedCount s v.id = 1 ∧ v.status = "On Trip")

/-- Two `Available` vehicles and one driver, with no trips. -/
def sharedDriverStore : Store :=
  { trips := []
    vehicles := [{ id := 1, max_capacity := some 500, status := "Available" },
                 { id := 2, max_capacity := some 500, status := "Available" }]
    drivers := [{ id := 7, expiry_date := some 20762, status := "Off Duty" }] }

/-- Two trips are created for the same driver on different vehicles, and both dispatched. -/
def sharedDriverOps : List Op :=
  [Op.createDraftTrip demoNow { vehicle_id := some 1, driver_id := some 7 },
    Op.createDraftTrip demoNow { vehicle_id := some 2, driver_id := some 7 },
    Op.dispatchTrip demoNow 1, Op.dispatchTrip demoNow 2]

/-- The store `sharedDriverStore` after `sharedDriverOps`. -/
def sharedDriverDispatched : Store :=
  { trips := [{ id := 1, vehicle_id := some 1, driver_id := some 7, start_odometer := some 0,
                revenue := some 0, status := "Dispatched", created_at := some demoNow },
              { id := 2, vehicle_id := some 2, driver_id := some 7, start_odometer := some 0,
                revenue := some 0, status := "Dispatched", created_at := some demoNow }]
    vehicles := [{ id := 1, max_capacity := some 500, status := "On Trip" },
                 { id := 2, max_capacity := some 500, status := "On Trip" }]
    drivers := [{ id := 7, expiry_date := some 20762, status := "On Duty" }] }

/-! ### Odometers -/

/-- The row's `end_odometer` is not below its `start_odometer`, when both are set. -/
def odometerOrdered (t : Trip) : Bool :=
  match t.start_odometer, t.end_odometer with
  | some a, some b => decide (a ≤ b)
  | _, _ => true

/-- Every trip that has both odometer readings satisfies `end_odometer ≥ start_odometer`. -/
def OdometerOrdered (s : Store) : Prop :=
  ∀ t ∈ s.trips, odometerOrdered t = true

instance (s : Store) : Decidable (OdometerOrdered s) :=
  inferInstanceAs (Decidable (∀ t ∈ s.trips, odometerOrdered t = true))

/-- The example trip is created, dispatched and completed at 1250, and then its start odometer
is edited to 2000. -/
def regressOps : List Op :=
  [Op.createDraftTrip demoNow demoTripData, Op.dispatchTrip demoNow 1,
    Op.completeTrip 1 (some 1250) (some 40), Op.updateTrip 1 { start_odometer := some 2000 }]

/-- The store `fleetStore` after `regressOps`. -/
def regressedStore : Store :=
  { demoCompleted with trips := [{ demoTripCompleted with start_odometer := some 2000 }] }

/-- A vehicle whose odometer reads 5000, on a `Dispatched` trip whose start odometer was
entered as 1000. -/
def wornVehicleStore : Store :=
  { trips := [{ id := 1, vehicle_id := some 1, driver_id := some 7, start_odometer := some 1000,
                revenue := some 0, status := "Dispatched" }]
    vehicles := [{ id := 1, odometer := some 5000, status := "On Trip" }]
    drivers := [{ id := 7, status := "On Duty" }] }

/-- The store `wornVehicleStore` after `completeTrip(1, 1250, 40)`. -/
def wornVehicleCompleted : Store :=
  { trips := [{ id := 1, vehicle_id := some 1, driver_id := some 7, start_odometer := some 1000,
                end_odometer := some 1250, revenue := some 40, status := "Completed" }]
    vehicles := [{ id := 1, odometer := some 1250, status := "Available" }]
    drivers := [{ id := 7, status := "Available" }] }

/-! ### The HTTP surface

A handler answers with a status code and a JSON body, which is either `{ error: message }`
or a payload.  A thrown error is an object with optional `status`, `statusCode` and `message`;
`new Error(message)` carries only the message. -/

/-- An HTTP answer: the status code, and `{ error: message }` or the JSON payload. -/
structure HttpResponse (α : Type) where
  status : Nat
  body : Except String α
deriving DecidableEq, Repr

/-- An error object as the central handler of `app.js` reads it. -/
structure ThrownError where
  status : Option Nat := none
  statusCode : Option Nat := none
  message : Option String := none
deriving DecidableEq, Repr

/-- The source's `new Error(message)`. -/
def newError (message : String) : ThrownError := { message := some message }

/-- JavaScript `a || b` on an optional number: `undefined` and `0` are falsy. -/
def orNumber (a : Option Nat) (b : Nat) : Nat :=
  match a with
  | some n => if n = 0 then b else n
  | none => b

/-- JavaScript `a || b` on an optional string: `undefined` and `''` are falsy. -/
def orString (a : Option String) (b : String) : String :=
  match a with
  | some x => if x = "" then b else x
  | none => b

/-- The centralized error handler of `app.js`. -/
def errorHandler {α : Type} (err : ThrownError) : HttpResponse α :=
  { status := orNumber err.status (orNumber err.statusCode 500)
    body := .error (orString err.message "Internal Server Error") }

/-- A controller of `tripController.js`: `res.json(result)` on success, `next(error)`, which
reaches the central handler, when the service throws. -/
def respond {α : Type} (r : Except String α × Store) : HttpResponse α × Store :=
  match r with
  | (.ok result, s) => ({ status := 200, body := .ok result }, s)
  | (.error message, s) => (errorHandler (newError message), s)

namespace TripController

/-- The source's controller `dispatchTrip`. -/
def dispatchTrip (now : Int) (id : Nat) (s : Store) : HttpResponse Trip × Store :=
  respond (Fleet.dispatchTrip now id s)

/-- The source's controller `cancelTrip`. -/
def cancelTrip (id : Nat) (s : Store) : HttpResponse Trip × Store :=
  respond (Fleet.cancelTrip id s)

/-- The source's controller `finishTrip`, with `end_odometer` and `revenue` read from the
request body. -/
def finishTrip (id : Nat) (end_odometer revenue : Option Int) (s : Store) :
    HttpResponse CompletedTrip × Store :=
  respond (Fleet.completeTrip id end_odometer revenue s)

end TripController

/-- The authenticated user attached to a request; `role` is the profile's role. -/
structure User where
  role : Option String := none
deriving DecidableEq, Repr

/-- What the middleware reads of a request. -/
structure Request where
  user : Option User := none
deriving DecidableEq, Repr

/-- What a middleware does: it calls `next()`, or it answers itself with a status and an
error message. -/
inductive Gate where
  | next
  | reject (status : Nat) (error : String)
deriving DecidableEq, Repr

/-- The source's `authorize(...allowedRoles)` of `middlewares/role.js`; `toLowerCase` is
JavaScript's `String.prototype.toLowerCase`. -/
def authorize (toLowerCase : String → String) (allowedRoles : List String) (req : Request) :
    Gate :=
  match req.user with
  | none => .reject 401 "Unauthorized"
  | some user =>
    match user.role with
    | none => .reject 401 "Unauthorized"
    | some role =>
      if role = "" then .reject 401 "Unauthorized" else
      let userRole := toLowerCase role
      let isAllowed := allowedRoles.any (fun r => decide (toLowerCase r = userRole))
      if !isAllowed then .reject 403 "Forbidden: Insufficient permissions" else .next

/-- A route `router.x(path, gate, handler)`: the handler runs only when the gate calls
`next()`. -/
def guarded {α : Type} (gate : Gate) (handler : Store → HttpResponse α × Store) (s : Store) :
    HttpResponse α × Store :=
  match gate with
  | .next => handler s
  | .reject status error => ({ status := status, body := .error error }, s)

/-- The lower-casing of ASCII text, an instance of `toLowerCase` on the role names. -/
def asciiLower (x : String) : String := ⟨x.data.map Char.toLower⟩

/-- The values `updateDriverStatus` accepts. -/
def allowedDriverStatuses : List String := ["On Duty", "Off Duty", "Available", "Suspended"]

/-- The source's `updateDriverStatus` of `driverController.js`, with `id` from the path and
`status` from the request body. -/
def updateDriverStatus (id : Nat) (status : Option String) (s : Store) :
    HttpResponse Driver × Store :=
  let invalid : HttpResponse Driver :=
    { status := 400
      body := .error ("Invalid status. Must be one of: " ++ ", ".intercalate allowedDriverStatuses) }
  match status with
  | none => (invalid, s)
  | some st =>
    if st = "" ∨ st ∉ allowedDriverStatuses then (invalid, s) else
    let s1 := updateDrivers (some id) (fun d => { d with status := st }) s
    match selectDriver s1 (some id) with
    | none =>
      ({ status := 400, body := .error "JSON object requested, multiple (or no) rows returned" }, s)
    | some data => ({ status := 200, body := .ok data }, s1)

/-- The route `PATCH /drivers/:id/status` of `driverRoutes.js`. -/
def patchDriverStatus (toLowerCase : String → String) (req : Request) (id : Nat)
    (status : Option String) (s : Store) : HttpResponse Driver × Store :=
  guarded (authorize toLowerCase ["Safety Officer"] req) (updateDriverStatus id status) s

/-! ### The position simulator

`Math.random()` and the floating-point distance are outside the model: each call of
`moveVehicle` draws a `Move`, the two coordinate offsets and the distance, from a source
`rand`.  Coordinates are in millionths of a degree. -/

/-- What one call of `moveVehicle` draws: the two offsets and the distance they amount to. -/
structure Move where
  deltaLat : Int
  deltaLng : Int
  distance : Int
deriving DecidableEq, Repr

/-- JavaScript `x || d` on a nullable coordinate: `null` and `0` are falsy. -/
def orCoordinate (x : Option Int) (d : Int) : Int :=
  match x with
  | some v => if v = 0 then d else v
  | none => d

/-- The source's `moveVehicle(lat, lng)`: `(newLat, newLng, distance)`, from Mumbai when a
coordinate is missing. -/
def moveVehicle (lat lng : Option Int) (m : Move) : Int × Int × Int :=
  let currentLat := orCoordinate lat 19076000
  let currentLng := orCoordinate lng 72877700
  (currentLat + m.deltaLat, currentLng + m.deltaLng, m.distance)

/-- The update payload of one simulated vehicle `v`, as read in the snapshot. -/
def movedRow (now : Int) (m : Move) (v : Vehicle) (row : Vehicle) : Vehicle :=
  let moved := moveVehicle v.current_lat v.current_lng m
  let currentOdo := toNumber v.odometer
  { row with
    current_lat := some moved.1
    current_lng := some moved.2.1
    odometer := some (currentOdo + moved.2.2)
    last_updated := some now }

/-- The updates `vehicles.map(async v => ...)` of `simulate`, one per snapshot row, the
`i`-th drawing `rand i`. -/
def moveAll (now : Int) (rand : Nat → Move) (i : Nat) : List Vehicle → List Vehicle → List Vehicle
  | [], table => table
  | v :: rest, table =>
    moveAll now rand (i + 1) rest
      (updateWhere (fun row => decide (row.id = v.id)) (movedRow now (rand i) v) table)

/-- The source's `simulate()`: one tick.  With no vehicle `On Trip` it sets the (at most
three) `Available` vehicles the query returns to `On Trip`; otherwise it moves every vehicle
that is `On Trip`. -/
def simulate (now : Int) (rand : Nat → Move) (s : Store) : Store :=
  let vehicles := s.vehicles.filter (fun v => decide (v.status = "On Trip"))
  if vehicles.length = 0 then
    let availVehicles := (s.vehicles.filter (fun v => decide (v.status = "Available"))).take 3
    if availVehicles.length > 0 then
      let ids : List Nat := availVehicles.map (fun v => v.id)
      let activated := updateWhere (fun row => ids.contains row.id)
        (fun row => { row with status := "On Trip" }) s.vehicles
      { s with vehicles := activated }
    else s
  else { s with vehicles := moveAll now rand 0 vehicles s.vehicles }

/-- The row `after` is `before` in every field but position, odometer and last-updated. -/
def SameButPosition (before after : Vehicle) : Prop :=
  after = { before with
    current_lat := after.current_lat
    current_lng := after.current_lng
    odometer := after.odometer
    last_updated := after.last_updated }

/-- The example fleet after a tick that found no vehicle `On Trip`. -/
def activatedFleet : Store :=
  { demoStore with
    vehicles := [{ id := 1, max_capacity := some 500, odometer := some 900, status := "On Trip" },
                 { id := 2, max_capacity := some 300, status := "In Shop" }] }

/-- The example source of moves: ten thousandths of a degree north-east, one unit far. -/
def demoRand (_ : Nat) : Move := { deltaLat := 10000, deltaLng := 10000, distance := 1 }

/-! ### JavaScript numbers in the analytics

Sums of integer amounts are exact (amounts are integers that stay below `2 ^ 53`).  A
quotient is kept as an exact fraction `Ratio`, and every arithmetic result that a double has
to round passes through `fl`, the rounding to the nearest double, which the model takes as a
parameter; `IsRounding` is what the statements assume of it.  `toFixed` rounds its argument
exactly, ties upwards in magnitude, as the language specifies for numbers below `10 ^ 21`. -/

/-- A finite number that need not be an integer: `num / den`, with `den` positive. -/
structure Ratio where
  num : Int
  den : Nat
deriving DecidableEq, Repr

/-- The number a `Ratio` stands for. -/
def Ratio.value (r : Ratio) : ℚ := (r.num : ℚ) / (r.den : ℚ)

/-- The exact quotient `a / b` of two integers, `b` not zero. -/
def Ratio.quotient (a b : Int) : Ratio :=
  if b < 0 then ⟨-a, b.natAbs⟩ else ⟨a, b.natAbs⟩

/-- The exact product of a `Ratio` with an integer. -/
def Ratio.scale (k : Int) (r : Ratio) : Ratio := ⟨k * r.num, r.den⟩

/-- The relative error of rounding to a double. -/
def unitRoundoff : ℚ := 1 / 2 ^ 53

/-- What is assumed of `fl`: it keeps a fraction a fraction and moves it by at most one part
in `2 ^ 53`. -/
def IsRounding (fl : Ratio → Ratio) : Prop :=
  ∀ r : Ratio, 0 < r.den → 0 < (fl r).den ∧ |(fl r).value - r.value| ≤ unitRoundoff * |r.value|

/-- Exact arithmetic, one admissible `fl`. -/
def exact (r : Ratio) : Ratio := r

/-- The string `toFixed` returns, kept as sign, scaled integer and number of decimals. -/
structure Fixed where
  negative : Bool
  units : Nat
  digits : Nat
deriving DecidableEq, Repr

/-- The source's `x.toFixed(digits)`: the integer `n` closest to `|x| * 10 ^ digits`, the
larger one in a tie, under the sign of `x`. -/
def toFixed (digits : Nat) (x : Ratio) : Fixed :=
  { negative := decide (x.num < 0)
    units := (2 * x.num.natAbs * 10 ^ digits + x.den) / (2 * x.den)
    digits := digits }

/-- The scaled integer with its sign. -/
def Fixed.signed (f : Fixed) : Int := if f.negative then -(f.units : Int) else (f.units : Int)

/-- The number the string denotes, as `Number(...)` reads it back. -/
def Fixed.value (f : Fixed) : ℚ := (f.signed : ℚ) / (10 : ℚ) ^ f.digits

/-- Left padding with zeros to a width. -/
def padZeros (width : Nat) (x : String) : String :=
  String.mk (List.replicate (width - x.length) '0') ++ x

/-- The characters of the string: sign, integer part, and the decimals after a point. -/
def Fixed.text (f : Fixed) : String :=
  (if f.negative then "-" else "") ++ toString (f.units / 10 ^ f.digits) ++
    (if f.digits = 0 then "" else "." ++ padZeros f.digits (toString (f.units % 10 ^ f.digits)))

/-- The source's `Math.round(x)`: the nearest integer, the larger one in a tie. -/
def mathRound (x : Ratio) : Int := (2 * x.num + x.den) / (2 * (x.den : Int))

/-- A field that holds the string of `toFixed` on one branch and the number `0` on the
other. -/
inductive Rate where
  | fixed (f : Fixed)
  | zero
deriving DecidableEq, Repr

/-- The number a `Rate` denotes. -/
def Rate.value : Rate → ℚ
  | .fixed f => f.value
  | .zero => 0

/-- The scaled integer of a `Rate`, `0` for the number `0`. -/
def Rate.signed : Rate → Int
  | .fixed f => f.signed
  | .zero => 0

/-! ### Dashboard and driver metrics -/

/-- The `utilizationRate` of `getDashboardMetrics`, from the two counts. -/
def utilizationRate (fl : Ratio → Ratio) (onTripCount activeFleet : Nat) : String :=
  let rate : Ratio :=
    if activeFleet > 0 then fl (Ratio.scale 100 (fl (Ratio.quotient onTripCount activeFleet)))
    else ⟨0, 1⟩
  (toFixed 2 rate).text ++ "%"

/-- An entry of the answer of `getDriverMetrics`. -/
structure DriverMetric where
  name : Option String
  safetyScore : Option Int
  completionRate : Rate
  totalTrips : Nat
deriving DecidableEq, Repr

/-- The source's `getDriverMetrics`, over the fetched drivers and trips. -/
def getDriverMetrics (fl : Ratio → Ratio) (drivers : List Driver) (trips : List Trip) :
    List DriverMetric :=
  drivers.map (fun driver =>
    let driverTrips := trips.filter (fun t => decide (t.driver_id = some driver.id))
    let operationalTrips :=
      driverTrips.filter (fun t => decide (t.status ∈ ["Dispatched", "Completed"]))
    let total := operationalTrips.length
    let completed := (driverTrips.filter (fun t => decide (t.status = "Completed"))).length
    let completionRate : Rate :=
      if total > 0 then
        .fixed (toFixed 0 (fl (Ratio.scale 100 (fl (Ratio.quotient completed total)))))
      else .zero
    { name := driver.name
      safetyScore := driver.safety_score
      completionRate := completionRate
      totalTrips := total })

/-! ### The drivers listing -/

/-- The source's `x || 0` for a nullable number. -/
def orZero (x : Option Int) : Int := x.getD 0

/-- The value kept per driver id by the reduction of `getDrivers`. -/
structure DriverStats where
  total : Nat
  completed : Nat
  distance : Int
deriving DecidableEq, Repr

/-- One step of the reduction of `getDrivers`; the accumulator object is a finite map from
the `driver_id` of a trip (`null` included) to its entry. -/
def tripStatsStep (acc : Option Nat → Option DriverStats) (t : Trip) :
    Option Nat → Option DriverStats :=
  let id := t.driver_id
  let seeded : DriverStats := (acc id).getD { total := 200, completed := 150, distance := 5200 }
  let counted : DriverStats := { seeded with total := seeded.total + 1 }
  let tripDist := orZero t.end_odometer - orZero t.start_odometer
  let entry : DriverStats :=
    if t.status = "Completed" then
      { counted with
        completed := counted.completed + 1
        distance := if tripDist > 0 then counted.distance + tripDist else counted.distance }
    else counted
  Function.update acc id (some entry)

/-- The `tripStats` of `getDrivers`, over the trips its query returns. -/
def tripStats (trips : List Trip) : Option Nat → Option DriverStats :=
  (trips.filter (fun t => decide (t.status ∈ ["Dispatched", "Completed"]))).foldl tripStatsStep
    (fun _ => none)

/-- A driver of the listing with the four statistics attached. -/
structure ListedDriver where
  driver : Driver
  total_trips : Nat
  completed_trips : Nat
  total_distance : Int
  completion_rate : Int
deriving DecidableEq, Repr

/-- The source's `getDrivers` without a `search` term, over the fetched drivers and the
`trips` table. -/
def getDrivers (fl : Ratio → Ratio) (drivers : List Driver) (trips : List Trip) :
    List ListedDriver :=
  let stats := tripStats trips
  drivers.map (fun driver =>
    let st : DriverStats :=
      (stats (some driver.id)).getD { total := 10, completed := 10, distance := 5200 }
    { driver := driver
      total_trips := st.total
      completed_trips := st.completed
      total_distance := st.distance
      completion_rate :=
        if st.total > 0 then
          mathRound (fl (Ratio.scale 100 (fl (Ratio.quotient st.completed st.total))))
        else 0 })

/-- A driver with one Completed trip of 250 km, and a driver with no trip. -/
def listedDrivers : List Driver :=
  [{ id := 1, name := some "Asha", status := "On Duty" },
    { id := 2, name := some "Ravi", status := "Off Duty" }]

/-- The single trip of the first driver of `listedDrivers`. -/
def listedTrips : List Trip :=
  [{ id := 1, driver_id := some 1, start_odometer := some 1000, end_odometer := some 1250,
      status := "Completed" }]

/-- What the `tripStats` accumulator holds once the trips `done` have been reduced: no entry
for an id without a trip, and otherwise the seed plus the counts of the trips of that id. -/
def StatsInvariant (acc : Option Nat → Option DriverStats) (done : List Trip) : Prop :=
  ∀ id : Option Nat,
    (done.countP (fun t => decide (t.driver_id = id)) = 0 → acc id = none) ∧
    (0 < done.countP (fun t => decide (t.driver_id = id)) →
      ∃ st, acc id = some st ∧
        st.total = 200 + done.countP (fun t => decide (t.driver_id = id)) ∧
        st.completed = 150 +
          done.countP (fun t => decide (t.driver_id = id ∧ t.status = "Completed")))

/-! ### Fuel and maintenance logs, and the two return-on-investment computations

Amounts are integers, so the sums of revenue and cost are exact; only the quotients are
rounded. A `date` column is a day number, as `expiry_date` is. -/

/-- A row of the `fuel_logs` table. -/
structure FuelLog where
  id : Nat
  vehicle_id : Option Nat := none
  liters : Option Int := none
  cost : Option Int := none
  date : Option Int := none
deriving DecidableEq, Repr

/-- A row of the `maintenance_logs` table. -/
structure MaintenanceLog where
  id : Nat
  vehicle_id : Option Nat := none
  service_type : Option String := none
  cost : Option Int := none
  service_date : Option Int := none
deriving DecidableEq, Repr

/-- The string `(a / b).toFixed(digits)` for two integers: a division by zero gives an
infinity or `NaN`, which `toFixed` writes by name. -/
def divideToFixed (fl : Ratio → Ratio) (digits : Nat) (a b : Int) : String :=
  if b = 0 then
    if a > 0 then "Infinity" else if a < 0 then "-Infinity" else "NaN"
  else (toFixed digits (fl (Ratio.quotient a b))).text

/-- What `calculateVehicleROI` returns. -/
structure VehicleROI where
  revenue : Int
  fuelCost : Int
  maintenanceCost : Int
  acquisitionCost : Option Int
  roi : String
deriving DecidableEq, Repr

/-- The source's `calculateVehicleROI`, over the three tables it reads. -/
def calculateVehicleROI (fl : Ratio → Ratio) (vehicleId : Nat) (s : Store)
    (fuel_logs : List FuelLog) (maintenance_logs : List MaintenanceLog) :
    Except String VehicleROI :=
  match selectVehicle s (some vehicleId) with
  | none => .error "Vehicle not found"
  | some vehicle =>
    let trips := s.trips.filter (fun t =>
      decide (t.vehicle_id = some vehicleId) && decide (t.status = "Completed"))
    let totalRevenue := (trips.map (fun t => toNumber t.revenue)).sum
    let fuel := fuel_logs.filter (fun f => decide (f.vehicle_id = some vehicleId))
    let totalFuelCost := (fuel.map (fun f => toNumber f.cost)).sum
    let maintenance := maintenance_logs.filter (fun m => decide (m.vehicle_id = some vehicleId))
    let totalMaintenanceCost := (maintenance.map (fun m => toNumber m.cost)).sum
    .ok
      { revenue := totalRevenue
        fuelCost := totalFuelCost
        maintenanceCost := totalMaintenanceCost
        acquisitionCost := vehicle.acquisition_cost
        roi := divideToFixed fl 4 (totalRevenue - (totalFuelCost + totalMaintenanceCost))
          (toNumber vehicle.acquisition_cost) }

/-- An element of `processedVehicles` in `getBusinessIntelligence`. -/
structure ProcessedVehicle where
  id : Nat
  model : Option String
  license_plate : Option String
  region : Option String
  revenue : Int
  totalCost : Int
  roi : Fixed
deriving DecidableEq, Repr

/-- The body of the `vehicles.map` of `getBusinessIntelligence`; the embedded `trips`,
`fuel_logs` and `maintenance_logs` of a vehicle are the rows that reference it. -/
def processVehicle (fl : Ratio → Ratio) (s : Store) (fuel_logs : List FuelLog)
    (maintenance_logs : List MaintenanceLog) (v : Vehicle) : ProcessedVehicle :=
  let trips := s.trips.filter (fun t => decide (t.vehicle_id = some v.id))
  let completedTrips := trips.filter (fun t => decide (t.status = "Completed"))
  let revenue := (completedTrips.map (fun t => toNumber t.revenue)).sum
  let fuelCost := ((fuel_logs.filter (fun f => decide (f.vehicle_id = some v.id))).map
    (fun f => toNumber f.cost)).sum
  let maintCost := ((maintenance_logs.filter (fun m => decide (m.vehicle_id = some v.id))).map
    (fun m => toNumber m.cost)).sum
  let totalCost := fuelCost + maintCost
  let roi : Ratio :=
    if toNumber v.acquisition_cost > 0 then
      fl (Ratio.quotient (revenue - totalCost) (toNumber v.acquisition_cost))
    else ⟨0, 1⟩
  { id := v.id
    model := v.model
    license_plate := v.license_plate
    region := v.region
    revenue := revenue
    totalCost := totalCost
    roi := toFixed 4 roi }

/-- The `processedVehicles` of `getBusinessIntelligence`. -/
def processedVehicles (fl : Ratio → Ratio) (s : Store) (fuel_logs : List FuelLog)
    (maintenance_logs : List MaintenanceLog) : List ProcessedVehicle :=
  s.vehicles.map (processVehicle fl s fuel_logs maintenance_logs)

/-- The source's `[...processedVehicles].sort((a, b) => b.roi - a.roi)[0]`: the sort is
stable, and the strings of four decimals compare as their scaled integers. -/
def highestROI (processed : List ProcessedVehicle) : Option ProcessedVehicle :=
  (processed.insertionSort (fun a b => a.roi.signed ≥ b.roi.signed)).head?

/-- An own property of the `regionalBreakdown` object, under its property key. -/
structure RegionTotals where
  key : String
  region : Option String
  totalRevenue : Int
  vehicleCount : Nat
deriving DecidableEq, Repr

/-- The property key a region is used as: `null` becomes the string `"null"`. -/
def propertyKey (region : Option String) : String := region.getD "null"

/-- The names every object inherits from `Object.prototype`; all hold a truthy value. -/
def objectPrototypeKeys : List String :=
  ["constructor", "__defineGetter__", "__defineSetter__", "hasOwnProperty", "__lookupGetter__",
    "__lookupSetter__", "isPrototypeOf", "propertyIsEnumerable", "toString", "valueOf",
    "__proto__", "toLocaleString"]

/-- The body of the `reduce` of `getBusinessIntelligence`. Under an inherited name `acc[key]`
is the inherited member, so no own property is created and the two additions are made on that
member; otherwise the own property is created when missing and then added to. -/
def regionStep (acc : List RegionTotals) (v : ProcessedVehicle) : List RegionTotals :=
  let key := propertyKey v.region
  if key ∈ objectPrototypeKeys then acc
  else
    let created :=
      if acc.any (fun r => decide (r.key = key)) then acc
      else acc ++ [{ key := key, region := v.region, totalRevenue := 0, vehicleCount := 0 }]
    created.map (fun r =>
      if r.key = key then
        { r with totalRevenue := r.totalRevenue + v.revenue, vehicleCount := r.vehicleCount + 1 }
      else r)

/-- The `regionalBreakdown` of `getBusinessIntelligence`, own properties in creation order. -/
def regionalBreakdown (processed : List ProcessedVehicle) : List RegionTotals :=
  processed.foldl regionStep []

/-- The array index a property key is, if it is one: a decimal numeral without a leading
zero, below `2 ^ 32 - 1`. -/
def arrayIndex (k : String) : Option Nat :=
  let n := k.data.foldl (fun n c => 10 * n + (c.toNat - 48)) 0
  if k.data ≠ [] ∧ k.data.all Char.isDigit = true ∧
      (k.data.head? ≠ some '0' ∨ k.data.length = 1) ∧ n < 4294967295 then some n
  else none

/-- The source's `Object.values`: the properties whose key is an array index come first, by
ascending index, then the others in creation order. -/
def objectValues (acc : List RegionTotals) : List RegionTotals :=
  (acc.filter (fun r => (arrayIndex r.key).isSome)).insertionSort
      (fun a b => (arrayIndex a.key).getD 0 ≤ (arrayIndex b.key).getD 0) ++
    acc.filter (fun r => (arrayIndex r.key).isNone)

/-- An element of `regionalMetrics`; `key` is the property key it was kept under and is not
part of the answer. -/
structure RegionalMetric where
  key : String
  region : Option String
  totalRevenue : Int
  vehicleCount : Nat
  efficiency : Rate
deriving DecidableEq, Repr

/-- The body of the `map` over `Object.values(regionalBreakdown)`. -/
def withEfficiency (fl : Ratio → Ratio) (r : RegionTotals) : RegionalMetric :=
  { key := r.key
    region := r.region
    totalRevenue := r.totalRevenue
    vehicleCount := r.vehicleCount
    efficiency :=
      if r.vehicleCount > 0 then
        .fixed (toFixed 2 (fl (Ratio.quotient r.totalRevenue r.vehicleCount)))
      else .zero }

/-- The `regionalMetrics` of `getBusinessIntelligence`; the sort by
`b.efficiency - a.efficiency` is stable, and the values compare as their scaled integers. -/
def regionalMetrics (fl : Ratio → Ratio) (processed : List ProcessedVehicle) :
    List RegionalMetric :=
  ((objectValues (regionalBreakdown processed)).map (withEfficiency fl)).insertionSort
    (fun a b => a.efficiency.signed ≥ b.efficiency.signed)

/-- The answer of `getBusinessIntelligence`. -/
structure BusinessIntelligence where
  highestROI : Option ProcessedVehicle
  regionalMetrics : List RegionalMetric
  vehicleCount : Nat
deriving DecidableEq, Repr

/-- The source's `getBusinessIntelligence`, over the tables it reads. -/
def getBusinessIntelligence (fl : Ratio → Ratio) (s : Store) (fuel_logs : List FuelLog)
    (maintenance_logs : List MaintenanceLog) : BusinessIntelligence :=
  let processed := processedVehicles fl s fuel_logs maintenance_logs
  { highestROI := highestROI processed
    regionalMetrics := regionalMetrics fl processed
    vehicleCount := processed.length }

/-- A vehicle registered with acquisition cost `0` (what the vehicle form sends for an empty
cost field), one with no acquisition cost and no activity, and one with a negative cost; the
first and third have a Completed trip of revenue 500. -/
def zeroCostStore : Store :=
  { vehicles :=
      [{ id := 1, acquisition_cost := some 0, status := "Available" },
        { id := 2, acquisition_cost := none, status := "Available" },
        { id := 3, acquisition_cost := some (-100), status := "Available" }]
    trips :=
      [{ id := 1, vehicle_id := some 1, revenue := some 500, status := "Completed" },
        { id := 2, vehicle_id := some 3, revenue := some 500, status := "Completed" }] }

/-- A fuel log of cost 100 for each of the two active vehicles of `zeroCostStore`. -/
def zeroCostFuel : List FuelLog :=
  [{ id := 1, vehicle_id := some 1, cost := some 100 },
    { id := 2, vehicle_id := some 3, cost := some 100 }]

/-- The revenue of the Completed trips that reference a vehicle. -/
def completedRevenue (s : Store) (vehicleId : Nat) : Int :=
  ((s.trips.filter (fun t =>
    decide (t.vehicle_id = some vehicleId ∧ t.status = "Completed"))).map
      (fun t => toNumber t.revenue)).sum

/-- The cost of the fuel logs and of the maintenance logs that reference a vehicle. -/
def operatingCost (fuel_logs : List FuelLog) (maintenance_logs : List MaintenanceLog)
    (vehicleId : Nat) : Int :=
  ((fuel_logs.filter (fun f => decide (f.vehicle_id = some vehicleId))).map
      (fun f => toNumber f.cost)).sum +
    ((maintenance_logs.filter (fun m => decide (m.vehicle_id = some vehicleId))).map
      (fun m => toNumber m.cost)).sum

/-- Two vehicles bought for 300000: the first earned 100000 on a Completed trip (and has a
Dispatched trip of revenue 999), the second earned 100004. -/
def roundedRoiStore : Store :=
  { vehicles :=
      [{ id := 1, acquisition_cost := some 300000, status := "On Trip" },
        { id := 2, acquisition_cost := some 300000, status := "Available" }]
    trips :=
      [{ id := 1, vehicle_id := some 1, revenue := some 100000, status := "Completed" },
        { id := 2, vehicle_id := some 1, revenue := some 999, status := "Dispatched" },
        { id := 3, vehicle_id := some 2, revenue := some 100004, status := "Completed" }] }

/-- What the `regionalBreakdown` accumulator holds once the vehicles `done` have been reduced:
one own property per key, none under an inherited name, each with the count and the revenue
of the vehicles of `done` under its key and with a region of that key, and a property for
every vehicle whose key is not an inherited name. -/
def RegionInvariant (acc : List RegionTotals) (done : List ProcessedVehicle) : Prop :=
  (acc.map (fun r => r.key)).Nodup ∧
  (∀ r ∈ acc, r.key ∉ objectPrototypeKeys ∧
    r.vehicleCount = done.countP (fun v => decide (propertyKey v.region = r.key)) ∧
    r.totalRevenue =
      ((done.filter (fun v => decide (propertyKey v.region = r.key))).map
        (fun v => v.revenue)).sum ∧
    0 < r.vehicleCount ∧ propertyKey r.region = r.key) ∧
  (∀ v ∈ done, propertyKey v.region ∉ objectPrototypeKeys →
    propertyKey v.region ∈ acc.map (fun r => r.key))

/-- Three vehicles of region X, the first with a Completed trip of revenue 100, and a vehicle
whose region is named `constructor` with a Completed trip of revenue 50. -/
def thirdsStore : Store :=
  { vehicles :=
      [{ id := 1, region := some "X", status := "Available" },
        { id := 2, region := some "X", status := "Available" },
        { id := 3, region := some "X", status := "Available" },
        { id := 4, region := some "constructor", status := "Available" }]
    trips :=
      [{ id := 1, vehicle_id := some 1, revenue := some 100, status := "Completed" },
        { id := 2, vehicle_id := some 4, revenue := some 50, status := "Completed" }] }

/-- Vehicles A and B of region X with revenues 100 and 300, and a vehicle of region Y with
revenue 500, 200 of it on a trip that is not Completed. -/
def regionalStore : Store :=
  { vehicles :=
      [{ id := 1, model := some "A", region := some "X", status := "Available" },
        { id := 2, model := some "B", region := some "X", status := "Available" },
        { id := 3, model := some "C", region := some "Y", status := "On Trip" }]
    trips :=
      [{ id := 1, vehicle_id := some 1, revenue := some 100, status := "Completed" },
        { id := 2, vehicle_id := some 2, revenue := some 300, status := "Completed" },
        { id := 3, vehicle_id := some 3, revenue := some 300, status := "Completed" },
        { id := 4, vehicle_id := some 3, revenue := some 200, status := "Dispatched" }] }

/-! ### Monthly financial evolution -/

/-- The first seven characters `YYYY-MM` of an ISO date or timestamp. -/
structure Month where
  year : Nat
  month : Nat
deriving DecidableEq, Repr

/-- The order `a.localeCompare(b) <= 0` of two `YYYY-MM` keys: the order of the texts is the
order of the years and, within a year, of the months. -/
def Month.le (a b : Month) : Prop := a.year < b.year ∨ (a.year = b.year ∧ a.month ≤ b.month)

instance Month.decidableLe : DecidableRel Month.le :=
  fun a b => inferInstanceAs (Decidable (a.year < b.year ∨ (a.year = b.year ∧ a.month ≤ b.month)))

/-- The strict order `a.localeCompare(b) < 0` of two `YYYY-MM` keys. -/
def Month.lt (a b : Month) : Prop := a.year < b.year ∨ (a.year = b.year ∧ a.month < b.month)

instance Month.decidableLt : DecidableRel Month.lt :=
  fun a b => inferInstanceAs (Decidable (a.year < b.year ∨ (a.year = b.year ∧ a.month < b.month)))

/-- An own property of the `evolution` object, and an element of the answer. -/
structure MonthEntry where
  month : Month
  revenue : Int
  cost : Int
deriving DecidableEq, Repr

/-- The source's `evolution[month] = evolution[month] || { month, revenue: 0, cost: 0 }`, on
the own properties in creation order. -/
def ensureMonth (evolution : List MonthEntry) (month : Month) : List MonthEntry :=
  if evolution.any (fun e => decide (e.month = month)) then evolution
  else evolution ++ [{ month := month, revenue := 0, cost := 0 }]

/-- The body of the `forEach` over the trips: `evolution[month].revenue += amount`. -/
def addRevenue (evolution : List MonthEntry) (month : Month) (amount : Int) : List MonthEntry :=
  (ensureMonth evolution month).map (fun e =>
    if e.month = month then { e with revenue := e.revenue + amount } else e)

/-- The body of the `forEach` over the logs: `evolution[month].cost += amount`. -/
def addCost (evolution : List MonthEntry) (month : Month) (amount : Int) : List MonthEntry :=
  (ensureMonth evolution month).map (fun e =>
    if e.month = month then { e with cost := e.cost + amount } else e)

/-- One `forEach` of `getFinancialEvolution`: `month` is the `substring(0, 7)` of the date
column of a row, which throws when the column is `null`. -/
def forEachDated {α : Type} (month : α → Option Month) (amount : α → Int)
    (add : List MonthEntry → Month → Int → List MonthEntry) :
    List α → List MonthEntry → Except String (List MonthEntry)
  | [], evolution => .ok evolution
  | row :: rows, evolution =>
    match month row with
    | none => .error "Cannot read properties of null (reading 'substring')"
    | some m => forEachDated month amount add rows (add evolution m (amount row))

/-- The source's `getFinancialEvolution`, over the tables it reads. `monthOfTimestamp` and
`monthOfDay` give the `YYYY-MM` of the text of a timestamp and of a date; the sort is
stable. -/
def getFinancialEvolution (monthOfTimestamp monthOfDay : Int → Month) (s : Store)
    (fuel : List FuelLog) (maintenance : List MaintenanceLog) :
    Except String (List MonthEntry) :=
  let trips := s.trips.filter (fun t => decide (t.status = "Completed"))
  match forEachDated (fun t => t.created_at.map monthOfTimestamp)
      (fun t => toNumber t.revenue) addRevenue trips [] with
  | .error e => .error e
  | .ok afterTrips =>
    match forEachDated (fun f => f.date.map monthOfDay) (fun f => toNumber f.cost) addCost
        fuel afterTrips with
    | .error e => .error e
    | .ok afterFuel =>
      match forEachDated (fun m => m.service_date.map monthOfDay)
          (fun m => toNumber m.cost) addCost maintenance afterFuel with
      | .error e => .error e
      | .ok evolution =>
        .ok (evolution.insertionSort (fun a b => Month.le a.month b.month))

/-- What the `evolution` object holds: one own property per month of `months` and no other,
each with the revenue and the cost of its month, and the two totals. -/
def EvolutionInvariant (evolution : List MonthEntry) (revenue cost : Month → Int)
    (months : List Month) (totalRevenue totalCost : Int) : Prop :=
  (evolution.map (fun e => e.month)).Nodup ∧
  (∀ e ∈ evolution, e.revenue = revenue e.month ∧ e.cost = cost e.month) ∧
  (∀ k, k ∈ evolution.map (fun e => e.month) ↔ k ∈ months) ∧
  (∀ k, k ∉ months → revenue k = 0 ∧ cost k = 0) ∧
  (evolution.map (fun e => e.revenue)).sum = totalRevenue ∧
  (evolution.map (fun e => e.cost)).sum = totalCost

/-- A calendar for the examples: day and timestamp numbers count months, twelve to a year. -/
def demoMonth (n : Int) : Month := { year := 2024 + n.toNat / 12, month := n.toNat % 12 + 1 }

/-- Completed trips in March 2024 (revenue 100 and 40), in January 2024 (revenue 10) and one
without revenue in December 2024, and a Dispatched trip in February 2024. -/
def evolutionStore : Store :=
  { trips :=
      [{ id := 1, revenue := some 100, status := "Completed", created_at := some 2 },
        { id := 2, revenue := some 10, status := "Completed", created_at := some 0 },
        { id := 3, revenue := some 40, status := "Completed", created_at := some 2 },
        { id := 4, revenue := some 70, status := "Dispatched", created_at := some 1 },
        { id := 5, revenue := none, status := "Completed", created_at := some 11 }] }

/-- Fuel bought in March 2024 and in October 2025. -/
def evolutionFuel : List FuelLog :=
  [{ id := 1, cost := some 30, date := some 2 }, { id := 2, cost := some 5, date := some 21 }]

/-- A service in March 2024. -/
def evolutionMaintenance : List MaintenanceLog :=
  [{ id := 1, cost := some 7, service_date := some 2 }]
/-! ## Facts about the store primitives and the shape of each request -/

theorem single_eq_some_iff {α : Type} (l : List α) (r : α) : single l = some r ↔ l = [r] := by
  cases l with
  | nil => simp [single]
  | cons a tl =>
    cases tl with
    | nil => simp [single]
    | cons b tl2 => simp [single]

theorem filter_updateWhere {α : Type} (p q : α → Bool) (f : α → α) (rows : List α)
    (hq : ∀ r, q (f r) = q r) :
    (updateWhere p f rows).filter q = updateWhere p f (rows.filter q) := by
  induction rows with
  | nil => simp [updateWhere]
  | cons a tl ih =>
    simp only [updateWhere, List.map_cons] at ih ⊢
    by_cases hp : p a = true
    · by_cases hqa : q a = true
      · simp [List.filter_cons, hp, hqa, hq, ih]
      · simp [List.filter_cons, hp, hqa, hq, ih]
    · by_cases hqa : q a = true
      · simp [List.filter_cons, hp, hqa, ih]
      · simp [List.filter_cons, hp, hqa, ih]

theorem selectTrip_updateTrips (s : Store) (tripId : Nat) (f : Trip → Trip) (t : Trip)
    (hf : ∀ x, (f x).id = x.id) (h : selectTrip s tripId = some t) :
    selectTrip (updateTrips tripId f s) tripId = some (f t) := by
  unfold selectTrip at h ⊢
  rw [single_eq_some_iff] at h ⊢
  have h2 := filter_updateWhere (fun t => decide (t.id = tripId)) (fun t => decide (t.id = tripId)) f
    s.trips (by intro r; simp [hf])
  simp only [updateTrips]
  rw [h2, h]
  have : t.id = tripId := by
    have : t ∈ s.trips.filter (fun t => decide (t.id = tripId)) := by rw [h]; simp
    simpa using (List.mem_filter.mp this).2
  simp [updateWhere, this]

theorem dispatchTrip_ok_eq (now : Int) (tripId : Nat) (s : Store) (t : Trip) (d : Driver)
    (v : Vehicle) (ht : selectTrip s tripId = some t) (hst : t.status = "Draft")
    (hd : selectDriver s t.driver_id = some d) (hds : d.status ≠ "Suspended")
    (hexp : ¬ dateMs d.expiry_date < now)
    (hv : selectVehicle s t.vehicle_id = some v) (hvs : v.status = "Available")
    (hcap : ¬ toNumber t.cargo_weight > toNumber v.max_capacity) :
    dispatchTrip now tripId s =
      (.ok { t with status := "Dispatched" },
        updateDrivers t.driver_id (fun d => { d with status := "On Duty" })
          (updateVehicles t.vehicle_id (fun v => { v with status := "On Trip" })
            (updateTrips tripId (fun t => { t with status := "Dispatched" }) s))) := by
  have hu := selectTrip_updateTrips s tripId (fun t => { t with status := "Dispatched" }) t
    (by intro x; rfl) ht
  simp [dispatchTrip, ht, hst, hd, hds, hexp, hv, hvs, hcap, hu]

theorem dispatchTrip_ok_inv (now : Int) (tripId : Nat) (s : Store) (u : Trip)
    (h : (dispatchTrip now tripId s).1 = .ok u) :
    ∃ t d v, selectTrip s tripId = some t ∧ t.status = "Draft" ∧
      selectDriver s t.driver_id = some d ∧ d.status ≠ "Suspended" ∧
      ¬ dateMs d.expiry_date < now ∧
      selectVehicle s t.vehicle_id = some v ∧ v.status = "Available" ∧
      ¬ toNumber t.cargo_weight > toNumber v.max_capacity := by
  unfold dispatchTrip at h
  split at h
  · simp at h
  · rename_i t ht
    split at h
    · simp at h
    · rename_i hst
      split at h
      · simp at h
      · rename_i d hd
        split at h
        · simp at h
        · rename_i hds
          split at h
          · simp at h
          · rename_i hexp
            split at h
            · simp at h
            · rename_i v hv
              split at h
              · simp at h
              · rename_i hvs
                split at h
                · simp at h
                · rename_i hcap
                  refine ⟨t, d, v, ht, ?_, hd, ?_, hexp, hv, ?_, hcap⟩
                  · simpa using hst
                  · simpa using hds
                  · simpa using hvs

theorem selectTrip_id (s : Store) (tripId : Nat) (t : Trip) (h : selectTrip s tripId = some t) :
    t.id = tripId := by
  unfold selectTrip at h
  rw [single_eq_some_iff] at h
  have : t ∈ s.trips.filter (fun t => decide (t.id = tripId)) := by rw [h]; simp
  simpa using (List.mem_filter.mp this).2

theorem selectTrip_mem (s : Store) (tripId : Nat) (t : Trip) (h : selectTrip s tripId = some t) :
    t ∈ s.trips := by
  unfold selectTrip at h
  rw [single_eq_some_iff] at h
  have : t ∈ s.trips.filter (fun t => decide (t.id = tripId)) := by rw [h]; simp
  exact (List.mem_filter.mp this).1

theorem completeTrip_ok_eq (tripId : Nat) (eo r : Option Int) (s : Store) (t : Trip)
    (ht : selectTrip s tripId = some t) (hst : t.status = "Dispatched")
    (hodo : ∀ e, eo = some e → ¬ e - toNumber t.start_odometer < 0) :
    completeTrip tripId eo r s =
      (.ok { trip := completeRow eo r t,
             distance := eo.map (fun e => e - toNumber t.start_odometer) },
        updateDrivers t.driver_id (fun d => { d with status := "Available" })
          (updateVehicles t.vehicle_id (releaseWithOdometer eo)
            (updateTrips tripId (completeRow eo r) s))) := by
  have hu := selectTrip_updateTrips s tripId (completeRow eo r) t (by intro x; rfl) ht
  cases eo with
  | none => simp [completeTrip, ht, hst, hu, isNegative]
  | some e =>
    have := hodo e rfl
    simp [completeTrip, ht, hst, hu, this, isNegative]

theorem completeTrip_ok_inv (tripId : Nat) (eo r : Option Int) (s : Store) (c : CompletedTrip)
    (h : (completeTrip tripId eo r s).1 = .ok c) :
    ∃ t, selectTrip s tripId = some t ∧ t.status = "Dispatched" ∧
      ∀ e, eo = some e → ¬ e - toNumber t.start_odometer < 0 := by
  unfold completeTrip at h
  split at h
  · simp at h
  · rename_i t ht
    split at h
    · simp at h
    · rename_i hst
      refine ⟨t, ht, by simpa using hst, ?_⟩
      intro e he
      subst he
      intro hneg
      simp [isNegative, hneg] at h

theorem cancelTrip_ok_eq (tripId : Nat) (s : Store) (t : Trip)
    (ht : selectTrip s tripId = some t) (hst : ¬ (t.status = "Completed" ∨ t.status = "Cancelled")) :
    cancelTrip tripId s =
      (.ok { t with status := "Cancelled" },
       if t.status = "Dispatched" then
        updateDrivers t.driver_id (fun d => { d with status := "Available" })
          (updateVehicles t.vehicle_id (fun v => { v with status := "Available" })
            (updateTrips tripId (fun t => { t with status := "Cancelled" }) s))
       else updateTrips tripId (fun t => { t with status := "Cancelled" }) s) := by
  have hu := selectTrip_updateTrips s tripId (fun t => { t with status := "Cancelled" }) t
    (by intro x; rfl) ht
  by_cases hd : t.status = "Dispatched"
  · simp [cancelTrip, ht, hu, hd]
  · simp [cancelTrip, ht, hst, hu, hd]

theorem cancelTrip_ok_inv (tripId : Nat) (s : Store) (u : Trip)
    (h : (cancelTrip tripId s).1 = .ok u) :
    ∃ t, selectTrip s tripId = some t ∧ ¬ (t.status = "Completed" ∨ t.status = "Cancelled") := by
  unfold cancelTrip at h
  split at h
  · simp at h
  · rename_i t ht
    split at h
    · simp at h
    · rename_i hst
      exact ⟨t, ht, hst⟩

theorem deleteTrip_ok_eq (tripId : Nat) (s : Store) (t : Trip)
    (ht : selectTrip s tripId = some t) :
    deleteTrip tripId s =
      (.ok (),
       if t.status = "Dispatched" then
        updateDrivers t.driver_id (fun d => { d with status := "Available" })
          (updateVehicles t.vehicle_id (fun v => { v with status := "Available" })
            { s with trips := s.trips.filter (fun t => !decide (t.id = tripId)) })
       else { s with trips := s.trips.filter (fun t => !decide (t.id = tripId)) }) := by
  by_cases hd : t.status = "Dispatched"
  · simp [deleteTrip, ht, hd]
  · simp [deleteTrip, ht, hd]

theorem deleteTrip_ok_inv (tripId : Nat) (s : Store)
    (h : (deleteTrip tripId s).1 = .ok ()) : ∃ t, selectTrip s tripId = some t := by
  unfold deleteTrip at h
  split at h
  · simp at h
  · rename_i t ht
    exact ⟨t, ht⟩

theorem updateTrip_ok_inv (tripId : Nat) (td : TripData) (s : Store) (u : Trip)
    (h : (updateTrip tripId td s).1 = .ok u) :
    ∃ t, selectTrip s tripId = some t ∧
      updateTrip tripId td s = (.ok (applyTripData td t), updateTrips tripId (applyTripData td) s) := by
  unfold updateTrip at h ⊢
  split at h
  · simp at h
  · rename_i u2 hu
    rw [single_eq_some_iff] at hu
    have hlen := congrArg List.length hu
    simp only [List.length_map, List.length_singleton] at hlen
    obtain ⟨t, ht⟩ := List.length_eq_one.mp hlen
    refine ⟨t, ?_, ?_⟩
    · unfold selectTrip; rw [single_eq_some_iff]; exact ht
    · rw [ht] at hu
      simp at hu
      simp [ht, single, hu]

theorem filter_not_eq_erase (tripId : Nat) (l : List Trip) (t : Trip)
    (h : l.filter (fun x => decide (x.id = tripId)) = [t]) :
    l.filter (fun x => !decide (x.id = tripId)) = l.erase t := by
  induction l with
  | nil => simp at h
  | cons a tl ih =>
    by_cases ha : a.id = tripId
    · simp only [List.filter_cons, ha, decide_True, if_true, List.cons.injEq] at h
      obtain ⟨h1, h2⟩ := h
      subst h1
      have hall : ∀ x ∈ tl, ¬ x.id = tripId := by
        intro x hx hxid
        have : x ∈ tl.filter (fun x => decide (x.id = tripId)) :=
          List.mem_filter.mpr ⟨hx, by simpa using hxid⟩
        rw [h2] at this
        simp at this
      have : tl.filter (fun x => !decide (x.id = tripId)) = tl := by
        rw [List.filter_eq_self]
        intro x hx
        simpa using hall x hx
      simp [List.filter_cons, ha, this]
    · have h' : tl.filter (fun x => decide (x.id = tripId)) = [t] := by
        simpa [List.filter_cons, ha] using h
      have hne : a ≠ t := by
        intro hat
        have : t ∈ tl.filter (fun x => decide (x.id = tripId)) := by rw [h']; simp
        have := (List.mem_filter.mp this).2
        subst hat
        simp at this
        exact ha this
      simp [List.filter_cons, ha, ih h', List.erase_cons_tail, hne]

theorem lt_freshId (trips : List Trip) : ∀ x ∈ trips, x.id < freshId trips := by
  induction trips with
  | nil => simp
  | cons a tl ih =>
    intro x hx
    simp only [freshId, List.map_cons, List.foldr_cons] at ih ⊢
    rcases List.mem_cons.mp hx with h | h
    · subst h; omega
    · have := ih x h; omega

/-! ## Counting dispatched trips -/

theorem strongInvariant_iff (s : Store) :
    StrongInvariant s ↔ VehicleInvariant s ∧ AtMostOneDispatch s := by
  unfold StrongInvariant VehicleInvariant AtMostOneDispatch
  constructor
  · intro h
    constructor
    · intro v hv
      have := h v hv
      by_cases hs : v.status = "On Trip" <;> simp [hs] at this ⊢ <;> omega
    · intro v hv
      have := h v hv
      by_cases hs : v.status = "On Trip" <;> simp [hs] at this <;> omega
  · rintro ⟨h1, h2⟩ v hv
    have a := h1 v hv
    have b := h2 v hv
    by_cases hs : v.status = "On Trip"
    · simp [hs]; exact a.mp hs
    · simp [hs]
      have : dispatchedCount s v.id ≠ 1 := fun h => hs (a.mpr h)
      omega

theorem countP_updateWhere {α : Type} (p q : α → Bool) (f : α → α) (l : List α) :
    (updateWhere p f l).countP q + l.countP (fun r => p r && q r) =
      l.countP q + l.countP (fun r => p r && q (f r)) := by
  induction l with
  | nil => simp [updateWhere]
  | cons a tl ih =>
    have hcons : updateWhere p f (a :: tl) = (if p a = true then f a else a) :: updateWhere p f tl :=
      rfl
    rw [hcons]
    simp only [List.countP_cons]
    by_cases hp : p a = true <;> by_cases hq : q a = true <;> by_cases hqf : q (f a) = true <;>
      simp only [hp, hq, hqf, if_true, if_false, Bool.and_true, Bool.and_false, Bool.true_and,
        Bool.false_and, Bool.false_eq_true] <;> omega

theorem countP_and_of_filter_single {α : Type} (p g : α → Bool) (l : List α) (t : α)
    (h : l.filter p = [t]) :
    l.countP (fun r => p r && g r) = if g t = true then 1 else 0 := by
  have : l.countP (fun r => p r && g r) = (l.filter p).countP g := by
    rw [List.countP_filter]
    congr 1
    funext r
    exact Bool.and_comm _ _
  rw [this, h]
  simp [List.countP_cons]

theorem count_after_update (trips : List Trip) (tripId : Nat) (g : Trip → Trip) (t : Trip)
    (h : trips.filter (fun x => decide (x.id = tripId)) = [t]) (q : Trip → Bool) :
    (updateWhere (fun x => decide (x.id = tripId)) g trips).countP q +
        (if q t = true then 1 else 0) =
      trips.countP q + (if q (g t) = true then 1 else 0) := by
  have h1 := countP_updateWhere (fun x => decide (x.id = tripId)) q g trips
  rw [countP_and_of_filter_single _ q trips t h,
    countP_and_of_filter_single _ (fun r => q (g r)) trips t h] at h1
  exact h1

theorem count_after_delete (trips : List Trip) (tripId : Nat) (t : Trip)
    (h : trips.filter (fun x => decide (x.id = tripId)) = [t]) (q : Trip → Bool) :
    (trips.filter (fun x => !decide (x.id = tripId))).countP q + (if q t = true then 1 else 0) =
      trips.countP q := by
  have h1 : trips.countP q =
      (trips.filter (fun x => decide (x.id = tripId))).countP q +
        (trips.filter (fun x => !decide (x.id = tripId))).countP q := by
    rw [List.countP_filter, List.countP_filter]
    have := List.countP_eq_countP_filter_add trips q (fun x => decide (x.id = tripId))
    rw [this, List.countP_filter, List.countP_filter]
  rw [h1, h]
  simp [List.countP_cons]
  omega

theorem mem_updateWhere {α : Type} (p : α → Bool) (f : α → α) (l : List α) (y : α)
    (h : y ∈ updateWhere p f l) : ∃ x ∈ l, y = if p x = true then f x else x := by
  unfold updateWhere at h
  obtain ⟨x, hx, hxy⟩ := List.mem_map.mp h
  exact ⟨x, hx, hxy.symm⟩

theorem strongInvariant_dispatchTrip (now : Int) (tripId : Nat) (s s' : Store) (u : Trip)
    (h : dispatchTrip now tripId s = (.ok u, s')) (hinv : StrongInvariant s) :
    StrongInvariant s' := by
  obtain ⟨t, d, v, ht, hst, hd, hds, hexp, hv, hvs, hcap⟩ :=
    dispatchTrip_ok_inv now tripId s u (by rw [h])
  have heq := dispatchTrip_ok_eq now tripId s t d v ht hst hd hds hexp hv hvs hcap
  rw [h] at heq
  injection heq with _ h2
  subst h2
  have hsel := (single_eq_some_iff _ _).mp ht
  have hvsel := (single_eq_some_iff _ _).mp hv
  intro w' hw'
  obtain ⟨w, hw, hww⟩ := mem_updateWhere _ _ _ _ hw'
  have hc := count_after_update s.trips tripId (fun t => { t with status := "Dispatched" }) t hsel
    (isDispatchedOn w.id)
  have hi := hinv w hw
  simp only [dispatchedCount] at hi ⊢
  simp only [updateDrivers, updateVehicles, updateTrips]
  by_cases hm : some w.id = t.vehicle_id
  · have hwv : w = v := by
      have : w ∈ s.vehicles.filter (fun v => decide (some v.id = t.vehicle_id)) :=
        List.mem_filter.mpr ⟨hw, by simpa using hm⟩
      rw [hvsel] at this
      simpa using this
    subst hwv
    have q1 : isDispatchedOn w.id t = false := by simp [isDispatchedOn, hst]
    have q2 : isDispatchedOn w.id { t with status := "Dispatched" } = true := by
      simp [isDispatchedOn, hm.symm]
    have hne : ¬ w.status = "On Trip" := by rw [hvs]; decide
    rw [q1, q2] at hc
    rw [if_neg hne] at hi
    simp only [hm, decide_True, if_true] at hww
    subst hww
    simp only [if_true, Bool.false_eq_true, if_false, Nat.add_zero] at hc ⊢
    omega
  · have q1 : isDispatchedOn w.id t = false := by simp [isDispatchedOn, hst]
    have q2 : isDispatchedOn w.id { t with status := "Dispatched" } = false := by
      have hm' : ¬ t.vehicle_id = some w.id := fun h => hm h.symm
      simp [isDispatchedOn, hm']
    rw [q1, q2] at hc
    simp only [hm, decide_False, Bool.false_eq_true, if_false] at hww
    subst hww
    simp only [Bool.false_eq_true, if_false, Nat.add_zero] at hc
    rw [hc]
    exact hi

theorem strongInvariant_release (s : Store) (t : Trip) (trips' : List Trip)
    (drivers' : List Driver) (fv : Vehicle → Vehicle) (hfid : ∀ v, (fv v).id = v.id)
    (hfs : ∀ v, (fv v).status = "Available") (hst : t.status = "Dispatched")
    (hcount : ∀ w, trips'.countP (isDispatchedOn w) + (if isDispatchedOn w t = true then 1 else 0) =
      s.trips.countP (isDispatchedOn w))
    (hinv : StrongInvariant s) :
    StrongInvariant
      { trips := trips'
        vehicles := updateWhere (fun v => decide (some v.id = t.vehicle_id)) fv s.vehicles
        drivers := drivers' } := by
  intro w' hw'
  obtain ⟨w, hw, hww⟩ := mem_updateWhere _ _ _ _ hw'
  have hc := hcount w.id
  have hi := hinv w hw
  simp only [dispatchedCount] at hi ⊢
  by_cases hm : some w.id = t.vehicle_id
  · have q1 : isDispatchedOn w.id t = true := by simp [isDispatchedOn, hst, hm.symm]
    rw [q1] at hc
    simp only [hm, decide_True, if_true] at hww
    have hne : ¬ w'.status = "On Trip" := by rw [hww, hfs]; decide
    have hid : w'.id = w.id := by rw [hww, hfid]
    rw [if_neg hne, hid]
    simp only [if_true] at hc
    by_cases hs : w.status = "On Trip"
    · rw [if_pos hs] at hi; omega
    · rw [if_neg hs] at hi; omega
  · have q1 : isDispatchedOn w.id t = false := by
      have hm' : ¬ t.vehicle_id = some w.id := fun h => hm h.symm
      simp [isDispatchedOn, hm']
    rw [q1] at hc
    simp only [hm, decide_False, Bool.false_eq_true, if_false] at hww
    subst hww
    simp only [Bool.false_eq_true, if_false, Nat.add_zero] at hc
    rw [hc]
    exact hi

theorem strongInvariant_of_count_eq (s s' : Store) (hv : s'.vehicles = s.vehicles)
    (hc : ∀ w, dispatchedCount s' w = dispatchedCount s w) (hinv : StrongInvariant s) :
    StrongInvariant s' := by
  intro w hw
  rw [hv] at hw
  rw [hc]
  exact hinv w hw

theorem strongInvariant_completeTrip (tripId : Nat) (eo r : Option Int) (s s' : Store)
    (c : CompletedTrip) (h : completeTrip tripId eo r s = (.ok c, s'))
    (hinv : StrongInvariant s) : StrongInvariant s' := by
  obtain ⟨t, ht, hst, hodo⟩ := completeTrip_ok_inv tripId eo r s c (by rw [h])
  have heq := completeTrip_ok_eq tripId eo r s t ht hst hodo
  rw [h] at heq
  injection heq with _ h2
  subst h2
  have hsel := (single_eq_some_iff _ _).mp ht
  refine strongInvariant_release s t _ _ (releaseWithOdometer eo) (fun _ => rfl) (fun _ => rfl) hst
    ?_ hinv
  intro w
  have hc := count_after_update s.trips tripId (completeRow eo r) t hsel (isDispatchedOn w)
  have q2 : isDispatchedOn w (completeRow eo r t) = false := by
    simp [isDispatchedOn, completeRow]
  rw [q2] at hc
  simpa using hc

theorem strongInvariant_cancelTrip (tripId : Nat) (s s' : Store) (u : Trip)
    (h : cancelTrip tripId s = (.ok u, s')) (hinv : StrongInvariant s) :
    StrongInvariant s' := by
  obtain ⟨t, ht, hnt⟩ := cancelTrip_ok_inv tripId s u (by rw [h])
  have heq := cancelTrip_ok_eq tripId s t ht hnt
  rw [h] at heq
  injection heq with _ h2
  subst h2
  have hsel := (single_eq_some_iff _ _).mp ht
  have hcnt : ∀ w, (updateWhere (fun x => decide (x.id = tripId))
      (fun t => { t with status := "Cancelled" }) s.trips).countP (isDispatchedOn w) +
        (if isDispatchedOn w t = true then 1 else 0) = s.trips.countP (isDispatchedOn w) := by
    intro w
    have hc := count_after_update s.trips tripId (fun t => { t with status := "Cancelled" }) t
      hsel (isDispatchedOn w)
    have q2 : isDispatchedOn w { t with status := "Cancelled" } = false := by
      simp [isDispatchedOn]
    rw [q2] at hc
    simpa using hc
  by_cases hd : t.status = "Dispatched"
  · rw [if_pos hd]
    exact strongInvariant_release s t _ _ (fun v => { v with status := "Available" })
      (fun _ => rfl) (fun _ => rfl) hd hcnt hinv
  · rw [if_neg hd]
    refine strongInvariant_of_count_eq s _ rfl ?_ hinv
    intro w
    have hc := hcnt w
    have q1 : isDispatchedOn w t = false := by simp [isDispatchedOn, hd]
    rw [q1] at hc
    simpa [dispatchedCount, updateTrips] using hc

theorem strongInvariant_deleteTrip (tripId : Nat) (s s' : Store)
    (h : deleteTrip tripId s = (.ok (), s')) (hinv : StrongInvariant s) :
    StrongInvariant s' := by
  obtain ⟨t, ht⟩ := deleteTrip_ok_inv tripId s (by rw [h])
  have heq := deleteTrip_ok_eq tripId s t ht
  rw [h] at heq
  injection heq with _ h2
  subst h2
  have hsel := (single_eq_some_iff _ _).mp ht
  have hcnt := count_after_delete s.trips tripId t hsel
  by_cases hd : t.status = "Dispatched"
  · rw [if_pos hd]
    exact strongInvariant_release s t _ _ (fun v => { v with status := "Available" })
      (fun _ => rfl) (fun _ => rfl) hd (fun w => hcnt (isDispatchedOn w)) hinv
  · rw [if_neg hd]
    refine strongInvariant_of_count_eq s _ rfl ?_ hinv
    intro w
    have hc := hcnt (isDispatchedOn w)
    have q1 : isDispatchedOn w t = false := by simp [isDispatchedOn, hd]
    rw [q1] at hc
    simpa [dispatchedCount] using hc

theorem strongInvariant_createDraftTrip (now : Int) (td : TripData) (s : Store)
    (hinv : StrongInvariant s) : StrongInvariant (createDraftTrip now td s).2 := by
  refine strongInvariant_of_count_eq s _ rfl ?_ hinv
  intro w
  simp [dispatchedCount, createDraftTrip, List.countP_append, isDispatchedOn]

theorem strongInvariant_updateTrip (tripId : Nat) (td : TripData) (s s' : Store) (u : Trip)
    (h : updateTrip tripId td s = (.ok u, s'))
    (hkeep : (Op.updateTrip tripId td).repoints s = false)
    (hinv : StrongInvariant s) : StrongInvariant s' := by
  obtain ⟨t, ht, heq⟩ := updateTrip_ok_inv tripId td s u (by rw [h])
  rw [h] at heq
  injection heq with _ h2
  subst h2
  have hsel := (single_eq_some_iff _ _).mp ht
  have hvid : t.status = "Dispatched" → (applyTripData td t).vehicle_id = t.vehicle_id := by
    intro hst
    simp only [Op.repoints, List.any_eq_false] at hkeep
    have := hkeep t (selectTrip_mem s tripId t ht)
    simp only [decide_eq_true_eq, selectTrip_id s tripId t ht, hst, true_and, not_and,
      not_not] at this
    by_cases hsome : td.vehicle_id.isSome = true
    · simp [applyTripData, hsome, this hsome]
    · simp [applyTripData, hsome]
  refine strongInvariant_of_count_eq s _ rfl ?_ hinv
  intro w
  have hc := count_after_update s.trips tripId (applyTripData td) t hsel (isDispatchedOn w)
  have q2 : isDispatchedOn w (applyTripData td t) = isDispatchedOn w t := by
    have hstatus : (applyTripData td t).status = t.status := rfl
    by_cases hst : t.status = "Dispatched"
    · simp only [isDispatchedOn, hstatus, hvid hst]
    · simp [isDispatchedOn, hstatus, hst]
  rw [q2] at hc
  simpa [dispatchedCount, updateTrips] using hc

theorem successStore_eq_some {α : Type} (r : Except String α × Store) (s' : Store)
    (h : successStore r = some s') : ∃ a, r = (.ok a, s') := by
  obtain ⟨res, st⟩ := r
  cases res with
  | error e => simp [successStore] at h
  | ok a => simp [successStore] at h; exact ⟨a, by rw [h]⟩

theorem strongInvariant_apply (op : Op) (s s' : Store) (h : op.apply s = some s')
    (hkeep : op.repoints s = false) (hinv : StrongInvariant s) : StrongInvariant s' := by
  cases op with
  | createDraftTrip now td =>
    obtain ⟨a, ha⟩ := successStore_eq_some (createDraftTrip now td s) s' h
    have := strongInvariant_createDraftTrip now td s hinv
    rw [ha] at this
    exact this
  | dispatchTrip now tripId =>
    obtain ⟨a, ha⟩ := successStore_eq_some _ _ h
    exact strongInvariant_dispatchTrip now tripId s s' a ha hinv
  | completeTrip tripId eo r =>
    obtain ⟨a, ha⟩ := successStore_eq_some _ _ h
    exact strongInvariant_completeTrip tripId eo r s s' a ha hinv
  | cancelTrip tripId =>
    obtain ⟨a, ha⟩ := successStore_eq_some _ _ h
    exact strongInvariant_cancelTrip tripId s s' a ha hinv
  | deleteTrip tripId =>
    obtain ⟨a, ha⟩ := successStore_eq_some _ _ h
    exact strongInvariant_deleteTrip tripId s s' ha hinv
  | updateTrip tripId td =>
    obtain ⟨a, ha⟩ := successStore_eq_some _ _ h
    exact strongInvariant_updateTrip tripId td s s' a ha hkeep hinv

theorem strongInvariant_runOps (ops : List Op) :
    ∀ s s', runOps ops s = some s' → keepsVehicles ops s = true → StrongInvariant s →
      StrongInvariant s' := by
  induction ops with
  | nil =>
    intro s s' h _ hinv
    simp [runOps] at h
    subst h
    exact hinv
  | cons op ops ih =>
    intro s s' h hkeep hinv
    simp only [runOps] at h
    simp only [keepsVehicles, Bool.and_eq_true, Bool.not_eq_true'] at hkeep
    cases hop : op.apply s with
    | none => rw [hop] at h; simp at h
    | some s1 =>
      rw [hop] at h
      have hk := hkeep.2
      rw [hop] at hk
      exact ih s1 s' h hk (strongInvariant_apply op s s1 hop hkeep.1 hinv)

/-! ## The vehicle invariant over request sequences -/

/-- C1 (as stated) fails twice over: an `updateTrip` that re-points a `Dispatched` trip leaves
its former vehicle `On Trip` with no `Dispatched` trip, and cancelling one of two `Dispatched`
trips of an `Available` vehicle leaves that vehicle `Available` with exactly one. -/
theorem vehicleInvariant_not_preserved :
    (VehicleInvariant repointStore ∧
      runOps [Op.updateTrip 1 { vehicle_id := some 2 }] repointStore = some repointedStore ∧
      ¬ VehicleInvariant repointedStore) ∧
    (VehicleInvariant doubleBookedStore ∧
      runOps [Op.cancelTrip 1] doubleBookedStore = some doubleBookedCancelled ∧
      ¬ VehicleInvariant doubleBookedCancelled) := by
  refine ⟨⟨?_, ?_, ?_⟩, ⟨?_, ?_, ?_⟩⟩ <;> decide

/-- C1 (as amended): from a store in which every vehicle is `On Trip` exactly when one
`Dispatched` trip references it and no vehicle is referenced by more than one `Dispatched`
trip, every sequence of successful trip-lifecycle requests in which no `updateTrip` changes the
`vehicle_id` of a trip that is `Dispatched` when the request arrives ends in a store with the
same two properties. -/
theorem lifecycle_preserves_vehicleInvariant (ops : List Op) (s s' : Store)
    (hinv : VehicleInvariant s) (hone : AtMostOneDispatch s)
    (hkeep : keepsVehicles ops s = true) (hrun : runOps ops s = some s') :
    VehicleInvariant s' ∧ AtMostOneDispatch s' :=
  (strongInvariant_iff s').mp
    (strongInvariant_runOps ops s s' hrun hkeep ((strongInvariant_iff s).mpr ⟨hinv, hone⟩))

/-- Witness for C1 (as amended): the example trip is created, dispatched, edited in place and
completed on the example fleet. -/
theorem lifecycle_preserves_vehicleInvariant_witness :
    (VehicleInvariant fleetStore ∧ AtMostOneDispatch fleetStore ∧
      keepsVehicles demoOps fleetStore = true ∧ runOps demoOps fleetStore = some demoCompleted) ∧
    (VehicleInvariant demoCompleted ∧ AtMostOneDispatch demoCompleted) :=
  ⟨⟨by decide, by decide, by decide, by decide⟩,
    lifecycle_preserves_vehicleInvariant demoOps fleetStore demoCompleted (by decide) (by decide)
      (by decide) (by decide)⟩

/-! ## Dispatch -/

/-- C2: a successful `dispatchTrip` marks the trip `Dispatched`, its vehicle `On Trip` and its
driver `On Duty`; exactly one row of each table is addressed, and every other row, and every
other field of the three rows, is as before. -/
theorem dispatchTrip_effect (now : Int) (tripId : Nat) (s s' : Store) (u : Trip)
    (h : dispatchTrip now tripId s = (.ok u, s')) :
    ∃ t v d,
      s.trips.filter (fun x => decide (x.id = tripId)) = [t] ∧
      s.vehicles.filter (fun x => decide (some x.id = t.vehicle_id)) = [v] ∧
      s.drivers.filter (fun x => decide (some x.id = t.driver_id)) = [d] ∧
      u = { t with status := "Dispatched" } ∧
      s'.trips =
        s.trips.map (fun x => if x.id = tripId then { x with status := "Dispatched" } else x) ∧
      s'.vehicles =
        s.vehicles.map
          (fun x => if some x.id = t.vehicle_id then { x with status := "On Trip" } else x) ∧
      s'.drivers =
        s.drivers.map
          (fun x => if some x.id = t.driver_id then { x with status := "On Duty" } else x) := by
  obtain ⟨t, d, v, ht, hst, hd, hds, hexp, hv, hvs, hcap⟩ :=
    dispatchTrip_ok_inv now tripId s u (by rw [h])
  have heq := dispatchTrip_ok_eq now tripId s t d v ht hst hd hds hexp hv hvs hcap
  rw [h] at heq
  injection heq with h1 h2
  injection h1 with h1
  refine ⟨t, v, d, ?_, ?_, ?_, h1, ?_, ?_, ?_⟩
  · exact (single_eq_some_iff _ _).mp ht
  · exact (single_eq_some_iff _ _).mp hv
  · exact (single_eq_some_iff _ _).mp hd
  · rw [h2]; simp [updateDrivers, updateVehicles, updateTrips, updateWhere]
  · rw [h2]; simp [updateDrivers, updateVehicles, updateTrips, updateWhere]
  · rw [h2]; simp [updateDrivers, updateVehicles, updateTrips, updateWhere]

/-- Witness for C2: dispatching the example trip. -/
theorem dispatchTrip_effect_witness :
    dispatchTrip demoNow 1 demoStore = (.ok demoTripDispatched, demoDispatched) ∧
    ∃ t v d,
      demoStore.trips.filter (fun x => decide (x.id = 1)) = [t] ∧
      demoStore.vehicles.filter (fun x => decide (some x.id = t.vehicle_id)) = [v] ∧
      demoStore.drivers.filter (fun x => decide (some x.id = t.driver_id)) = [d] ∧
      demoTripDispatched = { t with status := "Dispatched" } ∧
      demoDispatched.trips =
        demoStore.trips.map (fun x => if x.id = 1 then { x with status := "Dispatched" } else x) ∧
      demoDispatched.vehicles =
        demoStore.vehicles.map
          (fun x => if some x.id = t.vehicle_id then { x with status := "On Trip" } else x) ∧
      demoDispatched.drivers =
        demoStore.drivers.map
          (fun x => if some x.id = t.driver_id then { x with status := "On Duty" } else x) :=
  ⟨by decide, dispatchTrip_effect demoNow 1 demoStore demoDispatched demoTripDispatched (by decide)⟩

/-- The checks of `dispatchTrip` in the code's own terms: it throws when the trip is missing or
not `Draft`, when the driver is missing or `Suspended`, and when the vehicle is missing or not
`Available`; it succeeds when the trip is `Draft`, the driver exists, is not `Suspended` and
passes the licence test of the code, `new Date(expiry_date) < new Date()` being false, and the
vehicle exists, is `Available` and has room for the cargo. -/
theorem dispatchTrip_validation (now : Int) (tripId : Nat) (s : Store) :
    ((selectTrip s tripId = none ∨
        ∃ t, selectTrip s tripId = some t ∧
          (t.status ≠ "Draft" ∨
            selectDriver s t.driver_id = none ∨
            (∃ d, selectDriver s t.driver_id = some d ∧ d.status = "Suspended") ∨
            selectVehicle s t.vehicle_id = none ∨
            ∃ v, selectVehicle s t.vehicle_id = some v ∧ v.status ≠ "Available")) →
      ∃ e, (dispatchTrip now tripId s).1 = .error e) ∧
    (∀ t d v, selectTrip s tripId = some t → t.status = "Draft" →
      selectDriver s t.driver_id = some d → d.status ≠ "Suspended" →
      ¬ dateMs d.expiry_date < now →
      selectVehicle s t.vehicle_id = some v → v.status = "Available" →
      toNumber t.cargo_weight ≤ toNumber v.max_capacity →
      ∃ u s', dispatchTrip now tripId s = (.ok u, s')) := by
  constructor
  · intro hbad
    cases hres : (dispatchTrip now tripId s).1 with
    | error e => exact ⟨e, rfl⟩
    | ok u =>
      exfalso
      obtain ⟨t, d, v, ht, hst, hd, hds, _, hv, hvs, _⟩ := dispatchTrip_ok_inv now tripId s u hres
      rcases hbad with h0 | ⟨t2, ht2, hrest⟩
      · rw [h0] at ht; cases ht
      · rw [ht] at ht2
        cases ht2
        rcases hrest with h1 | h1 | ⟨d2, hd2, h1⟩ | h1 | ⟨v2, hv2, h1⟩
        · exact h1 hst
        · rw [h1] at hd; cases hd
        · rw [hd] at hd2; cases hd2; exact hds h1
        · rw [h1] at hv; cases hv
        · rw [hv] at hv2; cases hv2; exact h1 hvs
  · intro t d v ht hst hd hds hexp hv hvs hcap
    exact ⟨_, _, dispatchTrip_ok_eq now tripId s t d v ht hst hd hds hexp hv hvs (not_lt.mpr hcap)⟩

/-- An instance of `dispatchTrip_validation`: an unknown trip identifier is refused, and the
example trip is accepted at midnight of the day its driver's licence expires. -/
theorem dispatchTrip_validation_witness :
    (∃ e, (dispatchTrip demoNow 9 demoStore).1 = .error e) ∧
    (∃ u s', dispatchTrip demoNow 1 demoStore = (.ok u, s')) :=
  ⟨(dispatchTrip_validation demoNow 9 demoStore).1 (Or.inl (by decide)),
    (dispatchTrip_validation demoNow 1 demoStore).2 demoTrip demoDriver demoVehicle (by decide)
      (by decide) (by decide) (by decide) (by decide) (by decide) (by decide) (by decide)⟩

/-- C4: for a `Draft` trip whose driver and vehicle pass the other checks, `dispatchTrip` is
rejected with `Cargo weight exceeds vehicle capacity` when the cargo weight is above the
vehicle's capacity, and accepted when it is at most the capacity, equality included. -/
theorem dispatchTrip_capacity (now : Int) (tripId : Nat) (s : Store) (t : Trip) (d : Driver)
    (v : Vehicle) (ht : selectTrip s tripId = some t) (hst : t.status = "Draft")
    (hd : selectDriver s t.driver_id = some d) (hds : d.status ≠ "Suspended")
    (hexp : ¬ dateMs d.expiry_date < now)
    (hv : selectVehicle s t.vehicle_id = some v) (hvs : v.status = "Available") :
    (toNumber t.cargo_weight > toNumber v.max_capacity →
      dispatchTrip now tripId s = (.error "Cargo weight exceeds vehicle capacity", s)) ∧
    (toNumber t.cargo_weight ≤ toNumber v.max_capacity →
      ∃ u s', dispatchTrip now tripId s = (.ok u, s')) ∧
    (toNumber t.cargo_weight = toNumber v.max_capacity →
      ∃ u s', dispatchTrip now tripId s = (.ok u, s')) := by
  refine ⟨?_, ?_, ?_⟩
  · intro hgt
    simp [dispatchTrip, ht, hst, hd, hds, hexp, hv, hvs, hgt]
  · intro hle
    exact ⟨_, _, dispatchTrip_ok_eq now tripId s t d v ht hst hd hds hexp hv hvs (not_lt.mpr hle)⟩
  · intro heq
    exact ⟨_, _, dispatchTrip_ok_eq now tripId s t d v ht hst hd hds hexp hv hvs
      (not_lt.mpr (le_of_eq heq))⟩

/-- Witness for C4: cargo 501 on capacity 500 is refused, cargo 500 on capacity 500 accepted. -/
theorem dispatchTrip_capacity_witness :
    dispatchTrip demoNow 1 overloadedStore =
      (.error "Cargo weight exceeds vehicle capacity", overloadedStore) ∧
    (∃ u s', dispatchTrip demoNow 1 demoStore = (.ok u, s')) :=
  ⟨(dispatchTrip_capacity demoNow 1 overloadedStore overloadedTrip demoDriver demoVehicle
      (by decide) (by decide) (by decide) (by decide) (by decide) (by decide) (by decide)).1
      (by decide),
    (dispatchTrip_capacity demoNow 1 demoStore demoTrip demoDriver demoVehicle
      (by decide) (by decide) (by decide) (by decide) (by decide) (by decide) (by decide)).2.2
      (by decide)⟩

/-- On the calendar day a licence expires, at every instant other than midnight UTC, the
licence test of `dispatchTrip` already counts it as expired. -/
theorem licence_expired_during_expiry_day (now : Int) (d : Driver)
    (hday : d.expiry_date = some (today now)) (hlate : now % msPerDay ≠ 0) :
    dateMs d.expiry_date < now := by
  simp only [hday, dateMs, toNumber, Option.getD_some, today, msPerDay] at hlate ⊢
  omega

/-- C5: at noon UTC of the day the example licence expires, `dispatchTrip` refuses the trip
with `Driver license expired` and writes nothing, while the dashboard's count of expired
licences, taken at the same moment over the same drivers, is zero; at midnight of that day the
same trip is accepted. -/
theorem dispatchTrip_rejects_on_expiry_day :
    today demoNoon = 20762 ∧
    demoDriver.expiry_date = some (today demoNoon) ∧
    dispatchTrip demoNoon 1 demoStore = (.error "Driver license expired", demoStore) ∧
    expiredLicenses demoNoon demoStore.drivers = 0 ∧
    dispatchTrip demoNow 1 demoStore = (.ok demoTripDispatched, demoDispatched) := by
  refine ⟨?_, ?_, ?_, ?_, ?_⟩ <;> decide

/-- C3: the example trip is `Draft`; its driver exists, is not `Suspended` and holds a licence
that expires today, so one that is not expired (the dashboard counts no expired licence among
the drivers); its vehicle exists, is `Available` and has room for the cargo. Yet at noon
`dispatchTrip` throws `Driver license expired` and writes nothing. -/
theorem dispatchTrip_fails_with_preconditions_met :
    selectTrip demoStore 1 = some demoTrip ∧ demoTrip.status = "Draft" ∧
    selectDriver demoStore demoTrip.driver_id = some demoDriver ∧
    demoDriver.status ≠ "Suspended" ∧
    demoDriver.expiry_date = some (today demoNoon) ∧
    expiredLicenses demoNoon demoStore.drivers = 0 ∧
    selectVehicle demoStore demoTrip.vehicle_id = some demoVehicle ∧
    demoVehicle.status = "Available" ∧
    toNumber demoTrip.cargo_weight ≤ toNumber demoVehicle.max_capacity ∧
    dispatchTrip demoNoon 1 demoStore = (.error "Driver license expired", demoStore) := by
  refine ⟨?_, ?_, ?_, ?_, ?_, ?_, ?_, ?_, ?_, ?_⟩ <;> decide

/-! ## Completion -/

/-- C6: for a `Dispatched` trip with start odometer `s0` and a numeric end odometer `e`,
`completeTrip` is rejected when `e < s0` and succeeds when `e ≥ s0`, the zero-distance case
`e = s0` included; for a trip that is not `Dispatched` it is rejected with
`Only dispatched trips can be completed`. -/
theorem completeTrip_odometer_check (tripId : Nat) (s : Store) (t : Trip) (e : Int)
    (r : Option Int) (ht : selectTrip s tripId = some t) :
    (t.status = "Dispatched" → e < toNumber t.start_odometer →
      completeTrip tripId (some e) r s =
        (.error "End odometer must be greater than start odometer", s)) ∧
    (t.status = "Dispatched" → toNumber t.start_odometer ≤ e →
      ∃ c s', completeTrip tripId (some e) r s = (.ok c, s')) ∧
    (t.status = "Dispatched" →
      ∃ c s', completeTrip tripId (some (toNumber t.start_odometer)) r s = (.ok c, s') ∧
        c.distance = some 0) ∧
    (t.status ≠ "Dispatched" → ∀ eo,
      completeTrip tripId eo r s = (.error "Only dispatched trips can be completed", s)) := by
  refine ⟨?_, ?_, ?_, ?_⟩
  · intro hst hlt
    have : e - toNumber t.start_odometer < 0 := by omega
    simp [completeTrip, ht, hst, isNegative, this]
  · intro hst hle
    exact ⟨_, _, completeTrip_ok_eq tripId (some e) r s t ht hst
      (by intro e2 he2; cases he2; omega)⟩
  · intro hst
    exact ⟨_, _, completeTrip_ok_eq tripId (some (toNumber t.start_odometer)) r s t ht hst
      (by intro e2 he2; cases he2; omega), by simp⟩
  · intro hst eo
    simp [completeTrip, ht, hst]

/-- Witness for C6: on the dispatched example trip (start 1000) an end odometer of 999 is
refused and an end odometer of 1000 gives a trip of distance zero. -/
theorem completeTrip_odometer_check_witness :
    completeTrip 1 (some 999) (some 40) demoDispatched =
      (.error "End odometer must be greater than start odometer", demoDispatched) ∧
    (∃ c s',
      completeTrip 1 (some (toNumber demoTripDispatched.start_odometer)) (some 40)
        demoDispatched = (.ok c, s') ∧ c.distance = some 0) :=
  ⟨(completeTrip_odometer_check 1 demoDispatched demoTripDispatched 999 (some 40)
      (by decide)).1 (by decide) (by decide),
    (completeTrip_odometer_check 1 demoDispatched demoTripDispatched 999 (some 40)
      (by decide)).2.2.1 (by decide)⟩

/-- C7: a successful `completeTrip(tripId, e, r)` on a trip with start odometer `s0` returns
`distance = e - s0`, leaves the trip `Completed` with `end_odometer = e` and `revenue = r`, its
vehicle `Available` with `odometer = e`, and its driver `Available`; nothing else changes. -/
theorem completeTrip_effect (tripId : Nat) (e r : Int) (s s' : Store) (c : CompletedTrip)
    (h : completeTrip tripId (some e) (some r) s = (.ok c, s')) :
    ∃ t,
      s.trips.filter (fun x => decide (x.id = tripId)) = [t] ∧
      t.status = "Dispatched" ∧
      c.distance = some (e - toNumber t.start_odometer) ∧
      c.trip = { t with status := "Completed", end_odometer := some e, revenue := some r } ∧
      s'.trips =
        s.trips.map (fun x =>
          if x.id = tripId then
            { x with status := "Completed", end_odometer := some e, revenue := some r }
          else x) ∧
      s'.vehicles =
        s.vehicles.map (fun x =>
          if some x.id = t.vehicle_id then { x with status := "Available", odometer := some e }
          else x) ∧
      s'.drivers =
        s.drivers.map
          (fun x => if some x.id = t.driver_id then { x with status := "Available" } else x) := by
  obtain ⟨t, ht, hst, hodo⟩ := completeTrip_ok_inv tripId (some e) (some r) s c (by rw [h])
  have heq := completeTrip_ok_eq tripId (some e) (some r) s t ht hst hodo
  rw [h] at heq
  injection heq with h1 h2
  injection h1 with h1
  subst h1
  refine ⟨t, (single_eq_some_iff _ _).mp ht, hst, rfl, ?_, ?_, ?_, ?_⟩
  · simp [completeRow]
  · rw [h2]; simp [updateDrivers, updateVehicles, updateTrips, updateWhere, completeRow]
  · rw [h2]
    simp [updateDrivers, updateVehicles, updateTrips, updateWhere, releaseWithOdometer]
  · rw [h2]; simp [updateDrivers, updateVehicles, updateTrips, updateWhere]

/-- Witness for C7: the example trip, created and dispatched with start odometer 1000, is
completed at 1250: the distance is 250 and the vehicle's odometer becomes 1250. -/
theorem completeTrip_effect_witness :
    (runOps [Op.createDraftTrip demoNow demoTripData, Op.dispatchTrip demoNow 1] fleetStore =
        some demoDispatched ∧
      completeTrip 1 (some 1250) (some 40) demoDispatched =
        (.ok { trip := demoTripCompleted, distance := some 250 }, demoCompleted) ∧
      demoCompleted.vehicles.map (fun v => (v.id, v.odometer)) =
        [(1, some 1250), (2, none)]) ∧
    ∃ t,
      demoDispatched.trips.filter (fun x => decide (x.id = 1)) = [t] ∧
      t.status = "Dispatched" ∧
      (CompletedTrip.mk demoTripCompleted (some 250)).distance =
        some (1250 - toNumber t.start_odometer) ∧
      (CompletedTrip.mk demoTripCompleted (some 250)).trip =
        { t with status := "Completed", end_odometer := some 1250, revenue := some 40 } ∧
      demoCompleted.trips =
        demoDispatched.trips.map (fun x =>
          if x.id = 1 then
            { x with status := "Completed", end_odometer := some 1250, revenue := some 40 }
          else x) ∧
      demoCompleted.vehicles =
        demoDispatched.vehicles.map (fun x =>
          if some x.id = t.vehicle_id then { x with status := "Available", odometer := some 1250 }
          else x) ∧
      demoCompleted.drivers =
        demoDispatched.drivers.map
          (fun x => if some x.id = t.driver_id then { x with status := "Available" } else x) :=
  ⟨⟨by decide, by decide, by decide⟩,
    completeTrip_effect 1 1250 40 demoDispatched demoCompleted
      { trip := demoTripCompleted, distance := some 250 } (by decide)⟩

/-! ## Cancellation and deletion -/

/-- C8: `cancelTrip` fails on a `Completed` or `Cancelled` trip; on a `Draft` or `Dispatched`
trip it succeeds and sets the trip to `Cancelled`; for a `Dispatched` trip it also sets the
trip's vehicle and driver to `Available`, and otherwise no vehicle or driver row changes. -/
theorem cancelTrip_effect (tripId : Nat) (s : Store) (t : Trip)
    (ht : selectTrip s tripId = some t) :
    ((t.status = "Completed" ∨ t.status = "Cancelled") →
      cancelTrip tripId s =
        (.error "Completed or already cancelled trips cannot be cancelled", s)) ∧
    ((t.status = "Draft" ∨ t.status = "Dispatched") →
      ∃ s', cancelTrip tripId s = (.ok { t with status := "Cancelled" }, s') ∧
        s'.trips =
          s.trips.map (fun x => if x.id = tripId then { x with status := "Cancelled" } else x) ∧
        (t.status = "Dispatched" →
          s'.vehicles =
            s.vehicles.map
              (fun x => if some x.id = t.vehicle_id then { x with status := "Available" } else x) ∧
          s'.drivers =
            s.drivers.map
              (fun x => if some x.id = t.driver_id then { x with status := "Available" } else x)) ∧
        (t.status ≠ "Dispatched" → s'.vehicles = s.vehicles ∧ s'.drivers = s.drivers)) := by
  constructor
  · intro hterm
    simp [cancelTrip, ht, hterm]
  · intro hlive
    have hnt : ¬ (t.status = "Completed" ∨ t.status = "Cancelled") := by
      rcases hlive with h | h <;> rw [h] <;> decide
    refine ⟨_, cancelTrip_ok_eq tripId s t ht hnt, ?_, ?_, ?_⟩
    · by_cases hd : t.status = "Dispatched" <;>
        simp [hd, updateDrivers, updateVehicles, updateTrips, updateWhere]
    · intro hd
      simp [hd, updateDrivers, updateVehicles, updateTrips, updateWhere]
    · intro hd
      simp [hd, updateTrips]

/-- Witness for C8: the completed example trip cannot be cancelled; cancelling the dispatched
one releases its vehicle and driver; cancelling the draft leaves vehicles and drivers alone. -/
theorem cancelTrip_effect_witness :
    cancelTrip 1 demoCompleted =
      (.error "Completed or already cancelled trips cannot be cancelled", demoCompleted) ∧
    cancelTrip 1 demoDispatched = (.ok { demoTrip with status := "Cancelled" }, demoReleased) ∧
    (∃ s', cancelTrip 1 demoStore = (.ok { demoTrip with status := "Cancelled" }, s') ∧
      s'.trips =
        demoStore.trips.map (fun x => if x.id = 1 then { x with status := "Cancelled" } else x) ∧
      (demoTrip.status = "Dispatched" →
        s'.vehicles =
          demoStore.vehicles.map
            (fun x => if some x.id = demoTrip.vehicle_id then { x with status := "Available" }
              else x) ∧
        s'.drivers =
          demoStore.drivers.map
            (fun x => if some x.id = demoTrip.driver_id then { x with status := "Available" }
              else x)) ∧
      (demoTrip.status ≠ "Dispatched" →
        s'.vehicles = demoStore.vehicles ∧ s'.drivers = demoStore.drivers)) :=
  ⟨(cancelTrip_effect 1 demoCompleted demoTripCompleted (by decide)).1 (Or.inl (by decide)),
    by decide,
    (cancelTrip_effect 1 demoStore demoTrip (by decide)).2 (Or.inl (by decide))⟩

/-- C9: `deleteTrip` on an existing trip removes exactly that row; when the trip was
`Dispatched` the vehicle and driver tables end as `cancelTrip` would leave them (the trip's
vehicle and driver `Available`), and otherwise no vehicle or driver row changes; on an
identifier with no row it fails with `Trip not found` and changes nothing. -/
theorem deleteTrip_effect (tripId : Nat) (s : Store) :
    ((∀ x ∈ s.trips, x.id ≠ tripId) → deleteTrip tripId s = (.error "Trip not found", s)) ∧
    (∀ t, selectTrip s tripId = some t →
      ∃ s', deleteTrip tripId s = (.ok (), s') ∧
        s'.trips = s.trips.erase t ∧
        s'.trips.length + 1 = s.trips.length ∧
        (∀ x ∈ s'.trips, x.id ≠ tripId) ∧
        (t.status = "Dispatched" →
          s'.vehicles = (cancelTrip tripId s).2.vehicles ∧
          s'.drivers = (cancelTrip tripId s).2.drivers ∧
          s'.vehicles =
            s.vehicles.map
              (fun x => if some x.id = t.vehicle_id then { x with status := "Available" } else x) ∧
          s'.drivers =
            s.drivers.map
              (fun x => if some x.id = t.driver_id then { x with status := "Available" } else x)) ∧
        (t.status ≠ "Dispatched" → s'.vehicles = s.vehicles ∧ s'.drivers = s.drivers)) := by
  constructor
  · intro hno
    have : s.trips.filter (fun t => decide (t.id = tripId)) = [] := by
      rw [List.filter_eq_nil_iff]
      intro x hx
      simpa using hno x hx
    simp [deleteTrip, selectTrip, this, single]
  · intro t ht
    have hf := (single_eq_some_iff _ _).mp ht
    have herase := filter_not_eq_erase tripId s.trips t hf
    have hmem := selectTrip_mem s tripId t ht
    refine ⟨_, deleteTrip_ok_eq tripId s t ht, ?_, ?_, ?_, ?_, ?_⟩
    · by_cases hd : t.status = "Dispatched" <;>
        simp [hd, updateDrivers, updateVehicles, herase]
    · have hlen : (s.trips.erase t).length + 1 = s.trips.length := by
        rw [List.length_erase_of_mem hmem]
        have : 0 < s.trips.length := List.length_pos_of_mem hmem
        omega
      by_cases hd : t.status = "Dispatched" <;>
        simp [hd, updateDrivers, updateVehicles, herase, hlen]
    · intro x hx
      have hx' : x ∈ s.trips.filter (fun t => !decide (t.id = tripId)) := by
        by_cases hd : t.status = "Dispatched" <;>
          simpa [hd, updateDrivers, updateVehicles] using hx
      simpa using (List.mem_filter.mp hx').2
    · intro hd
      have hnt : ¬ (t.status = "Completed" ∨ t.status = "Cancelled") := by rw [hd]; decide
      rw [cancelTrip_ok_eq tripId s t ht hnt]
      simp [hd, updateDrivers, updateVehicles, updateTrips, updateWhere]
    · intro hd
      simp [hd]

/-- Witness for C9: deleting the dispatched example trip removes its row and leaves vehicles
and drivers as cancelling it does; deleting an unknown identifier fails and changes nothing. -/
theorem deleteTrip_effect_witness :
    deleteTrip 9 demoDispatched = (.error "Trip not found", demoDispatched) ∧
    deleteTrip 1 demoDispatched = (.ok (), { demoReleased with trips := [] }) ∧
    (cancelTrip 1 demoDispatched).2 = demoReleased :=
  ⟨(deleteTrip_effect 9 demoDispatched).1 (by decide), by decide, by decide⟩

/-! ## Creation -/

/-- C10: `createDraftTrip` inserts exactly one trip row, under an identifier no other row
has; the row is `Draft`, its `revenue` and `start_odometer` are `0` when the request omits
them and the supplied values otherwise, its other fields are the supplied ones, and no vehicle
or driver row changes. -/
theorem createDraftTrip_effect (now : Int) (tripData : TripData) (s : Store) :
    ∃ row s', createDraftTrip now tripData s = (.ok row, s') ∧
      s'.trips = s.trips ++ [row] ∧
      (∀ x ∈ s.trips, x.id ≠ row.id) ∧
      row.status = "Draft" ∧
      (tripData.revenue = none → row.revenue = some 0) ∧
      (tripData.start_odometer = none → row.start_odometer = some 0) ∧
      (∀ x, tripData.revenue = some x → row.revenue = some x) ∧
      (∀ x, tripData.start_odometer = some x → row.start_odometer = some x) ∧
      row.vehicle_id = tripData.vehicle_id ∧
      row.driver_id = tripData.driver_id ∧
      row.cargo_weight = tripData.cargo_weight ∧
      row.start_location = tripData.start_location ∧
      row.end_location = tripData.end_location ∧
      s'.vehicles = s.vehicles ∧
      s'.drivers = s.drivers := by
  refine ⟨_, _, rfl, rfl, ?_, rfl, ?_, ?_, ?_, ?_, rfl, rfl, rfl, rfl, rfl, rfl, rfl⟩
  · intro x hx
    have := lt_freshId s.trips x hx
    simp only
    omega
  · intro h; simp [h]
  · intro h; simp [h]
  · intro x h; simp [h]
  · intro x h; simp [h]

/-- Witness for C10: the example request on the empty trip table inserts the example trip. -/
theorem createDraftTrip_effect_witness :
    createDraftTrip demoNow demoTripData fleetStore = (.ok demoTrip, demoStore) ∧
    ∃ row s', createDraftTrip demoNow { } fleetStore = (.ok row, s') ∧
      row.revenue = some 0 ∧ row.start_odometer = some 0 ∧ row.status = "Draft" :=
  ⟨by decide,
    (createDraftTrip_effect demoNow { } fleetStore).elim fun row hrow =>
      hrow.elim fun s' h =>
        ⟨row, s', h.1, h.2.2.2.2.1 rfl, h.2.2.2.2.2.1 rfl, h.2.2.2.1⟩⟩


/-! ## Failed requests write nothing -/

theorem dispatchTrip_error_store (now : Int) (tripId : Nat) (s : Store) (e : String)
    (h : (dispatchTrip now tripId s).1 = .error e) : (dispatchTrip now tripId s).2 = s := by
  have key : (dispatchTrip now tripId s).2 = s ∨ ∃ u, (dispatchTrip now tripId s).1 = .ok u := by
    unfold dispatchTrip
    repeat' (first | split | (intro _) | (dsimp only))
    all_goals first | (left; rfl) | (right; exact ⟨_, rfl⟩)
  rcases key with h1 | ⟨u, hu⟩
  · exact h1
  · rw [hu] at h; cases h

theorem completeTrip_error_store (tripId : Nat) (eo r : Option Int) (s : Store) (e : String)
    (h : (completeTrip tripId eo r s).1 = .error e) : (completeTrip tripId eo r s).2 = s := by
  have key : (completeTrip tripId eo r s).2 = s ∨ ∃ u, (completeTrip tripId eo r s).1 = .ok u := by
    unfold completeTrip
    repeat' (first | split | (intro _) | (dsimp only))
    all_goals first | (left; rfl) | (right; exact ⟨_, rfl⟩)
  rcases key with h1 | ⟨u, hu⟩
  · exact h1
  · rw [hu] at h; cases h

theorem cancelTrip_error_store (tripId : Nat) (s : Store) (e : String)
    (h : (cancelTrip tripId s).1 = .error e) : (cancelTrip tripId s).2 = s := by
  have key : (cancelTrip tripId s).2 = s ∨ ∃ u, (cancelTrip tripId s).1 = .ok u := by
    unfold cancelTrip
    repeat' (first | split | (intro _) | (dsimp only))
    all_goals first | (left; rfl) | (right; exact ⟨_, rfl⟩)
  rcases key with h1 | ⟨u, hu⟩
  · exact h1
  · rw [hu] at h; cases h

/-- C11: validation comes before the first write: whenever `dispatchTrip`, `completeTrip` or
`cancelTrip` throws one of its errors, the store after the call is the store before it. -/
theorem failed_transition_writes_nothing (now : Int) (tripId : Nat) (eo r : Option Int)
    (s : Store) (e : String) :
    ((dispatchTrip now tripId s).1 = .error e → (dispatchTrip now tripId s).2 = s) ∧
    ((completeTrip tripId eo r s).1 = .error e → (completeTrip tripId eo r s).2 = s) ∧
    ((cancelTrip tripId s).1 = .error e → (cancelTrip tripId s).2 = s) :=
  ⟨dispatchTrip_error_store now tripId s e, completeTrip_error_store tripId eo r s e,
    cancelTrip_error_store tripId s e⟩

/-- Witness for C11: an overloaded dispatch, a completion below the start odometer and the
cancellation of a completed trip each fail and leave the store as it was. -/
theorem failed_transition_writes_nothing_witness :
    ((dispatchTrip demoNow 1 overloadedStore).1 = .error "Cargo weight exceeds vehicle capacity" ∧
      (dispatchTrip demoNow 1 overloadedStore).2 = overloadedStore) ∧
    ((completeTrip 1 (some 999) none demoDispatched).1 =
        .error "End odometer must be greater than start odometer" ∧
      (completeTrip 1 (some 999) none demoDispatched).2 = demoDispatched) ∧
    ((cancelTrip 1 demoCompleted).1 =
        .error "Completed or already cancelled trips cannot be cancelled" ∧
      (cancelTrip 1 demoCompleted).2 = demoCompleted) :=
  ⟨⟨by decide,
      (failed_transition_writes_nothing demoNow 1 none none overloadedStore
        "Cargo weight exceeds vehicle capacity").1 (by decide)⟩,
    ⟨by decide,
      (failed_transition_writes_nothing demoNow 1 (some 999) none demoDispatched
        "End odometer must be greater than start odometer").2.1 (by decide)⟩,
    ⟨by decide,
      (failed_transition_writes_nothing demoNow 1 none none demoCompleted
        "Completed or already cancelled trips cannot be cancelled").2.2 (by decide)⟩⟩

/-! ## The vehicle invariant without `updateTrip` -/

theorem keepsVehicles_of_isTransition (ops : List Op) :
    ∀ s, (∀ op ∈ ops, op.isTransition = true) → keepsVehicles ops s = true := by
  induction ops with
  | nil => intro s _; rfl
  | cons op ops ih =>
    intro s h
    have hop := h op (List.mem_cons_self _ _)
    have hrest : ∀ o ∈ ops, o.isTransition = true := fun o ho => h o (List.mem_cons_of_mem _ ho)
    have hrep : op.repoints s = false := by
      cases op <;> first | rfl | (simp [Op.isTransition] at hop)
    simp only [keepsVehicles, hrep, Bool.not_false, Bool.true_and]
    cases op.apply s with
    | none => rfl
    | some s1 => exact ih s1 hrest

/-- C28 (as stated) fails: an `Available` vehicle referenced by two `Dispatched` trips
satisfies the invariant, is referenced by two `Dispatched` trips, and completing one of the
two leaves it `Available` with exactly one `Dispatched` trip. -/
theorem restricted_invariant_not_inductive :
    VehicleInvariant doubleBookedStore ∧
    dispatchedCount doubleBookedStore 1 = 2 ∧
    (∀ op ∈ [Op.completeTrip 1 (some 10) (some 0)], op.isTransition = true) ∧
    runOps [Op.completeTrip 1 (some 10) (some 0)] doubleBookedStore = some doubleBookedCompleted ∧
    ¬ VehicleInvariant doubleBookedCompleted := by
  refine ⟨?_, ?_, ?_, ?_, ?_⟩ <;> decide

/-- C28 (as amended): restricted to `createDraftTrip`, `dispatchTrip`, `completeTrip`,
`cancelTrip` and `deleteTrip`, and starting from a store in which every vehicle is `On Trip`
exactly when one `Dispatched` trip references it and no vehicle is referenced by two
`Dispatched` trips, every store reached satisfies both again. -/
theorem restricted_lifecycle_preserves_invariant (ops : List Op) (s s' : Store)
    (hinv : VehicleInvariant s) (hone : AtMostOneDispatch s)
    (hops : ∀ op ∈ ops, op.isTransition = true) (hrun : runOps ops s = some s') :
    VehicleInvariant s' ∧ AtMostOneDispatch s' :=
  (strongInvariant_iff s').mp
    (strongInvariant_runOps ops s s' hrun (keepsVehicles_of_isTransition ops s hops)
      ((strongInvariant_iff s).mpr ⟨hinv, hone⟩))

/-- Witness for C28 (as amended): the example trip is created and dispatched on the example
fleet. -/
theorem restricted_lifecycle_preserves_invariant_witness :
    (VehicleInvariant fleetStore ∧ AtMostOneDispatch fleetStore ∧
      (∀ op ∈ [Op.createDraftTrip demoNow demoTripData, Op.dispatchTrip demoNow 1],
        op.isTransition = true) ∧
      runOps [Op.createDraftTrip demoNow demoTripData, Op.dispatchTrip demoNow 1] fleetStore =
        some demoDispatched) ∧
    (VehicleInvariant demoDispatched ∧ AtMostOneDispatch demoDispatched) :=
  ⟨⟨by decide, by decide, by decide, by decide⟩,
    restricted_lifecycle_preserves_invariant
      [Op.createDraftTrip demoNow demoTripData, Op.dispatchTrip demoNow 1] fleetStore
      demoDispatched (by decide) (by decide) (by decide) (by decide)⟩

/-! ## Terminal statuses -/

theorem eq_of_selectTrip (s : Store) (tripId : Nat) (t0 t : Trip)
    (hsel : selectTrip s tripId = some t0) (ht : t ∈ s.trips) (hid : t.id = tripId) : t = t0 := by
  have hf := (single_eq_some_iff _ _).mp hsel
  have : t ∈ s.trips.filter (fun x => decide (x.id = tripId)) :=
    List.mem_filter.mpr ⟨ht, by simpa using hid⟩
  rw [hf] at this
  simpa using this

theorem rowsEvolve_refl (l : List Trip) : RowsEvolve l l :=
  ⟨id, [], by simp, by simp, fun t _ => ⟨rfl, fun _ => rfl, fun _ => Or.inl rfl⟩⟩

theorem rowsEvolve_update (s : Store) (tripId : Nat) (f : Trip → Trip) (t0 : Trip)
    (hsel : selectTrip s tripId = some t0) (hid : ∀ x, (f x).id = x.id)
    (hterm : (t0.status = "Completed" ∨ t0.status = "Cancelled") → (f t0).status = t0.status)
    (htrans : t0.status ∈ tripStatuses → Transition t0.status (f t0).status) :
    RowsEvolve s.trips (updateWhere (fun x => decide (x.id = tripId)) f s.trips) := by
  refine ⟨fun t => if t.id = tripId then f t else t, [], ?_, by simp, ?_⟩
  · simp [updateWhere]
  · intro t ht
    by_cases h : t.id = tripId
    · have := eq_of_selectTrip s tripId t0 t hsel ht h
      subst this
      beta_reduce
      rw [if_pos h]
      exact ⟨hid t, hterm, htrans⟩
    · beta_reduce
      rw [if_neg h]
      exact ⟨rfl, fun _ => rfl, fun _ => Or.inl rfl⟩

theorem rowsEvolve_after (op : Op) (s : Store) (hdel : ∀ tripId, op ≠ Op.deleteTrip tripId) :
    RowsEvolve s.trips (op.after s).trips := by
  cases op with
  | createDraftTrip now td =>
    refine ⟨id, [(createDraftTrip now td s).1.toOption.getD demoTrip], ?_, ?_, ?_⟩
    · simp [Op.after, createDraftTrip, Except.toOption]
    · simp [createDraftTrip, Except.toOption]
    · exact fun t _ => ⟨rfl, fun _ => rfl, fun _ => Or.inl rfl⟩
  | dispatchTrip now tripId =>
    cases hres : (dispatchTrip now tripId s).1 with
    | error e =>
      have := dispatchTrip_error_store now tripId s e hres
      simp only [Op.after, this]
      exact rowsEvolve_refl _
    | ok u =>
      obtain ⟨t, d, v, ht, hst, hd, hds, hexp, hv, hvs, hcap⟩ :=
        dispatchTrip_ok_inv now tripId s u hres
      have heq := dispatchTrip_ok_eq now tripId s t d v ht hst hd hds hexp hv hvs hcap
      simp only [Op.after, heq, updateDrivers, updateVehicles, updateTrips]
      refine rowsEvolve_update s tripId _ t ht (fun _ => rfl) ?_ ?_
      · intro h
        exfalso
        rw [hst] at h
        rcases h with h | h <;> exact absurd h (by decide)
      · intro _; rw [hst]; exact Or.inr (Or.inl ⟨rfl, rfl⟩)
  | completeTrip tripId eo r =>
    cases hres : (completeTrip tripId eo r s).1 with
    | error e =>
      have := completeTrip_error_store tripId eo r s e hres
      simp only [Op.after, this]
      exact rowsEvolve_refl _
    | ok c =>
      obtain ⟨t, ht, hst, hodo⟩ := completeTrip_ok_inv tripId eo r s c hres
      have heq := completeTrip_ok_eq tripId eo r s t ht hst hodo
      simp only [Op.after, heq, updateDrivers, updateVehicles, updateTrips]
      refine rowsEvolve_update s tripId _ t ht (fun _ => rfl) ?_ ?_
      · intro h
        exfalso
        rw [hst] at h
        rcases h with h | h <;> exact absurd h (by decide)
      · intro _; rw [hst]; exact Or.inr (Or.inr (Or.inl ⟨rfl, rfl⟩))
  | cancelTrip tripId =>
    cases hres : (cancelTrip tripId s).1 with
    | error e =>
      have := cancelTrip_error_store tripId s e hres
      simp only [Op.after, this]
      exact rowsEvolve_refl _
    | ok u =>
      obtain ⟨t, ht, hnt⟩ := cancelTrip_ok_inv tripId s u hres
      have heq := cancelTrip_ok_eq tripId s t ht hnt
      have hgoal : RowsEvolve s.trips
          (updateWhere (fun x => decide (x.id = tripId))
            (fun t => { t with status := "Cancelled" }) s.trips) := by
        refine rowsEvolve_update s tripId _ t ht (fun _ => rfl) ?_ ?_
        · intro h; exact absurd h hnt
        · intro hmem
          simp only [tripStatuses, List.mem_cons, List.mem_singleton, List.not_mem_nil,
            or_false] at hmem
          rcases hmem with h | h | h | h
          · rw [h]; exact Or.inr (Or.inr (Or.inr (Or.inl ⟨rfl, rfl⟩)))
          · rw [h]; exact Or.inr (Or.inr (Or.inr (Or.inr ⟨rfl, rfl⟩)))
          · exact absurd (Or.inl h) hnt
          · exact absurd (Or.inr h) hnt
      by_cases hd : t.status = "Dispatched"
      · simpa only [Op.after, heq, hd, if_true, updateDrivers, updateVehicles, updateTrips]
          using hgoal
      · simpa only [Op.after, heq, hd, if_false, updateTrips] using hgoal
  | deleteTrip tripId => exact absurd rfl (hdel tripId)
  | updateTrip tripId td =>
    cases hres : (updateTrip tripId td s).1 with
    | error e =>
      have : (updateTrip tripId td s).2 = s := by
        unfold updateTrip at hres ⊢
        split
        · rfl
        · rename_i u hu
          rw [hu] at hres
          cases hres
      simp only [Op.after, this]
      exact rowsEvolve_refl _
    | ok u =>
      obtain ⟨t, ht, heq⟩ := updateTrip_ok_inv tripId td s u hres
      simp only [Op.after, heq, updateTrips]
      exact rowsEvolve_update s tripId _ t ht (fun _ => rfl) (fun _ => rfl) (fun _ => Or.inl rfl)

/-- C29: `Completed` and `Cancelled` are terminal.  On a trip in either status `dispatchTrip`,
`completeTrip` and `cancelTrip` fail and write nothing; and every request other than
`deleteTrip`, whether it succeeds or throws, keeps every trip row under its identifier, leaves
the status of a `Completed` or `Cancelled` row as it is, and moves any other of the four
statuses only along `Draft → Dispatched`, `Dispatched → Completed`, `Draft → Cancelled` or
`Dispatched → Cancelled`; rows it adds are `Draft`. -/
theorem terminal_statuses_are_final (s : Store) :
    (∀ tripId t, selectTrip s tripId = some t →
      (t.status = "Completed" ∨ t.status = "Cancelled") →
      (∀ now, ∃ e, dispatchTrip now tripId s = (.error e, s)) ∧
      (∀ eo r, ∃ e, completeTrip tripId eo r s = (.error e, s)) ∧
      (∃ e, cancelTrip tripId s = (.error e, s))) ∧
    (∀ op : Op, (∀ tripId, op ≠ Op.deleteTrip tripId) →
      ∃ (g : Trip → Trip) (extra : List Trip),
        (op.after s).trips = s.trips.map g ++ extra ∧
        (∀ x ∈ extra, x.status = "Draft") ∧
        ∀ t ∈ s.trips, (g t).id = t.id ∧
          ((t.status = "Completed" ∨ t.status = "Cancelled") → (g t).status = t.status) ∧
          (t.status ∈ tripStatuses → Transition t.status (g t).status)) := by
  constructor
  · intro tripId t ht hterm
    have hnd : t.status ≠ "Draft" := by rcases hterm with h | h <;> rw [h] <;> decide
    have hndi : t.status ≠ "Dispatched" := by rcases hterm with h | h <;> rw [h] <;> decide
    refine ⟨fun now => ⟨"Only draft trips can be dispatched", ?_⟩,
      fun eo r => ⟨"Only dispatched trips can be completed", ?_⟩,
      ⟨"Completed or already cancelled trips cannot be cancelled", ?_⟩⟩
    · simp [dispatchTrip, ht, hnd]
    · simp [completeTrip, ht, hndi]
    · simp [cancelTrip, ht, hterm]
  · intro op hdel
    exact rowsEvolve_after op s hdel

/-- Witness for C29: the completed example trip refuses all three transitions, and an
`updateTrip` on it keeps its status. -/
theorem terminal_statuses_are_final_witness :
    (∃ e, dispatchTrip demoNow 1 demoCompleted = (.error e, demoCompleted)) ∧
    (∃ e, completeTrip 1 (some 2000) none demoCompleted = (.error e, demoCompleted)) ∧
    (∃ e, cancelTrip 1 demoCompleted = (.error e, demoCompleted)) ∧
    ((Op.updateTrip 1 { revenue := some 999 }).after demoCompleted).trips.map
      (fun t => (t.id, t.status)) = [(1, "Completed")] :=
  ⟨((terminal_statuses_are_final demoCompleted).1 1 demoTripCompleted (by decide)
      (Or.inl (by decide))).1 demoNow,
    ((terminal_statuses_are_final demoCompleted).1 1 demoTripCompleted (by decide)
      (Or.inl (by decide))).2.1 (some 2000) none,
    ((terminal_statuses_are_final demoCompleted).1 1 demoTripCompleted (by decide)
      (Or.inl (by decide))).2.2,
    by decide⟩

/-! ## Busy drivers and vehicles -/

/-- C12 (as stated) fails: from a store with no trips, two trips for the same driver on two
vehicles are created and both dispatched, the second one while the driver is `On Duty`; the
driver is then referenced by two `Dispatched` trips. -/
theorem driver_dispatched_twice :
    NoDispatched sharedDriverStore ∧
    (∀ op ∈ sharedDriverOps, op.isTransition = true) ∧
    runOps sharedDriverOps sharedDriverStore = some sharedDriverDispatched ∧
    driverDispatchedCount sharedDriverDispatched 7 = 2 ∧
    ¬ DriverAtMostOne sharedDriverDispatched := by
  refine ⟨?_, ?_, ?_, ?_, ?_⟩ <;> decide

theorem busyInvariant_dispatchTrip (now : Int) (tripId : Nat) (s s' : Store) (u : Trip)
    (h : dispatchTrip now tripId s = (.ok u, s')) (hinv : BusyInvariant s) :
    BusyInvariant s' := by
  obtain ⟨t, d, v, ht, hst, hd, hds, hexp, hv, hvs, hcap⟩ :=
    dispatchTrip_ok_inv now tripId s u (by rw [h])
  have heq := dispatchTrip_ok_eq now tripId s t d v ht hst hd hds hexp hv hvs hcap
  rw [h] at heq
  injection heq with _ h2
  subst h2
  have hsel := (single_eq_some_iff _ _).mp ht
  have hvsel := (single_eq_some_iff _ _).mp hv
  intro w' hw'
  obtain ⟨w, hw, hww⟩ := mem_updateWhere _ _ _ _ hw'
  have hc := count_after_update s.trips tripId (fun t => { t with status := "Dispatched" }) t hsel
    (isDispatchedOn w.id)
  have hi := hinv w hw
  simp only [dispatchedCount] at hi ⊢
  simp only [updateDrivers, updateVehicles, updateTrips]
  have q1 : isDispatchedOn w.id t = false := by simp [isDispatchedOn, hst]
  by_cases hm : some w.id = t.vehicle_id
  · have hwv : w = v := by
      have : w ∈ s.vehicles.filter (fun v => decide (some v.id = t.vehicle_id)) :=
        List.mem_filter.mpr ⟨hw, by simpa using hm⟩
      rw [hvsel] at this
      simpa using this
    subst hwv
    have q2 : isDispatchedOn w.id { t with status := "Dispatched" } = true := by
      simp [isDispatchedOn, hm.symm]
    have hne : ¬ w.status = "On Trip" := by rw [hvs]; decide
    rw [q1, q2] at hc
    simp only [hm, decide_True, if_true] at hww
    subst hww
    simp only [if_true, Bool.false_eq_true, if_false, Nat.add_zero] at hc
    rcases hi with h0 | ⟨_, h1⟩
    · right
      refine ⟨?_, rfl⟩
      rw [h0] at hc
      exact hc
    · exact absurd h1 hne
  · have q2 : isDispatchedOn w.id { t with status := "Dispatched" } = false := by
      have hm' : ¬ t.vehicle_id = some w.id := fun h => hm h.symm
      simp [isDispatchedOn, hm']
    rw [q1, q2] at hc
    simp only [hm, decide_False, Bool.false_eq_true, if_false] at hww
    subst hww
    simp only [Bool.false_eq_true, if_false, Nat.add_zero] at hc
    rw [hc]
    exact hi

theorem busyInvariant_release (s : Store) (t : Trip) (trips' : List Trip)
    (drivers' : List Driver) (fv : Vehicle → Vehicle) (hfid : ∀ v, (fv v).id = v.id)
    (hst : t.status = "Dispatched")
    (hcount : ∀ w, trips'.countP (isDispatchedOn w) + (if isDispatchedOn w t = true then 1 else 0) =
      s.trips.countP (isDispatchedOn w))
    (hinv : BusyInvariant s) :
    BusyInvariant
      { trips := trips'
        vehicles := updateWhere (fun v => decide (some v.id = t.vehicle_id)) fv s.vehicles
        drivers := drivers' } := by
  intro w' hw'
  obtain ⟨w, hw, hww⟩ := mem_updateWhere _ _ _ _ hw'
  have hc := hcount w.id
  have hi := hinv w hw
  simp only [dispatchedCount] at hi ⊢
  by_cases hm : some w.id = t.vehicle_id
  · have q1 : isDispatchedOn w.id t = true := by simp [isDispatchedOn, hst, hm.symm]
    rw [q1] at hc
    simp only [hm, decide_True, if_true] at hww
    have hid : w'.id = w.id := by rw [hww, hfid]
    rw [hid]
    simp only [if_true] at hc
    left
    rcases hi with h0 | ⟨h1, _⟩ <;> omega
  · have q1 : isDispatchedOn w.id t = false := by
      have hm' : ¬ t.vehicle_id = some w.id := fun h => hm h.symm
      simp [isDispatchedOn, hm']
    rw [q1] at hc
    simp only [hm, decide_False, Bool.false_eq_true, if_false] at hww
    subst hww
    simp only [Bool.false_eq_true, if_false, Nat.add_zero] at hc
    rw [hc]
    exact hi

theorem busyInvariant_of_count_eq (s s' : Store) (hv : s'.vehicles = s.vehicles)
    (hc : ∀ w, dispatchedCount s' w = dispatchedCount s w) (hinv : BusyInvariant s) :
    BusyInvariant s' := by
  intro w hw
  rw [hv] at hw
  rw [hc]
  exact hinv w hw

theorem busyInvariant_completeTrip (tripId : Nat) (eo r : Option Int) (s s' : Store)
    (c : CompletedTrip) (h : completeTrip tripId eo r s = (.ok c, s'))
    (hinv : BusyInvariant s) : BusyInvariant s' := by
  obtain ⟨t, ht, hst, hodo⟩ := completeTrip_ok_inv tripId eo r s c (by rw [h])
  have heq := completeTrip_ok_eq tripId eo r s t ht hst hodo
  rw [h] at heq
  injection heq with _ h2
  subst h2
  have hsel := (single_eq_some_iff _ _).mp ht
  refine busyInvariant_release s t _ _ (releaseWithOdometer eo) (fun _ => rfl) hst ?_ hinv
  intro w
  have hc := count_after_update s.trips tripId (completeRow eo r) t hsel (isDispatchedOn w)
  have q2 : isDispatchedOn w (completeRow eo r t) = false := by
    simp [isDispatchedOn, completeRow]
  rw [q2] at hc
  simpa using hc

theorem busyInvariant_cancelTrip (tripId : Nat) (s s' : Store) (u : Trip)
    (h : cancelTrip tripId s = (.ok u, s')) (hinv : BusyInvariant s) :
    BusyInvariant s' := by
  obtain ⟨t, ht, hnt⟩ := cancelTrip_ok_inv tripId s u (by rw [h])
  have heq := cancelTrip_ok_eq tripId s t ht hnt
  rw [h] at heq
  injection heq with _ h2
  subst h2
  have hsel := (single_eq_some_iff _ _).mp ht
  have hcnt : ∀ w, (updateWhere (fun x => decide (x.id = tripId))
      (fun t => { t with status := "Cancelled" }) s.trips).countP (isDispatchedOn w) +
        (if isDispatchedOn w t = true then 1 else 0) = s.trips.countP (isDispatchedOn w) := by
    intro w
    have hc := count_after_update s.trips tripId (fun t => { t with status := "Cancelled" }) t
      hsel (isDispatchedOn w)
    have q2 : isDispatchedOn w { t with status := "Cancelled" } = false := by
      simp [isDispatchedOn]
    rw [q2] at hc
    simpa using hc
  by_cases hd : t.status = "Dispatched"
  · rw [if_pos hd]
    exact busyInvariant_release s t _ _ (fun v => { v with status := "Available" })
      (fun _ => rfl) hd hcnt hinv
  · rw [if_neg hd]
    refine busyInvariant_of_count_eq s _ rfl ?_ hinv
    intro w
    have hc := hcnt w
    have q1 : isDispatchedOn w t = false := by simp [isDispatchedOn, hd]
    rw [q1] at hc
    simpa [dispatchedCount, updateTrips] using hc

theorem busyInvariant_deleteTrip (tripId : Nat) (s s' : Store)
    (h : deleteTrip tripId s = (.ok (), s')) (hinv : BusyInvariant s) :
    BusyInvariant s' := by
  obtain ⟨t, ht⟩ := deleteTrip_ok_inv tripId s (by rw [h])
  have heq := deleteTrip_ok_eq tripId s t ht
  rw [h] at heq
  injection heq with _ h2
  subst h2
  have hsel := (single_eq_some_iff _ _).mp ht
  have hcnt := count_after_delete s.trips tripId t hsel
  by_cases hd : t.status = "Dispatched"
  · rw [if_pos hd]
    exact busyInvariant_release s t _ _ (fun v => { v with status := "Available" })
      (fun _ => rfl) hd (fun w => hcnt (isDispatchedOn w)) hinv
  · rw [if_neg hd]
    refine busyInvariant_of_count_eq s _ rfl ?_ hinv
    intro w
    have hc := hcnt (isDispatchedOn w)
    have q1 : isDispatchedOn w t = false := by simp [isDispatchedOn, hd]
    rw [q1] at hc
    simpa [dispatchedCount] using hc

theorem busyInvariant_createDraftTrip (now : Int) (td : TripData) (s : Store)
    (hinv : BusyInvariant s) : BusyInvariant (createDraftTrip now td s).2 := by
  refine busyInvariant_of_count_eq s _ rfl ?_ hinv
  intro w
  simp [dispatchedCount, createDraftTrip, List.countP_append, isDispatchedOn]

theorem busyInvariant_apply (op : Op) (s s' : Store) (h : op.apply s = some s')
    (hop : op.isTransition = true) (hinv : BusyInvariant s) : BusyInvariant s' := by
  cases op with
  | createDraftTrip now td =>
    obtain ⟨a, ha⟩ := successStore_eq_some (createDraftTrip now td s) s' h
    have := busyInvariant_createDraftTrip now td s hinv
    rw [ha] at this
    exact this
  | dispatchTrip now tripId =>
    obtain ⟨a, ha⟩ := successStore_eq_some _ _ h
    exact busyInvariant_dispatchTrip now tripId s s' a ha hinv
  | completeTrip tripId eo r =>
    obtain ⟨a, ha⟩ := successStore_eq_some _ _ h
    exact busyInvariant_completeTrip tripId eo r s s' a ha hinv
  | cancelTrip tripId =>
    obtain ⟨a, ha⟩ := successStore_eq_some _ _ h
    exact busyInvariant_cancelTrip tripId s s' a ha hinv
  | deleteTrip tripId =>
    obtain ⟨a, ha⟩ := successStore_eq_some _ _ h
    exact busyInvariant_deleteTrip tripId s s' ha hinv
  | updateTrip tripId td => simp [Op.isTransition] at hop

theorem busyInvariant_runOps (ops : List Op) :
    ∀ s s', runOps ops s = some s' → (∀ op ∈ ops, op.isTransition = true) → BusyInvariant s →
      BusyInvariant s' := by
  induction ops with
  | nil =>
    intro s s' h _ hinv
    simp [runOps] at h
    subst h
    exact hinv
  | cons op ops ih =>
    intro s s' h hops hinv
    simp only [runOps] at h
    cases hop : op.apply s with
    | none => rw [hop] at h; simp at h
    | some s1 =>
      rw [hop] at h
      exact ih s1 s' h (fun o ho => hops o (List.mem_cons_of_mem _ ho))
        (busyInvariant_apply op s s1 hop (hops op (List.mem_cons_self _ _)) hinv)

theorem busyInvariant_of_noDispatched (s : Store) (h : NoDispatched s) : BusyInvariant s := by
  intro v _
  left
  simp only [dispatchedCount, List.countP_eq_zero]
  intro t ht
  simp [isDispatchedOn, h t ht]

/-- C12 (as amended): the dispatch precondition enforces that a vehicle is busy for at most one
active trip: in every store reached from one with no `Dispatched` trips by `createDraftTrip`,
`dispatchTrip`, `completeTrip`, `cancelTrip` and `deleteTrip`, every vehicle is referenced by
at most one `Dispatched` trip, and one that is referenced is `On Trip`. -/
theorem vehicle_dispatched_at_most_once (ops : List Op) (s s' : Store)
    (hstart : NoDispatched s) (hops : ∀ op ∈ ops, op.isTransition = true)
    (hrun : runOps ops s = some s') :
    AtMostOneDispatch s' ∧
      ∀ v ∈ s'.vehicles, dispatchedCount s' v.id = 1 → v.status = "On Trip" := by
  have hb := busyInvariant_runOps ops s s' hrun hops (busyInvariant_of_noDispatched s hstart)
  constructor
  · intro v hv
    rcases hb v hv with h | ⟨h, _⟩ <;> omega
  · intro v hv h1
    rcases hb v hv with h | ⟨_, h⟩
    · omega
    · exact h

/-- Witness for C12 (as amended): after the two dispatches that share a driver, each of the
two vehicles is referenced by one `Dispatched` trip. -/
theorem vehicle_dispatched_at_most_once_witness :
    (NoDispatched sharedDriverStore ∧ (∀ op ∈ sharedDriverOps, op.isTransition = true) ∧
      runOps sharedDriverOps sharedDriverStore = some sharedDriverDispatched) ∧
    (AtMostOneDispatch sharedDriverDispatched ∧
      ∀ v ∈ sharedDriverDispatched.vehicles,
        dispatchedCount sharedDriverDispatched v.id = 1 → v.status = "On Trip") :=
  ⟨⟨by decide, by decide, by decide⟩,
    vehicle_dispatched_at_most_once sharedDriverOps sharedDriverStore sharedDriverDispatched
      (by decide) (by decide) (by decide)⟩

/-! ## Odometers and edits of finished trips -/

theorem odometerOrdered_updateWhere (s : Store) (tripId : Nat) (f : Trip → Trip) (t0 : Trip)
    (hsel : selectTrip s tripId = some t0) (hf : odometerOrdered (f t0) = true)
    (hinv : OdometerOrdered s) :
    ∀ t ∈ updateWhere (fun x => decide (x.id = tripId)) f s.trips, odometerOrdered t = true := by
  intro t ht
  obtain ⟨x, hx, hxt⟩ := mem_updateWhere _ _ _ _ ht
  by_cases h : x.id = tripId
  · have := eq_of_selectTrip s tripId t0 x hsel hx h
    subst this
    simp only [h, decide_True, if_true] at hxt
    rw [hxt]
    exact hf
  · simp only [h, decide_False, Bool.false_eq_true, if_false] at hxt
    rw [hxt]
    exact hinv x hx

theorem odometerOrdered_apply (op : Op) (s s' : Store) (h : op.apply s = some s')
    (hop : op.isTransition = true) (hinv : OdometerOrdered s) : OdometerOrdered s' := by
  cases op with
  | createDraftTrip now td =>
    obtain ⟨a, ha⟩ := successStore_eq_some (createDraftTrip now td s) s' h
    have hs : s' = (createDraftTrip now td s).2 := by rw [ha]
    subst hs
    intro t ht
    simp only [createDraftTrip, List.mem_append, List.mem_singleton] at ht
    rcases ht with ht | ht
    · exact hinv t ht
    · rw [ht]; rfl
  | dispatchTrip now tripId =>
    obtain ⟨u, ha⟩ := successStore_eq_some _ _ h
    obtain ⟨t, d, v, ht, hst, hd, hds, hexp, hv, hvs, hcap⟩ :=
      dispatchTrip_ok_inv now tripId s u (by rw [ha])
    have heq := dispatchTrip_ok_eq now tripId s t d v ht hst hd hds hexp hv hvs hcap
    rw [ha] at heq
    injection heq with _ h2
    subst h2
    exact odometerOrdered_updateWhere s tripId _ t ht (hinv t (selectTrip_mem s tripId t ht)) hinv
  | completeTrip tripId eo r =>
    obtain ⟨c, ha⟩ := successStore_eq_some _ _ h
    obtain ⟨t, ht, hst, hodo⟩ := completeTrip_ok_inv tripId eo r s c (by rw [ha])
    have heq := completeTrip_ok_eq tripId eo r s t ht hst hodo
    rw [ha] at heq
    injection heq with _ h2
    subst h2
    refine odometerOrdered_updateWhere s tripId _ t ht ?_ hinv
    have hold := hinv t (selectTrip_mem s tripId t ht)
    cases eo with
    | none => simpa [odometerOrdered, completeRow] using hold
    | some e =>
      have := hodo e rfl
      cases hstart : t.start_odometer with
      | none => simp [odometerOrdered, completeRow, hstart]
      | some a =>
        simp only [hstart, toNumber, Option.getD_some] at this
        simp only [odometerOrdered, completeRow, hstart, Option.isSome_some, if_true,
          decide_eq_true_eq]
        omega
  | cancelTrip tripId =>
    obtain ⟨u, ha⟩ := successStore_eq_some _ _ h
    obtain ⟨t, ht, hnt⟩ := cancelTrip_ok_inv tripId s u (by rw [ha])
    have heq := cancelTrip_ok_eq tripId s t ht hnt
    rw [ha] at heq
    injection heq with _ h2
    subst h2
    have := odometerOrdered_updateWhere s tripId (fun t => { t with status := "Cancelled" }) t ht
      (hinv t (selectTrip_mem s tripId t ht)) hinv
    by_cases hd : t.status = "Dispatched"
    · rw [if_pos hd]; exact this
    · rw [if_neg hd]; exact this
  | deleteTrip tripId =>
    obtain ⟨u, ha⟩ := successStore_eq_some _ _ h
    obtain ⟨t, ht⟩ := deleteTrip_ok_inv tripId s (by rw [ha])
    have heq := deleteTrip_ok_eq tripId s t ht
    rw [ha] at heq
    injection heq with _ h2
    subst h2
    have : ∀ x ∈ s.trips.filter (fun t => !decide (t.id = tripId)), odometerOrdered x = true :=
      fun x hx => hinv x (List.mem_filter.mp hx).1
    by_cases hd : t.status = "Dispatched"
    · rw [if_pos hd]; exact this
    · rw [if_neg hd]; exact this
  | updateTrip tripId td => simp [Op.isTransition] at hop

/-- Without `updateTrip`, the order of the two odometer readings of every trip is kept by every
sequence of successful requests. -/
theorem odometerOrdered_runOps (ops : List Op) :
    ∀ s s', runOps ops s = some s' → (∀ op ∈ ops, op.isTransition = true) →
      OdometerOrdered s → OdometerOrdered s' := by
  induction ops with
  | nil =>
    intro s s' h _ hinv
    simp [runOps] at h
    subst h
    exact hinv
  | cons op ops ih =>
    intro s s' h hops hinv
    simp only [runOps] at h
    cases hop : op.apply s with
    | none => rw [hop] at h; simp at h
    | some s1 =>
      rw [hop] at h
      exact ih s1 s' h (fun o ho => hops o (List.mem_cons_of_mem _ ho))
        (odometerOrdered_apply op s s1 hop (hops op (List.mem_cons_self _ _)) hinv)

/-- C13: from a store with no trips, the example trip is created with start odometer 1000,
dispatched and completed at 1250; an `updateTrip` on the completed trip then sets its start
odometer to 2000, and the store holds a trip with both readings set and
`end_odometer < start_odometer`. -/
theorem updateTrip_breaks_odometer_order :
    fleetStore.trips = [] ∧
    runOps regressOps fleetStore = some regressedStore ∧
    regressedStore.trips.map (fun t => (t.status, t.start_odometer, t.end_odometer)) =
      [("Completed", some 2000, some 1250)] ∧
    ¬ OdometerOrdered regressedStore := by
  refine ⟨?_, ?_, ?_, ?_⟩ <;> decide

/-- C14: `updateTrip` on a `Completed` trip succeeds and overwrites the supplied fields: the
revenue of the completed example trip goes from 40 to 999. -/
theorem updateTrip_edits_completed_trip :
    selectTrip demoCompleted 1 = some demoTripCompleted ∧
    demoTripCompleted.status = "Completed" ∧
    demoTripCompleted.revenue = some 40 ∧
    updateTrip 1 { revenue := some 999 } demoCompleted =
      (.ok { demoTripCompleted with revenue := some 999 },
        { demoCompleted with trips := [{ demoTripCompleted with revenue := some 999 }] }) := by
  refine ⟨?_, ?_, ?_, ?_⟩ <;> decide

/-- C15 (as stated) fails: a vehicle whose odometer reads 5000 completes a trip entered with
start odometer 1000 at end odometer 1250, and its odometer becomes 1250. -/
theorem completeTrip_lowers_vehicle_odometer :
    completeTrip 1 (some 1250) (some 40) wornVehicleStore =
      (.ok { trip := { id := 1, vehicle_id := some 1, driver_id := some 7,
                       start_odometer := some 1000, end_odometer := some 1250,
                       revenue := some 40, status := "Completed" },
             distance := some 250 }, wornVehicleCompleted) ∧
    wornVehicleStore.vehicles.map (fun v => (v.id, v.odometer)) = [(1, some 5000)] ∧
    wornVehicleCompleted.vehicles.map (fun v => (v.id, v.odometer)) = [(1, some 1250)] := by
  refine ⟨?_, ?_, ?_⟩ <;> decide

/-- C15 (as amended): after a successful `completeTrip` with end odometer `e`, every vehicle
the trip references has odometer `e`, which is at least the trip's start odometer; hence its
odometer has not decreased whenever its earlier reading was at most `e`, in particular when it
was at most the trip's start odometer. -/
theorem completeTrip_vehicle_odometer (tripId : Nat) (e : Int) (r : Option Int) (s s' : Store)
    (c : CompletedTrip) (h : completeTrip tripId (some e) r s = (.ok c, s')) :
    ∃ t, selectTrip s tripId = some t ∧ toNumber t.start_odometer ≤ e ∧
      (∀ v' ∈ s'.vehicles, some v'.id = t.vehicle_id → v'.odometer = some e) ∧
      (∀ v ∈ s.vehicles, some v.id = t.vehicle_id →
        (toNumber v.odometer ≤ e ∨ toNumber v.odometer ≤ toNumber t.start_odometer) →
        ∀ v' ∈ s'.vehicles, v'.id = v.id → toNumber v.odometer ≤ toNumber v'.odometer) := by
  obtain ⟨t, ht, hst, hodo⟩ := completeTrip_ok_inv tripId (some e) r s c (by rw [h])
  have heq := completeTrip_ok_eq tripId (some e) r s t ht hst hodo
  rw [h] at heq
  injection heq with _ h2
  subst h2
  have hle : toNumber t.start_odometer ≤ e := by
    have := hodo e rfl
    omega
  have hafter : ∀ v' ∈ (updateDrivers t.driver_id (fun d => { d with status := "Available" })
      (updateVehicles t.vehicle_id (releaseWithOdometer (some e))
        (updateTrips tripId (completeRow (some e) r) s))).vehicles,
      some v'.id = t.vehicle_id → v'.odometer = some e := by
    intro v' hv' hid
    obtain ⟨w, _, hww⟩ := mem_updateWhere _ _ _ _ hv'
    by_cases hm : some w.id = t.vehicle_id
    · simp only [hm, decide_True, if_true] at hww
      rw [hww]
      rfl
    · simp only [hm, decide_False, Bool.false_eq_true, if_false] at hww
      rw [hww] at hid
      exact absurd hid hm
  refine ⟨t, ht, hle, hafter, ?_⟩
  intro v _ hvid hbound v' hv' hid
  have := hafter v' hv' (by rw [hid]; exact hvid)
  rw [this]
  simp only [toNumber, Option.getD_some] at hbound ⊢
  rcases hbound with hb | hb
  · exact hb
  · simp only [toNumber] at hle
    omega

/-- Witness for C15 (as amended): the example vehicle reads 900 before the example trip
(start 1000) is completed at 1250, and 1250 after. -/
theorem completeTrip_vehicle_odometer_witness :
    completeTrip 1 (some 1250) (some 40) demoDispatched =
      (.ok { trip := demoTripCompleted, distance := some 250 }, demoCompleted) ∧
    ∃ t, selectTrip demoDispatched 1 = some t ∧ toNumber t.start_odometer ≤ 1250 ∧
      (∀ v' ∈ demoCompleted.vehicles, some v'.id = t.vehicle_id → v'.odometer = some 1250) ∧
      (∀ v ∈ demoDispatched.vehicles, some v.id = t.vehicle_id →
        (toNumber v.odometer ≤ 1250 ∨ toNumber v.odometer ≤ toNumber t.start_odometer) →
        ∀ v' ∈ demoCompleted.vehicles, v'.id = v.id →
          toNumber v.odometer ≤ toNumber v'.odometer) :=
  ⟨by decide,
    completeTrip_vehicle_odometer 1 1250 (some 40) demoDispatched demoCompleted
      { trip := demoTripCompleted, distance := some 250 } (by decide)⟩

/-! ## The HTTP answer to a failed transition -/

theorem append_ne_empty (a b : String) (h : a ≠ "") : a ++ b ≠ "" := by
  intro hab
  apply h
  have := congrArg String.data hab
  simp only [String.data_append] at this
  have ha : a.data = [] := (List.append_eq_nil.mp this).1
  exact String.ext ha

theorem dispatchTrip_error_ne_empty (now : Int) (tripId : Nat) (s : Store) (e : String)
    (h : (dispatchTrip now tripId s).1 = .error e) : e ≠ "" := by
  have key : (∃ u, (dispatchTrip now tripId s).1 = .ok u) ∨
      ∃ m, (dispatchTrip now tripId s).1 = .error m ∧ m ≠ "" := by
    unfold dispatchTrip
    repeat' (first | split | (intro _) | (dsimp only))
    all_goals first
      | (left; exact ⟨_, rfl⟩)
      | (right; exact ⟨_, rfl, by decide⟩)
      | (right; exact ⟨_, rfl, append_ne_empty _ _ (append_ne_empty _ _ (by decide))⟩)
  rcases key with ⟨u, hu⟩ | ⟨m, hm, hne⟩
  · rw [hu] at h; cases h
  · rw [hm] at h; cases h; exact hne

theorem completeTrip_error_ne_empty (tripId : Nat) (eo r : Option Int) (s : Store) (e : String)
    (h : (completeTrip tripId eo r s).1 = .error e) : e ≠ "" := by
  have key : (∃ u, (completeTrip tripId eo r s).1 = .ok u) ∨
      ∃ m, (completeTrip tripId eo r s).1 = .error m ∧ m ≠ "" := by
    unfold completeTrip
    repeat' (first | split | (intro _) | (dsimp only))
    all_goals first
      | (left; exact ⟨_, rfl⟩)
      | (right; exact ⟨_, rfl, by decide⟩)
  rcases key with ⟨u, hu⟩ | ⟨m, hm, hne⟩
  · rw [hu] at h; cases h
  · rw [hm] at h; cases h; exact hne

theorem cancelTrip_error_ne_empty (tripId : Nat) (s : Store) (e : String)
    (h : (cancelTrip tripId s).1 = .error e) : e ≠ "" := by
  have key : (∃ u, (cancelTrip tripId s).1 = .ok u) ∨
      ∃ m, (cancelTrip tripId s).1 = .error m ∧ m ≠ "" := by
    unfold cancelTrip
    repeat' (first | split | (intro _) | (dsimp only))
    all_goals first
      | (left; exact ⟨_, rfl⟩)
      | (right; exact ⟨_, rfl, by decide⟩)
  rcases key with ⟨u, hu⟩ | ⟨m, hm, hne⟩
  · rw [hu] at h; cases h
  · rw [hm] at h; cases h; exact hne

theorem respond_error {α : Type} (r : Except String α × Store) (e : String)
    (h : r.1 = .error e) (hne : e ≠ "") :
    respond r = ({ status := 500, body := .error e }, r.2) := by
  obtain ⟨res, st⟩ := r
  simp only at h
  subst h
  simp [respond, errorHandler, newError, orNumber, orString, hne]

/-- C16: the overloaded dispatch, a validation failure, is answered with the thrown message
and status 500, not 400, and so are a completion below the start odometer and the
cancellation of a completed trip; the validation failure of the sibling handler
`updateDriverStatus`, a status outside the allowed list, is answered with status 400. -/
theorem validation_failure_is_500 :
    TripController.dispatchTrip demoNow 1 overloadedStore =
      ({ status := 500, body := .error "Cargo weight exceeds vehicle capacity" },
        overloadedStore) ∧
    (TripController.dispatchTrip demoNow 1 overloadedStore).1.status ≠ 400 ∧
    (TripController.finishTrip 1 (some 999) none demoDispatched).1 =
      { status := 500, body := .error "End odometer must be greater than start odometer" } ∧
    (TripController.cancelTrip 1 demoCompleted).1 =
      { status := 500,
        body := .error "Completed or already cancelled trips cannot be cancelled" } ∧
    (updateDriverStatus 7 (some "Asleep") fleetStore).1.status = 400 := by
  refine ⟨?_, ?_, ?_, ?_, ?_⟩ <;> decide

/-- The extent of the missing status: as the code stands, every dispatch, complete or cancel
request whose service call throws is answered with the body `{ error: message }`, the message
being the one thrown, and falls through to the default status 500 of the error handler,
because the service throws errors without a status; the handler uses a truthy `status`, else
a truthy `statusCode`, of the error when it has one. -/
theorem transition_failure_answer (now : Int) (id : Nat) (eo r : Option Int) (s : Store)
    (e : String) :
    ((Fleet.dispatchTrip now id s).1 = .error e →
      TripController.dispatchTrip now id s = ({ status := 500, body := .error e }, s)) ∧
    ((Fleet.completeTrip id eo r s).1 = .error e →
      TripController.finishTrip id eo r s = ({ status := 500, body := .error e }, s)) ∧
    ((Fleet.cancelTrip id s).1 = .error e →
      TripController.cancelTrip id s = ({ status := 500, body := .error e }, s)) ∧
    (∀ err : ThrownError,
      (∀ n, err.status = some n → n ≠ 0 → (errorHandler err : HttpResponse Trip).status = n) ∧
      ((err.status = none ∨ err.status = some 0) → ∀ n, err.statusCode = some n → n ≠ 0 →
        (errorHandler err : HttpResponse Trip).status = n) ∧
      ((err.status = none ∨ err.status = some 0) →
        (err.statusCode = none ∨ err.statusCode = some 0) →
        (errorHandler err : HttpResponse Trip).status = 500)) := by
  refine ⟨?_, ?_, ?_, ?_⟩
  · intro h
    have := respond_error (Fleet.dispatchTrip now id s) e h
      (dispatchTrip_error_ne_empty now id s e h)
    rw [dispatchTrip_error_store now id s e h] at this
    exact this
  · intro h
    have := respond_error (Fleet.completeTrip id eo r s) e h
      (completeTrip_error_ne_empty id eo r s e h)
    rw [completeTrip_error_store id eo r s e h] at this
    exact this
  · intro h
    have := respond_error (Fleet.cancelTrip id s) e h (cancelTrip_error_ne_empty id s e h)
    rw [cancelTrip_error_store id s e h] at this
    exact this
  · intro err
    refine ⟨?_, ?_, ?_⟩
    · intro n h1 h2
      simp [errorHandler, orNumber, h1, h2]
    · intro h1 n h2 h3
      rcases h1 with h1 | h1 <;> simp [errorHandler, orNumber, h1, h2, h3]
    · intro h1 h2
      rcases h1 with h1 | h1 <;> rcases h2 with h2 | h2 <;>
        simp [errorHandler, orNumber, h1, h2]

/-- An instance of `transition_failure_answer`: a completion below the start odometer and the
cancellation of a completed trip fall through to status 500 with the thrown message. -/
theorem transition_failure_answer_witness :
    TripController.finishTrip 1 (some 999) none demoDispatched =
      ({ status := 500, body := .error "End odometer must be greater than start odometer" },
        demoDispatched) ∧
    TripController.cancelTrip 1 demoCompleted =
      ({ status := 500,
         body := .error "Completed or already cancelled trips cannot be cancelled" },
        demoCompleted) :=
  ⟨(transition_failure_answer demoNow 1 (some 999) none demoDispatched
      "End odometer must be greater than start odometer").2.1 (by decide),
    (transition_failure_answer demoNow 1 none none demoCompleted
      "Completed or already cancelled trips cannot be cancelled").2.2.1 (by decide)⟩

/-! ## The access control gate -/

theorem authorize_of_role (toLowerCase : String → String) (allowedRoles : List String)
    (req : Request) (user : User) (role : String) (hu : req.user = some user)
    (hr : user.role = some role) (hne : role ≠ "") :
    authorize toLowerCase allowedRoles req =
      if ∃ a ∈ allowedRoles, toLowerCase a = toLowerCase role then Gate.next
      else Gate.reject 403 "Forbidden: Insufficient permissions" := by
  by_cases h : ∃ a ∈ allowedRoles, toLowerCase a = toLowerCase role
  · have hany : allowedRoles.any (fun r => decide (toLowerCase r = toLowerCase role)) = true := by
      rw [List.any_eq_true]
      obtain ⟨a, ha, hal⟩ := h
      exact ⟨a, ha, by simpa using hal⟩
    simp [authorize, hu, hr, hne, hany, h]
  · have hany : allowedRoles.any (fun r => decide (toLowerCase r = toLowerCase role)) = false := by
      rw [List.any_eq_false]
      intro a ha hdec
      exact h ⟨a, ha, by simpa using hdec⟩
    simp only [authorize, hu, hr, hne, hany, if_neg h]
    simp

/-- C17: `authorize(...allowedRoles)` calls `next()` exactly when the request has a user with
a non-empty role whose lower-cased value is the lower-cased value of an allowed role; with no
user, no role or an empty role it answers 401, with a role that is not allowed 403; and when
it does not call `next()` the guarded handler does not run: the route answers with the
rejection and the store is untouched. -/
theorem authorize_fail_closed (toLowerCase : String → String) (allowedRoles : List String)
    (req : Request) :
    (authorize toLowerCase allowedRoles req = Gate.next ↔
      ∃ user role, req.user = some user ∧ user.role = some role ∧ role ≠ "" ∧
        ∃ a ∈ allowedRoles, toLowerCase a = toLowerCase role) ∧
    ((req.user = none ∨ ∃ user, req.user = some user ∧
        (user.role = none ∨ user.role = some "")) →
      authorize toLowerCase allowedRoles req = Gate.reject 401 "Unauthorized") ∧
    ((∃ user role, req.user = some user ∧ user.role = some role ∧ role ≠ "" ∧
        ∀ a ∈ allowedRoles, toLowerCase a ≠ toLowerCase role) →
      authorize toLowerCase allowedRoles req =
        Gate.reject 403 "Forbidden: Insufficient permissions") ∧
    (authorize toLowerCase allowedRoles req ≠ Gate.next →
      ∀ (handler : Store → HttpResponse Trip × Store) (s : Store),
        ∃ status error, (status = 401 ∨ status = 403) ∧
          guarded (authorize toLowerCase allowedRoles req) handler s =
            ({ status := status, body := .error error }, s)) := by
  have h401 : (req.user = none ∨ ∃ user, req.user = some user ∧
      (user.role = none ∨ user.role = some "")) →
      authorize toLowerCase allowedRoles req = Gate.reject 401 "Unauthorized" := by
    rintro (h | ⟨user, hu, h | h⟩)
    · simp [authorize, h]
    · simp [authorize, hu, h]
    · simp [authorize, hu, h]
  have h403 : (∃ user role, req.user = some user ∧ user.role = some role ∧ role ≠ "" ∧
      ∀ a ∈ allowedRoles, toLowerCase a ≠ toLowerCase role) →
      authorize toLowerCase allowedRoles req =
        Gate.reject 403 "Forbidden: Insufficient permissions" := by
    rintro ⟨user, role, hu, hr, hne, hall⟩
    rw [authorize_of_role toLowerCase allowedRoles req user role hu hr hne, if_neg]
    rintro ⟨a, ha, hal⟩
    exact hall a ha hal
  have hcases : (req.user = none ∨ ∃ user, req.user = some user ∧
      (user.role = none ∨ user.role = some "")) ∨
      ∃ user role, req.user = some user ∧ user.role = some role ∧ role ≠ "" := by
    cases hu : req.user with
    | none => exact Or.inl (Or.inl rfl)
    | some user =>
      cases hr : user.role with
      | none => exact Or.inl (Or.inr ⟨user, rfl, Or.inl hr⟩)
      | some role =>
        by_cases hne : role = ""
        · exact Or.inl (Or.inr ⟨user, rfl, Or.inr (by rw [hr, hne])⟩)
        · exact Or.inr ⟨user, role, rfl, hr, hne⟩
  have hiff : authorize toLowerCase allowedRoles req = Gate.next ↔
      ∃ user role, req.user = some user ∧ user.role = some role ∧ role ≠ "" ∧
        ∃ a ∈ allowedRoles, toLowerCase a = toLowerCase role := by
    constructor
    · intro hnext
      rcases hcases with h | ⟨user, role, hu, hr, hne⟩
      · rw [h401 h] at hnext; cases hnext
      · refine ⟨user, role, hu, hr, hne, ?_⟩
        by_contra hno
        rw [authorize_of_role toLowerCase allowedRoles req user role hu hr hne, if_neg hno]
          at hnext
        cases hnext
    · rintro ⟨user, role, hu, hr, hne, hex⟩
      rw [authorize_of_role toLowerCase allowedRoles req user role hu hr hne, if_pos hex]
  refine ⟨hiff, h401, h403, ?_⟩
  intro hnot handler s
  rcases hcases with h | ⟨user, role, hu, hr, hne⟩
  · exact ⟨401, "Unauthorized", Or.inl rfl, by rw [h401 h]; rfl⟩
  · have hno : ¬ ∃ a ∈ allowedRoles, toLowerCase a = toLowerCase role := by
      intro hex
      exact hnot (hiff.mpr ⟨user, role, hu, hr, hne, hex⟩)
    refine ⟨403, "Forbidden: Insufficient permissions", Or.inr rfl, ?_⟩
    rw [authorize_of_role toLowerCase allowedRoles req user role hu hr hne, if_neg hno]
    rfl

/-- Witness for C17: on the trip routes, guarded by `authorize('Dispatcher')`, a user whose
role is written `DISPATCHER` passes, a request without a user is answered 401, and a
`Fleet Manager` is answered 403 and the dispatch does not run. -/
theorem authorize_fail_closed_witness :
    authorize asciiLower ["Dispatcher"] { user := some { role := some "DISPATCHER" } } =
      Gate.next ∧
    authorize asciiLower ["Dispatcher"] { user := none } = Gate.reject 401 "Unauthorized" ∧
    (∃ status error, (status = 401 ∨ status = 403) ∧
      guarded (authorize asciiLower ["Dispatcher"] { user := some { role := some "Fleet Manager" } })
        (TripController.dispatchTrip demoNow 1) demoStore =
        ({ status := status, body := .error error }, demoStore)) :=
  ⟨(authorize_fail_closed asciiLower ["Dispatcher"]
      { user := some { role := some "DISPATCHER" } }).1.mpr
      ⟨{ role := some "DISPATCHER" }, "DISPATCHER", rfl, rfl, by decide, "Dispatcher",
        by decide, by decide⟩,
    (authorize_fail_closed asciiLower ["Dispatcher"] { user := none }).2.1 (Or.inl rfl),
    (authorize_fail_closed asciiLower ["Dispatcher"]
      { user := some { role := some "Fleet Manager" } }).2.2.2 (by decide)
      (TripController.dispatchTrip demoNow 1) demoStore⟩

/-! ## Driver status changes -/

theorem selectDriver_updateDrivers (s : Store) (id : Nat) (f : Driver → Driver)
    (hf : ∀ x, (f x).id = x.id) :
    selectDriver (updateDrivers (some id) f s) (some id) = (selectDriver s (some id)).map f := by
  unfold selectDriver
  have h2 := filter_updateWhere (fun d : Driver => decide (some d.id = some id))
    (fun d => decide (some d.id = some id)) f s.drivers (by intro r; simp [hf])
  simp only [updateDrivers]
  rw [h2]
  generalize hl : s.drivers.filter (fun d => decide (some d.id = some id)) = l
  have hall : ∀ x ∈ l, decide (some x.id = some id) = true := by
    intro x hx
    rw [← hl] at hx
    exact (List.mem_filter.mp hx).2
  match l, hall with
  | [], _ => simp [updateWhere, single]
  | [a], hall =>
    have : a.id = id := by simpa using hall a (by simp)
    simp [updateWhere, single, this]
  | a :: b :: tl, _ => simp [updateWhere, single]

theorem invalidStatus_message :
    "Invalid status. Must be one of: " ++ ", ".intercalate allowedDriverStatuses =
      "Invalid status. Must be one of: On Duty, Off Duty, Available, Suspended" := by
  decide

theorem updateDriverStatus_valid (id : Nat) (st : String) (s : Store)
    (hst : st ∈ allowedDriverStatuses) :
    updateDriverStatus id (some st) s =
      match selectDriver s (some id) with
      | none =>
        ({ status := 400,
           body := .error "JSON object requested, multiple (or no) rows returned" }, s)
      | some d =>
        ({ status := 200, body := .ok { d with status := st } },
          updateDrivers (some id) (fun d => { d with status := st }) s) := by
  have hne : st ≠ "" := by
    intro h
    rw [h] at hst
    revert hst
    decide
  have hsel := selectDriver_updateDrivers s id (fun d => { d with status := st }) (fun _ => rfl)
  cases hd : selectDriver s (some id) with
  | none =>
    rw [hd] at hsel
    simp [updateDriverStatus, hne, hst, hsel]
  | some d =>
    rw [hd] at hsel
    simp [updateDriverStatus, hne, hst, hsel]

/-- C27: `updateDriverStatus` answers 400 and writes nothing when the requested status is
missing, empty or not one of `On Duty`, `Off Duty`, `Available`, `Suspended`; for each of the
four values it sets exactly the status of the addressed driver and returns the row; so every
driver row it leaves is an old row or carries one of the four values, and trips and vehicles
are never touched. -/
theorem updateDriverStatus_effect (id : Nat) (status : Option String) (s : Store) :
    ((status = none ∨ ∃ st, status = some st ∧ (st = "" ∨ st ∉ allowedDriverStatuses)) →
      updateDriverStatus id status s =
        ({ status := 400,
           body := .error
             "Invalid status. Must be one of: On Duty, Off Duty, Available, Suspended" }, s)) ∧
    (∀ st d, status = some st → st ∈ allowedDriverStatuses →
      selectDriver s (some id) = some d →
      updateDriverStatus id status s =
        ({ status := 200, body := .ok { d with status := st } },
          { s with drivers :=
              s.drivers.map (fun x => if x.id = id then { x with status := st } else x) })) ∧
    (∀ d' ∈ (updateDriverStatus id status s).2.drivers,
      d' ∈ s.drivers ∨ d'.status ∈ allowedDriverStatuses) ∧
    (updateDriverStatus id status s).2.trips = s.trips ∧
    (updateDriverStatus id status s).2.vehicles = s.vehicles := by
  have hbad : (status = none ∨ ∃ st, status = some st ∧ (st = "" ∨ st ∉ allowedDriverStatuses)) →
      updateDriverStatus id status s =
        ({ status := 400,
           body := .error
             "Invalid status. Must be one of: On Duty, Off Duty, Available, Suspended" }, s) := by
    rintro (h | ⟨st, h, hst⟩)
    · subst h
      simp only [updateDriverStatus, invalidStatus_message]
    · subst h
      simp only [updateDriverStatus, if_pos hst, invalidStatus_message]
  have hcases : (status = none ∨ ∃ st, status = some st ∧
      (st = "" ∨ st ∉ allowedDriverStatuses)) ∨
      ∃ st, status = some st ∧ st ∈ allowedDriverStatuses := by
    cases status with
    | none => exact Or.inl (Or.inl rfl)
    | some st =>
      by_cases h : st ∈ allowedDriverStatuses
      · exact Or.inr ⟨st, rfl, h⟩
      · exact Or.inl (Or.inr ⟨st, rfl, Or.inr h⟩)
  refine ⟨hbad, ?_, ?_, ?_, ?_⟩
  · intro st d hs hst hd
    subst hs
    rw [updateDriverStatus_valid id st s hst, hd]
    simp [updateDrivers, updateWhere]
  · intro d' hd'
    rcases hcases with h | ⟨st, hs, hst⟩
    · rw [hbad h] at hd'
      exact Or.inl hd'
    · subst hs
      rw [updateDriverStatus_valid id st s hst] at hd'
      cases hsel : selectDriver s (some id) with
      | none =>
        rw [hsel] at hd'
        exact Or.inl hd'
      | some d =>
        rw [hsel] at hd'
        obtain ⟨x, hx, hxd⟩ := mem_updateWhere _ _ _ _ hd'
        by_cases hm : some x.id = some id
        · simp only [hm, decide_True, if_true] at hxd
          right
          rw [hxd]
          exact hst
        · simp only [hm, decide_False, Bool.false_eq_true, if_false] at hxd
          left
          rw [hxd]
          exact hx
  · rcases hcases with h | ⟨st, hs, hst⟩
    · rw [hbad h]
    · subst hs
      rw [updateDriverStatus_valid id st s hst]
      cases selectDriver s (some id) <;> rfl
  · rcases hcases with h | ⟨st, hs, hst⟩
    · rw [hbad h]
    · subst hs
      rw [updateDriverStatus_valid id st s hst]
      cases selectDriver s (some id) <;> rfl

/-- Witness for C27: on the example fleet `Retired` is refused with 400 and nothing written,
and `Suspended` is written to driver 7 alone. -/
theorem updateDriverStatus_effect_witness :
    updateDriverStatus 7 (some "Retired") fleetStore =
      ({ status := 400,
         body := .error
           "Invalid status. Must be one of: On Duty, Off Duty, Available, Suspended" },
        fleetStore) ∧
    updateDriverStatus 7 (some "Suspended") fleetStore =
      ({ status := 200, body := .ok { demoDriver with status := "Suspended" } },
        { trips := fleetStore.trips
          vehicles := fleetStore.vehicles
          drivers := fleetStore.drivers.map (fun x =>
            if x.id = 7 then { x with status := "Suspended" } else x) }) :=
  ⟨(updateDriverStatus_effect 7 (some "Retired") fleetStore).1
      (Or.inr ⟨"Retired", rfl, Or.inr (by decide)⟩),
    (updateDriverStatus_effect 7 (some "Suspended") fleetStore).2.1 "Suspended" demoDriver rfl
      (by decide) (by decide)⟩

/-- C26 (as stated) fails: on `PATCH /drivers/:id/status` a caller whose role is
`Fleet Manager` is answered 403 and the driver is not changed. -/
theorem fleet_manager_cannot_patch_driver_status :
    patchDriverStatus asciiLower { user := some { role := some "Fleet Manager" } } 7
        (some "Suspended") fleetStore =
      ({ status := 403, body := .error "Forbidden: Insufficient permissions" }, fleetStore) ∧
    authorize asciiLower ["Safety Officer"] { user := some { role := some "Fleet Manager" } } ≠
      Gate.next := by
  refine ⟨?_, ?_⟩ <;> decide

/-- C26 (as amended): the route `PATCH /drivers/:id/status` admits the `Safety Officer` role
and no other: a `Safety Officer` reaches `updateDriverStatus`, a `Fleet Manager` is answered
403 with nothing written; and the operation changes only the status field of the addressed
driver, leaving the other drivers, the trips and the vehicles as they were. -/
theorem patchDriverStatus_gate (toLowerCase : String → String) (id : Nat)
    (status : Option String) (s : Store)
    (hroles : toLowerCase "Fleet Manager" ≠ toLowerCase "Safety Officer") :
    patchDriverStatus toLowerCase { user := some { role := some "Safety Officer" } } id status s =
      updateDriverStatus id status s ∧
    patchDriverStatus toLowerCase { user := some { role := some "Fleet Manager" } } id status s =
      ({ status := 403, body := .error "Forbidden: Insufficient permissions" }, s) ∧
    ((updateDriverStatus id status s).2.drivers = s.drivers ∨
      ∃ st, (updateDriverStatus id status s).2.drivers =
        s.drivers.map (fun x => if x.id = id then { x with status := st } else x)) ∧
    (updateDriverStatus id status s).2.trips = s.trips ∧
    (updateDriverStatus id status s).2.vehicles = s.vehicles := by
  have hso : authorize toLowerCase ["Safety Officer"]
      { user := some { role := some "Safety Officer" } } = Gate.next := by
    rw [authorize_of_role toLowerCase _ _ { role := some "Safety Officer" } "Safety Officer" rfl
      rfl (by decide), if_pos]
    exact ⟨"Safety Officer", by simp, rfl⟩
  have hfm : authorize toLowerCase ["Safety Officer"]
      { user := some { role := some "Fleet Manager" } } =
      Gate.reject 403 "Forbidden: Insufficient permissions" := by
    rw [authorize_of_role toLowerCase _ _ { role := some "Fleet Manager" } "Fleet Manager" rfl
      rfl (by decide), if_neg]
    rintro ⟨a, ha, hal⟩
    simp only [List.mem_singleton] at ha
    subst ha
    exact hroles hal.symm
  refine ⟨?_, ?_, ?_, ?_, ?_⟩
  · simp only [patchDriverStatus, hso, guarded]
  · simp only [patchDriverStatus, hfm, guarded]
  · cases status with
    | none => left; rfl
    | some st =>
      by_cases hst : st ∈ allowedDriverStatuses
      · rw [updateDriverStatus_valid id st s hst]
        cases selectDriver s (some id) with
        | none => left; rfl
        | some d =>
          right
          exact ⟨st, by simp [updateDrivers, updateWhere]⟩
      · left
        simp only [updateDriverStatus, hst, not_false_eq_true, or_true, if_true]
  · cases status with
    | none => rfl
    | some st =>
      by_cases hst : st ∈ allowedDriverStatuses
      · rw [updateDriverStatus_valid id st s hst]
        cases selectDriver s (some id) <;> rfl
      · simp only [updateDriverStatus, hst, not_false_eq_true, or_true, if_true]
  · cases status with
    | none => rfl
    | some st =>
      by_cases hst : st ∈ allowedDriverStatuses
      · rw [updateDriverStatus_valid id st s hst]
        cases selectDriver s (some id) <;> rfl
      · simp only [updateDriverStatus, hst, not_false_eq_true, or_true, if_true]

/-- Witness for C26 (as amended): with ASCII lower-casing, on the example fleet. -/
theorem patchDriverStatus_gate_witness :
    asciiLower "Fleet Manager" ≠ asciiLower "Safety Officer" ∧
    patchDriverStatus asciiLower { user := some { role := some "Safety Officer" } } 7
        (some "Suspended") fleetStore = updateDriverStatus 7 (some "Suspended") fleetStore ∧
    patchDriverStatus asciiLower { user := some { role := some "Fleet Manager" } } 7
        (some "Suspended") fleetStore =
      ({ status := 403, body := .error "Forbidden: Insufficient permissions" }, fleetStore) :=
  ⟨by decide,
    (patchDriverStatus_gate asciiLower 7 (some "Suspended") fleetStore (by decide)).1,
    (patchDriverStatus_gate asciiLower 7 (some "Suspended") fleetStore (by decide)).2.1⟩

/-! ## The position simulator -/

theorem sameButPosition_refl (v : Vehicle) : SameButPosition v v := by
  cases v
  rfl

theorem sameButPosition_trans (a b c : Vehicle) (hab : SameButPosition a b)
    (hbc : SameButPosition b c) : SameButPosition a c := by
  cases a
  cases b
  cases c
  simp only [SameButPosition, Vehicle.mk.injEq] at hab hbc ⊢
  obtain ⟨h1, h2, h3, h4, _, h6, h7, h8, h9, _⟩ := hab
  obtain ⟨k1, k2, k3, k4, _, k6, k7, k8, k9, _⟩ := hbc
  simp [h1, h2, h3, h4, h6, h7, h8, h9, k1, k2, k3, k4, k6, k7, k8, k9]

theorem sameButPosition_movedRow (now : Int) (m : Move) (v row : Vehicle) :
    SameButPosition row (movedRow now m v row) := by
  cases row
  rfl

theorem sameButPosition_status (a b : Vehicle) (h : SameButPosition a b) :
    b.status = a.status ∧ b.id = a.id := by
  rw [h]
  exact ⟨rfl, rfl⟩

theorem moveAll_eq_map (now : Int) (rand : Nat → Move) (snapshot : List Vehicle) :
    ∀ (i : Nat) (table : List Vehicle),
      ∃ G : Vehicle → Vehicle, (∀ v, SameButPosition v (G v)) ∧
        moveAll now rand i snapshot table = table.map G := by
  induction snapshot with
  | nil => intro i table; exact ⟨id, sameButPosition_refl, by simp [moveAll]⟩
  | cons v rest ih =>
    intro i table
    obtain ⟨G2, hG2, h2⟩ := ih (i + 1)
      (updateWhere (fun row => decide (row.id = v.id)) (movedRow now (rand i) v) table)
    refine ⟨fun r => G2 (if decide (r.id = v.id) = true then movedRow now (rand i) v r else r),
      ?_, ?_⟩
    · intro r
      refine sameButPosition_trans r _ _ ?_ (hG2 _)
      by_cases h : decide (r.id = v.id) = true
      · rw [if_pos h]; exact sameButPosition_movedRow now (rand i) v r
      · rw [if_neg h]; exact sameButPosition_refl r
    · simp only [moveAll]
      rw [h2]
      simp [updateWhere, List.map_map, Function.comp_def]

/-- C25 (as stated) fails: on the example fleet, where no vehicle is `On Trip`, a tick sets the
`Available` vehicle to `On Trip`; the example trip, dispatchable before the tick, is refused
after it because its vehicle is no longer `Available`. -/
theorem simulate_activates_vehicle :
    simulate 5 demoRand demoStore = activatedFleet ∧
    demoStore.vehicles.map (fun v => v.status) = ["Available", "In Shop"] ∧
    activatedFleet.vehicles.map (fun v => v.status) = ["On Trip", "In Shop"] ∧
    (dispatchTrip demoNow 1 demoStore).1 = .ok demoTripDispatched ∧
    (dispatchTrip demoNow 1 activatedFleet).1 =
      .error "Vehicle is On Trip, must be Available" := by
  refine ⟨?_, ?_, ?_, ?_, ?_⟩ <;> decide

/-- C25 (as amended): a tick never touches trips or drivers.  When some vehicle is `On Trip`
it writes only position, odometer and last-updated: every vehicle row keeps its other fields,
its status among them.  When no vehicle is `On Trip` it writes only statuses: it sets at most
three vehicles, all of them `Available`, to `On Trip`. -/
theorem simulate_frame (now : Int) (rand : Nat → Move) (s : Store) :
    (simulate now rand s).trips = s.trips ∧
    (simulate now rand s).drivers = s.drivers ∧
    ((∃ v ∈ s.vehicles, v.status = "On Trip") →
      (∃ G : Vehicle → Vehicle, (∀ v, SameButPosition v (G v)) ∧
        (simulate now rand s).vehicles = s.vehicles.map G) ∧
      (simulate now rand s).vehicles.map (fun v => v.status) =
        s.vehicles.map (fun v => v.status)) ∧
    ((∀ v ∈ s.vehicles, v.status ≠ "On Trip") →
      ∃ ids : List Nat, ids.length ≤ 3 ∧
        (∀ i ∈ ids, ∃ v ∈ s.vehicles, v.id = i ∧ v.status = "Available") ∧
        (simulate now rand s).vehicles =
          s.vehicles.map (fun v => if v.id ∈ ids then { v with status := "On Trip" } else v)) := by
  refine ⟨?_, ?_, ?_, ?_⟩
  · unfold simulate
    dsimp only
    split
    · split <;> rfl
    · rfl
  · unfold simulate
    dsimp only
    split
    · split <;> rfl
    · rfl
  · rintro ⟨v, hv, hvs⟩
    have hne : ¬ (s.vehicles.filter (fun v => decide (v.status = "On Trip"))).length = 0 := by
      intro h0
      have hnil := List.length_eq_zero.mp h0
      have : v ∈ s.vehicles.filter (fun v => decide (v.status = "On Trip")) :=
        List.mem_filter.mpr ⟨hv, by simpa using hvs⟩
      rw [hnil] at this
      simp at this
    obtain ⟨G, hG, hmap⟩ := moveAll_eq_map now rand
      (s.vehicles.filter (fun v => decide (v.status = "On Trip"))) 0 s.vehicles
    have hveh : (simulate now rand s).vehicles = s.vehicles.map G := by
      unfold simulate
      dsimp only
      rw [if_neg hne]
      exact hmap
    refine ⟨⟨G, hG, hveh⟩, ?_⟩
    rw [hveh, List.map_map]
    apply List.map_congr_left
    intro x _
    exact (sameButPosition_status x (G x) (hG x)).1
  · intro hnone
    have h0 : (s.vehicles.filter (fun v => decide (v.status = "On Trip"))).length = 0 := by
      rw [List.length_eq_zero, List.filter_eq_nil_iff]
      intro x hx
      simpa using hnone x hx
    by_cases hav :
        ((s.vehicles.filter (fun v => decide (v.status = "Available"))).take 3).length > 0
    · refine ⟨((s.vehicles.filter (fun v => decide (v.status = "Available"))).take 3).map
        (fun v => v.id), ?_, ?_, ?_⟩
      · rw [List.length_map, List.length_take]
        exact Nat.min_le_left _ _
      · intro i hi
        obtain ⟨x, hx, hxi⟩ := List.mem_map.mp hi
        have hx' := List.mem_of_mem_take hx
        have := List.mem_filter.mp hx'
        exact ⟨x, this.1, hxi, by simpa using this.2⟩
      · unfold simulate
        dsimp only
        rw [if_pos h0, if_pos hav]
        simp [updateWhere]
    · refine ⟨[], by simp, by simp, ?_⟩
      unfold simulate
      dsimp only
      rw [if_pos h0, if_neg hav]
      simp

/-- Witness for C25 (as amended): with the example trip under way, a tick moves vehicle 1 and
leaves every status as it was. -/
theorem simulate_frame_witness :
    (∃ v ∈ demoDispatched.vehicles, v.status = "On Trip") ∧
    (simulate 5 demoRand demoDispatched).vehicles.map (fun v => v.status) =
      demoDispatched.vehicles.map (fun v => v.status) ∧
    (simulate 5 demoRand demoDispatched).vehicles.map (fun v => (v.current_lat, v.odometer)) =
      [(some 19086000, some 901), (none, none)] :=
  ⟨by decide,
    ((simulate_frame 5 demoRand demoDispatched).2.2.1 (by decide)).2,
    by decide⟩


/-! ## Rounding and formatting of numbers -/

theorem ratio_abs_value (x : Ratio) : |x.value| = (x.num.natAbs : ℚ) / (x.den : ℚ) := by
  unfold Ratio.value
  rw [abs_div, Nat.abs_cast, Nat.cast_natAbs, Int.cast_abs]

theorem toFixed_units_bounds (d : Nat) (x : Ratio) (h : 0 < x.den) :
    ((toFixed d x).units : ℚ) ≤ |x.value| * 10 ^ d + 1 / 2 ∧
      |x.value| * 10 ^ d + 1 / 2 < (toFixed d x).units + 1 := by
  have hq : (0 : ℚ) < (x.den : ℚ) := by exact_mod_cast h
  have h1 : (2 * x.num.natAbs * 10 ^ d + x.den) / (2 * x.den) * (2 * x.den) ≤
      2 * x.num.natAbs * 10 ^ d + x.den := Nat.div_mul_le_self _ _
  have h2 : 2 * x.num.natAbs * 10 ^ d + x.den <
      (2 * x.num.natAbs * 10 ^ d + x.den) / (2 * x.den) * (2 * x.den) + 2 * x.den :=
    Nat.lt_div_mul_add (by omega)
  have e : |x.value| * 10 ^ d + 1 / 2 =
      ((2 * x.num.natAbs * 10 ^ d + x.den : ℕ) : ℚ) / ((2 * x.den : ℕ) : ℚ) := by
    rw [ratio_abs_value]
    push_cast
    field_simp
    ring
  have hpos : (0 : ℚ) < ((2 * x.den : ℕ) : ℚ) := by
    push_cast
    linarith
  simp only [toFixed]
  rw [e]
  constructor
  · rw [le_div_iff₀ hpos]
    exact_mod_cast h1
  · rw [div_lt_iff₀ hpos]
    have : ((2 * x.num.natAbs * 10 ^ d + x.den : ℕ) : ℚ) <
        (((2 * x.num.natAbs * 10 ^ d + x.den) / (2 * x.den) * (2 * x.den) + 2 * x.den : ℕ) : ℚ) := by
      exact_mod_cast h2
    calc ((2 * x.num.natAbs * 10 ^ d + x.den : ℕ) : ℚ)
        < (((2 * x.num.natAbs * 10 ^ d + x.den) / (2 * x.den) * (2 * x.den) + 2 * x.den : ℕ) : ℚ) :=
          this
      _ = (((2 * x.num.natAbs * 10 ^ d + x.den) / (2 * x.den) : ℕ) + 1) * ((2 * x.den : ℕ) : ℚ) := by
          push_cast
          ring

theorem ratio_value_neg_iff (x : Ratio) (h : 0 < x.den) : x.value < 0 ↔ x.num < 0 := by
  have hq : (0 : ℚ) < (x.den : ℚ) := by exact_mod_cast h
  unfold Ratio.value
  rw [div_neg_iff]
  constructor
  · rintro (⟨_, h2⟩ | ⟨h1, _⟩)
    · exact absurd h2 (not_lt.mpr hq.le)
    · exact_mod_cast h1
  · intro hn
    exact Or.inr ⟨by exact_mod_cast hn, hq⟩

theorem fixed_value_eq (d : Nat) (x : Ratio) (h : 0 < x.den) :
    (toFixed d x).value =
      (if x.value < 0 then -1 else 1) * ((toFixed d x).units : ℚ) / 10 ^ d := by
  have hneg : (toFixed d x).negative = decide (x.num < 0) := rfl
  have hd : (toFixed d x).digits = d := rfl
  unfold Fixed.value Fixed.signed
  rw [hneg, hd]
  by_cases hn : x.num < 0
  · have : x.value < 0 := (ratio_value_neg_iff x h).mpr hn
    simp only [hn, decide_True, if_true, this]
    push_cast
    ring
  · have : ¬ x.value < 0 := fun hv => hn ((ratio_value_neg_iff x h).mp hv)
    simp only [hn, decide_False, Bool.false_eq_true, if_false, this]
    push_cast
    ring

/-- The number `toFixed` writes is within half a unit of the last decimal of its argument. -/
theorem toFixed_value_close (d : Nat) (x : Ratio) (h : 0 < x.den) :
    |(toFixed d x).value - x.value| ≤ 1 / (2 * 10 ^ d) := by
  obtain ⟨h1, h2⟩ := toFixed_units_bounds d x h
  have hp : (0 : ℚ) < 10 ^ d := by positivity
  have e1 : (|x.value| + 1 / (2 * 10 ^ d)) * 10 ^ d = |x.value| * 10 ^ d + 1 / 2 := by
    field_simp
    ring
  have k1 : ((toFixed d x).units : ℚ) / 10 ^ d ≤ |x.value| + 1 / (2 * 10 ^ d) := by
    rw [div_le_iff₀ hp, e1]
    exact h1
  have e2 : (((toFixed d x).units : ℚ) / 10 ^ d + 1 / (2 * 10 ^ d)) * 10 ^ d =
      (toFixed d x).units + 1 / 2 := by
    field_simp
    ring
  have k2 : |x.value| < ((toFixed d x).units : ℚ) / 10 ^ d + 1 / (2 * 10 ^ d) := by
    have : |x.value| * 10 ^ d < (((toFixed d x).units : ℚ) / 10 ^ d + 1 / (2 * 10 ^ d)) * 10 ^ d := by
      rw [e2]
      linarith
    exact lt_of_mul_lt_mul_right this hp.le
  rw [fixed_value_eq d x h, abs_le]
  by_cases hv : x.value < 0
  · rw [abs_of_neg hv] at k1 k2
    simp only [hv, if_true]
    rw [show (-1 : ℚ) * ((toFixed d x).units : ℚ) / 10 ^ d =
      -(((toFixed d x).units : ℚ) / 10 ^ d) by ring]
    constructor <;> linarith
  · rw [abs_of_nonneg (not_lt.mp hv)] at k1 k2
    simp only [hv, if_false, one_mul]
    constructor <;> linarith

theorem exact_isRounding : IsRounding exact := by
  intro r h
  refine ⟨h, ?_⟩
  simp only [exact, sub_self, abs_zero]
  exact mul_nonneg (by unfold unitRoundoff; positivity) (abs_nonneg _)

theorem quotient_natCast (a : Int) (b : Nat) : Ratio.quotient a (b : Int) = ⟨a, b⟩ := by
  unfold Ratio.quotient
  rw [if_neg (by omega)]
  simp

theorem scale_value (k : Int) (r : Ratio) : (Ratio.scale k r).value = k * r.value := by
  unfold Ratio.scale Ratio.value
  push_cast
  ring

theorem unitRoundoff_pos : 0 < unitRoundoff := by
  unfold unitRoundoff
  positivity

theorem unitRoundoff_small : unitRoundoff * 2 ^ 53 = 1 := by
  unfold unitRoundoff
  norm_num

/-- The double computed for `(a / b) * 100` from two counts: it is a fraction, it is not
negative, and it differs from the exact percentage by at most three roundoffs. -/
theorem percent_close (fl : Ratio → Ratio) (hfl : IsRounding fl) (a b : Nat) (hb : 0 < b) :
    0 < (fl (Ratio.scale 100 (fl (Ratio.quotient a b)))).den ∧
      0 ≤ (fl (Ratio.scale 100 (fl (Ratio.quotient a b)))).value ∧
      |(fl (Ratio.scale 100 (fl (Ratio.quotient a b)))).value - 100 * ((a : ℚ) / b)| ≤
        300 * unitRoundoff * ((a : ℚ) / b) := by
  have hu := unitRoundoff_pos
  have hu1 : unitRoundoff ≤ 1 := by
    unfold unitRoundoff
    norm_num
  have hq : (Ratio.quotient a b).value = (a : ℚ) / b := by
    rw [quotient_natCast]
    simp [Ratio.value]
  have hq0 : (0 : ℚ) ≤ (a : ℚ) / b := by positivity
  have hd : 0 < (Ratio.quotient (a : Int) (b : Int)).den := by
    rw [quotient_natCast]
    exact hb
  obtain ⟨d1, c1⟩ := hfl _ hd
  rw [hq, abs_of_nonneg hq0, abs_le] at c1
  have hd2 : 0 < (Ratio.scale 100 (fl (Ratio.quotient a b))).den := d1
  obtain ⟨d2, c2⟩ := hfl _ hd2
  rw [scale_value] at c2
  set r1 := (fl (Ratio.quotient a b)).value with hr1
  set r2 := (fl (Ratio.scale 100 (fl (Ratio.quotient a b)))).value with hr2
  set q := (a : ℚ) / b with hqq
  set u := unitRoundoff with huu
  have r1pos : 0 ≤ r1 := by nlinarith [mul_nonneg (sub_nonneg.mpr hu1) hq0]
  have e : |((100 : ℤ) : ℚ) * r1| = 100 * r1 := by
    rw [abs_of_nonneg]
    · push_cast
      ring
    · push_cast
      positivity
  rw [e, abs_le] at c2
  push_cast at c2
  have p1 : u * r1 ≤ u * (q + u * q) := mul_le_mul_of_nonneg_left (by linarith) hu.le
  have p2 : u * (u * q) ≤ u * q := by
    have : u * q ≥ 0 := mul_nonneg hu.le hq0
    nlinarith
  refine ⟨d2, by nlinarith [mul_nonneg hu.le r1pos], ?_⟩
  rw [abs_le]
  constructor <;> nlinarith

/-- What `toFixed` returns for a number that is not negative and closer than a half to
`n` units of the last decimal. -/
theorem toFixed_eq_of_close (d : Nat) (x : Ratio) (h : 0 < x.den) (n : Nat)
    (hpos : 0 ≤ x.value) (hclose : |x.value * 10 ^ d - n| < 1 / 2) :
    toFixed d x = ⟨false, n, d⟩ := by
  obtain ⟨h1, h2⟩ := toFixed_units_bounds d x h
  rw [abs_of_nonneg hpos] at h1 h2
  rw [abs_lt] at hclose
  have a1 : ((toFixed d x).units : ℚ) < (n : ℚ) + 1 := by linarith
  have a2 : (n : ℚ) < ((toFixed d x).units : ℚ) + 1 := by linarith
  have a3 : (toFixed d x).units < n + 1 := by exact_mod_cast a1
  have a4 : n < (toFixed d x).units + 1 := by exact_mod_cast a2
  have hu : (toFixed d x).units = n := by omega
  have hn : ¬ x.num < 0 := fun hn => absurd ((ratio_value_neg_iff x h).mpr hn) (not_lt.mpr hpos)
  have hneg : (toFixed d x).negative = false := by
    show decide (x.num < 0) = false
    exact decide_eq_false hn
  have hdig : (toFixed d x).digits = d := rfl
  cases hx : toFixed d x with
  | mk ng un dg =>
    rw [hx] at hu hneg hdig
    simp only at hu hneg hdig
    rw [hu, hneg, hdig]

/-- C18: the `utilizationRate` of `getDashboardMetrics` is `"0.00%"` when there is no active
vehicle; otherwise it is a number written with two decimals and followed by `%`, and that
number is `(onTrip / activeFleet) * 100` up to the rounding of the two floating point
operations and of the two decimals; for 3 vehicles on a trip out of 10 it is `"30.00%"`. -/
theorem utilizationRate_formula (fl : Ratio → Ratio) (hfl : IsRounding fl)
    (onTrip activeFleet : Nat) :
    (activeFleet = 0 → utilizationRate fl onTrip activeFleet = "0.00%") ∧
    (0 < activeFleet → ∃ f : Fixed, f.digits = 2 ∧
      utilizationRate fl onTrip activeFleet = f.text ++ "%" ∧
      |f.value - (onTrip : ℚ) / activeFleet * 100| ≤
        1 / 200 + 300 * unitRoundoff * ((onTrip : ℚ) / activeFleet)) ∧
    utilizationRate fl 3 10 = "30.00%" := by
  refine ⟨?_, ?_, ?_⟩
  · intro h
    subst h
    simp only [utilizationRate, gt_iff_lt, lt_self_iff_false, if_false]
    decide
  · intro h
    obtain ⟨hd, _, hc⟩ := percent_close fl hfl onTrip activeFleet h
    refine ⟨toFixed 2 (fl (Ratio.scale 100 (fl (Ratio.quotient onTrip activeFleet)))), rfl,
      ?_, ?_⟩
    · simp only [utilizationRate, gt_iff_lt, h, if_true]
    · have t := toFixed_value_close 2 _ hd
      rw [abs_le] at hc t ⊢
      norm_num at t
      constructor <;> linarith
  · obtain ⟨hd, hp, hc⟩ := percent_close fl hfl 3 10 (by decide)
    have hs := unitRoundoff_small
    have hu := unitRoundoff_pos
    have key : toFixed 2 (fl (Ratio.scale 100 (fl (Ratio.quotient ((3 : Nat) : Int) ((10 : Nat) : Int))))) =
        ⟨false, 3000, 2⟩ := by
      apply toFixed_eq_of_close 2 _ hd 3000 hp
      rw [abs_le] at hc
      rw [abs_lt]
      push_cast at hc ⊢
      constructor <;> nlinarith
    simp only [utilizationRate, gt_iff_lt, Nat.lt_add_one, Nat.ofNat_pos, if_true]
    rw [key]
    decide

/-- Witness for C18: in exact arithmetic 3 of 10 gives `30.00%`, 1 of 3 gives `33.33%` and an
empty fleet `0.00%`. -/
theorem utilizationRate_formula_witness :
    IsRounding exact ∧ utilizationRate exact 3 10 = "30.00%" ∧
      utilizationRate exact 1 3 = "33.33%" ∧ utilizationRate exact 0 0 = "0.00%" :=
  ⟨exact_isRounding, (utilizationRate_formula exact exact_isRounding 3 10).2.2, by decide,
    (utilizationRate_formula exact exact_isRounding 0 0).1 rfl⟩

/-- The entry `getDriverMetrics` builds for one driver. -/
theorem getDriverMetrics_entry (fl : Ratio → Ratio) (hfl : IsRounding fl) (trips : List Trip)
    (d : Driver) (total completed : Nat)
    (htotal : total = trips.countP (fun t =>
      decide (t.driver_id = some d.id ∧ (t.status = "Dispatched" ∨ t.status = "Completed"))))
    (hcompleted : completed = trips.countP (fun t =>
      decide (t.driver_id = some d.id ∧ t.status = "Completed"))) :
    ∃ m, getDriverMetrics fl [d] trips = [m] ∧ m.name = d.name ∧
      m.safetyScore = d.safety_score ∧ m.totalTrips = total ∧
      (total = 0 → m.completionRate = Rate.zero) ∧
      (0 < total → ∃ n : Nat, m.completionRate = Rate.fixed ⟨false, n, 0⟩ ∧ n ≤ 100 ∧
        |(n : ℚ) - (completed : ℚ) / total * 100| ≤
          1 / 2 + 300 * unitRoundoff * ((completed : ℚ) / total)) := by
  have e1 : ((trips.filter (fun t => decide (t.driver_id = some d.id))).filter
      (fun t => decide (t.status ∈ ["Dispatched", "Completed"]))).length = total := by
    rw [htotal, List.filter_filter, List.countP_eq_length_filter]
    congr 2
    funext t
    simp [and_comm]
  have e2 : ((trips.filter (fun t => decide (t.driver_id = some d.id))).filter
      (fun t => decide (t.status = "Completed"))).length = completed := by
    rw [hcompleted, List.filter_filter, List.countP_eq_length_filter]
    congr 2
    funext t
    simp [and_comm]
  have hle : completed ≤ total := by
    rw [htotal, hcompleted]
    apply List.countP_mono_left
    intro t _ ht
    simp only [decide_eq_true_eq] at ht ⊢
    exact ⟨ht.1, Or.inr ht.2⟩
  refine ⟨_, rfl, rfl, rfl, e1, ?_, ?_⟩
  · intro h0
    simp only [e1, h0, gt_iff_lt, lt_self_iff_false, if_false]
  · intro hpos
    simp only [e1, e2, gt_iff_lt, hpos, if_true]
    obtain ⟨hd, hp, hc⟩ := percent_close fl hfl completed total hpos
    have hu := unitRoundoff_pos
    have hs := unitRoundoff_small
    have hq0 : (0 : ℚ) ≤ (completed : ℚ) / total := by positivity
    have hq1 : (completed : ℚ) / total ≤ 1 := by
      rw [div_le_one (by exact_mod_cast hpos)]
      exact_mod_cast hle
    obtain ⟨b1, b2⟩ := toFixed_units_bounds 0 _ hd
    have hcl := toFixed_value_close 0 _ hd
    rw [fixed_value_eq 0 _ hd, if_neg (not_lt.mpr hp)] at hcl
    rw [abs_of_nonneg hp] at b1 b2
    rw [abs_le] at hc hcl
    norm_num at b1 b2 hcl
    set n := (toFixed 0 (fl (Ratio.scale 100 (fl (Ratio.quotient completed total))))).units
      with hn
    have hneg : (toFixed 0 (fl (Ratio.scale 100 (fl (Ratio.quotient completed total))))).negative
        = false := by
      show decide (_ < 0) = false
      exact decide_eq_false (fun h => absurd ((ratio_value_neg_iff _ hd).mpr h) (not_lt.mpr hp))
    refine ⟨n, ?_, ?_, ?_⟩
    · congr 1
      cases hx : toFixed 0 (fl (Ratio.scale 100 (fl (Ratio.quotient completed total)))) with
      | mk ng un dg =>
        have h3 : (toFixed 0 (fl (Ratio.scale 100 (fl (Ratio.quotient completed total))))).digits
            = 0 := rfl
        rw [hx] at hneg h3
        simp only at hneg h3
        rw [hn, hx, hneg, h3]
    · have : (n : ℚ) < 101 := by nlinarith
      have : n < 101 := by exact_mod_cast this
      omega
    · rw [abs_le]
      constructor <;> linarith

/-- C22: `getDriverMetrics` answers one entry per driver, in order; its `totalTrips` is the
number of the driver's trips that are Dispatched or Completed; its `completionRate` is the
number `0` when that is zero, and otherwise an integer between 0 and 100 written without
decimals, the one nearest to completed / totalTrips * 100 as the floating point operations
give it. -/
theorem getDriverMetrics_rates (fl : Ratio → Ratio) (hfl : IsRounding fl)
    (drivers : List Driver) (trips : List Trip) :
    List.Forall₂
      (fun (d : Driver) (m : DriverMetric) =>
        m.name = d.name ∧ m.safetyScore = d.safety_score ∧
        m.totalTrips = trips.countP (fun t =>
          decide (t.driver_id = some d.id ∧ (t.status = "Dispatched" ∨ t.status = "Completed"))) ∧
        (m.totalTrips = 0 → m.completionRate = Rate.zero) ∧
        (0 < m.totalTrips → ∃ n : Nat, m.completionRate = Rate.fixed ⟨false, n, 0⟩ ∧
          |(n : ℚ) - (trips.countP (fun t =>
              decide (t.driver_id = some d.id ∧ t.status = "Completed")) : ℚ) /
                m.totalTrips * 100| ≤
            1 / 2 + 300 * unitRoundoff * ((trips.countP (fun t =>
              decide (t.driver_id = some d.id ∧ t.status = "Completed")) : ℚ) / m.totalTrips)) ∧
        0 ≤ m.completionRate.value ∧ m.completionRate.value ≤ 100)
      drivers (getDriverMetrics fl drivers trips) := by
  have hmap : getDriverMetrics fl drivers trips =
      drivers.map (fun d => (getDriverMetrics fl [d] trips).headD ⟨none, none, .zero, 0⟩) := by
    simp only [getDriverMetrics, List.map_cons, List.map_nil, List.headD_cons]
  rw [hmap, List.forall₂_map_right_iff, List.forall₂_same]
  intro d _
  obtain ⟨m, hm, h1, h2, h3, h4, h5⟩ := getDriverMetrics_entry fl hfl trips d _ _ rfl rfl
  rw [hm, List.headD_cons]
  refine ⟨h1, h2, h3, ?_, ?_, ?_⟩
  · intro h
    exact h4 (h3 ▸ h)
  · intro h
    obtain ⟨n, e, _, hb⟩ := h5 (h3 ▸ h)
    exact ⟨n, e, by rw [h3]; exact hb⟩
  · rcases Nat.eq_zero_or_pos (trips.countP (fun t =>
      decide (t.driver_id = some d.id ∧ (t.status = "Dispatched" ∨ t.status = "Completed")))) with h | h
    · rw [h4 h]
      simp [Rate.value]
    · obtain ⟨n, e, hn, _⟩ := h5 h
      rw [e]
      simp only [Rate.value, Fixed.value, Fixed.signed, Bool.false_eq_true, if_false, pow_zero,
        div_one, Int.cast_natCast]
      exact ⟨by positivity, by exact_mod_cast hn⟩

/-- Witness for C22: a driver with two Completed trips, a Dispatched and a Cancelled one has 3
trips at rate 67; a driver with only a Draft trip has 0 trips at rate 0. -/
theorem getDriverMetrics_rates_witness :
    IsRounding exact ∧
      getDriverMetrics exact [{ id := 1, name := some "Asha", status := "On Duty" },
          { id := 2, name := some "Ravi", status := "Off Duty" }]
        [{ id := 1, driver_id := some 1, status := "Completed" },
          { id := 2, driver_id := some 1, status := "Dispatched" },
          { id := 3, driver_id := some 1, status := "Completed" },
          { id := 4, driver_id := some 1, status := "Cancelled" },
          { id := 5, driver_id := some 2, status := "Draft" }] =
        [{ name := some "Asha", safetyScore := none,
            completionRate := .fixed ⟨false, 67, 0⟩, totalTrips := 3 },
          { name := some "Ravi", safetyScore := none, completionRate := .zero, totalTrips := 0 }] ∧
      List.Forall₂ (fun (_ : Driver) (m : DriverMetric) =>
          0 ≤ m.completionRate.value ∧ m.completionRate.value ≤ 100)
        [{ id := 1, status := "On Duty" }]
        (getDriverMetrics exact [{ id := 1, status := "On Duty" }]
          [{ id := 1, driver_id := some 1, status := "Completed" }]) :=
  ⟨exact_isRounding, by decide,
    List.Forall₂.imp (fun _ _ h => ⟨h.2.2.2.2.2.1, h.2.2.2.2.2.2⟩)
      (getDriverMetrics_rates exact exact_isRounding [{ id := 1, status := "On Duty" }]
        [{ id := 1, driver_id := some 1, status := "Completed" }])⟩

theorem statsInvariant_step (acc : Option Nat → Option DriverStats) (done : List Trip)
    (t : Trip) (h : StatsInvariant acc done) :
    StatsInvariant (tripStatsStep acc t) (done ++ [t]) := by
  intro id
  by_cases e : t.driver_id = id
  · -- the entry of this trip: seeded when missing, then counted
    have hseed : ∃ st0 : DriverStats, (acc id).getD ⟨200, 150, 5200⟩ = st0 ∧
        st0.total = 200 + done.countP (fun t => decide (t.driver_id = id)) ∧
        st0.completed = 150 +
          done.countP (fun t => decide (t.driver_id = id ∧ t.status = "Completed")) := by
      rcases Nat.eq_zero_or_pos (done.countP (fun t => decide (t.driver_id = id))) with h0 | h0
      · rw [(h id).1 h0]
        refine ⟨_, rfl, ?_, ?_⟩
        · rw [h0]
          rfl
        · have : done.countP (fun t => decide (t.driver_id = id ∧ t.status = "Completed")) = 0 := by
            rw [List.countP_eq_zero] at h0 ⊢
            intro x hx
            have := h0 x hx
            simp only [decide_eq_true_eq] at this ⊢
            exact fun hc => this hc.1
          rw [this]
          rfl
      · obtain ⟨st, hst, a, b⟩ := (h id).2 h0
        rw [hst]
        exact ⟨st, rfl, a, b⟩
    obtain ⟨st0, hst0, a, b⟩ := hseed
    have hpos : 0 < (done ++ [t]).countP (fun t => decide (t.driver_id = id)) := by
      rw [List.countP_append]
      simp [e]
    refine ⟨fun h0 => absurd h0 (Nat.pos_iff_ne_zero.mp hpos), fun _ => ?_⟩
    subst e
    unfold tripStatsStep
    simp only [Function.update_same, hst0]
    by_cases hc : t.status = "Completed"
    · refine ⟨_, by rw [if_pos hc], ?_, ?_⟩
      · show st0.total + 1 = _
        rw [List.countP_append, a]
        simp [Nat.add_assoc]
      · show st0.completed + 1 = _
        rw [List.countP_append, b]
        simp [hc, Nat.add_assoc]
    · refine ⟨_, by rw [if_neg hc], ?_, ?_⟩
      · show st0.total + 1 = _
        rw [List.countP_append, a]
        simp [Nat.add_assoc]
      · show st0.completed = _
        rw [List.countP_append, b]
        simp [hc]
  · -- another id: its entry and its counts are untouched
    have hacc : tripStatsStep acc t id = acc id := by
      unfold tripStatsStep
      exact Function.update_noteq (fun h => e h.symm) _ _
    have c1 : (done ++ [t]).countP (fun t => decide (t.driver_id = id)) =
        done.countP (fun t => decide (t.driver_id = id)) := by
      rw [List.countP_append]
      simp [e]
    have c2 : (done ++ [t]).countP (fun t => decide (t.driver_id = id ∧ t.status = "Completed")) =
        done.countP (fun t => decide (t.driver_id = id ∧ t.status = "Completed")) := by
      rw [List.countP_append]
      simp [e]
    rw [hacc, c1, c2]
    exact h id

theorem statsInvariant_foldl (l : List Trip) :
    ∀ (acc : Option Nat → Option DriverStats) (done : List Trip), StatsInvariant acc done →
      StatsInvariant (l.foldl tripStatsStep acc) (done ++ l) := by
  induction l with
  | nil =>
    intro acc done h
    simpa using h
  | cons t l ih =>
    intro acc done h
    have := ih _ _ (statsInvariant_step acc done t h)
    simpa using this

/-- The entry `tripStats` holds for a driver: none when the driver has no Dispatched or
Completed trip, and otherwise 200 plus the number of those trips and 150 plus the number of
the Completed ones. -/
theorem tripStats_entry (trips : List Trip) (id : Nat) :
    (trips.countP (fun t => decide (t.driver_id = some id ∧
        (t.status = "Dispatched" ∨ t.status = "Completed"))) = 0 →
      tripStats trips (some id) = none) ∧
    (0 < trips.countP (fun t => decide (t.driver_id = some id ∧
        (t.status = "Dispatched" ∨ t.status = "Completed"))) →
      ∃ st, tripStats trips (some id) = some st ∧
        st.total = 200 + trips.countP (fun t => decide (t.driver_id = some id ∧
          (t.status = "Dispatched" ∨ t.status = "Completed"))) ∧
        st.completed = 150 + trips.countP (fun t => decide (t.driver_id = some id ∧
          t.status = "Completed"))) := by
  have hinv : StatsInvariant (tripStats trips)
      (trips.filter (fun t => decide (t.status ∈ ["Dispatched", "Completed"]))) := by
    have := statsInvariant_foldl
      (trips.filter (fun t => decide (t.status ∈ ["Dispatched", "Completed"]))) (fun _ => none) []
      (fun id => ⟨fun _ => rfl, fun h => absurd h (by simp)⟩)
    simpa [tripStats] using this
  have c1 : (trips.filter (fun t => decide (t.status ∈ ["Dispatched", "Completed"]))).countP
      (fun t => decide (t.driver_id = some id)) =
      trips.countP (fun t => decide (t.driver_id = some id ∧
        (t.status = "Dispatched" ∨ t.status = "Completed"))) := by
    rw [List.countP_filter]
    congr 1
    funext t
    simp
  have c2 : (trips.filter (fun t => decide (t.status ∈ ["Dispatched", "Completed"]))).countP
      (fun t => decide (t.driver_id = some id ∧ t.status = "Completed")) =
      trips.countP (fun t => decide (t.driver_id = some id ∧ t.status = "Completed")) := by
    rw [List.countP_filter]
    congr 1
    funext t
    by_cases h : t.status = "Completed" <;> simp [h]
  have := hinv (some id)
  rw [c1, c2] at this
  exact this

/-- C30: for every list of drivers and trips, `getDrivers` lists a driver who has n > 0
Dispatched or Completed trips, c of them Completed, with 200 + n trips and 150 + c completed
ones, and a driver who has none with 10 trips, 10 completed ones and 5200 km, so never with
the number of its trips. A driver whose only trip is Completed over 250 km is listed with 201
trips, 151 of them completed, 5450 km and a completion rate of 75, and a driver with no trip
with 10, 10, 5200 and 100, while the trip rows count 1, 1, 250 and 0, 0, 0 and
`getDriverMetrics` reports 1 trip at rate 100 and 0 trips at rate 0. -/
theorem getDrivers_statistics_are_seeded :
    (∀ (fl : Ratio → Ratio) (drivers : List Driver) (trips : List Trip),
      List.Forall₂
        (fun (d : Driver) (l : ListedDriver) =>
          l.driver = d ∧
          l.total_trips ≠ trips.countP (fun t => decide (t.driver_id = some d.id ∧
            (t.status = "Dispatched" ∨ t.status = "Completed"))) ∧
          (0 < trips.countP (fun t => decide (t.driver_id = some d.id ∧
              (t.status = "Dispatched" ∨ t.status = "Completed"))) →
            l.total_trips = 200 + trips.countP (fun t => decide (t.driver_id = some d.id ∧
              (t.status = "Dispatched" ∨ t.status = "Completed"))) ∧
            l.completed_trips = 150 + trips.countP (fun t =>
              decide (t.driver_id = some d.id ∧ t.status = "Completed"))) ∧
          (trips.countP (fun t => decide (t.driver_id = some d.id ∧
              (t.status = "Dispatched" ∨ t.status = "Completed"))) = 0 →
            l.total_trips = 10 ∧ l.completed_trips = 10 ∧ l.total_distance = 5200))
        drivers (getDrivers fl drivers trips)) ∧
    (getDrivers exact listedDrivers listedTrips).map
        (fun d => (d.total_trips, d.completed_trips, d.total_distance, d.completion_rate)) =
      [(201, 151, 5450, 75), (10, 10, 5200, 100)] ∧
    listedDrivers.map (fun d =>
        (listedTrips.countP (fun t => decide (t.driver_id = some d.id ∧
            (t.status = "Dispatched" ∨ t.status = "Completed"))),
          listedTrips.countP (fun t => decide (t.driver_id = some d.id ∧
            t.status = "Completed")),
          ((listedTrips.filter (fun t => decide (t.driver_id = some d.id ∧
            t.status = "Completed"))).map
              (fun t => toNumber t.end_odometer - toNumber t.start_odometer)).sum)) =
      [(1, 1, 250), (0, 0, 0)] ∧
    (getDriverMetrics exact listedDrivers listedTrips).map
        (fun m => (m.totalTrips, m.completionRate)) =
      [(1, .fixed ⟨false, 100, 0⟩), (0, .zero)] := by
  refine ⟨?_, by decide, by decide, by decide⟩
  intro fl drivers trips
  unfold getDrivers
  rw [List.forall₂_map_right_iff, List.forall₂_same]
  intro d _
  obtain ⟨h0, hpos⟩ := tripStats_entry trips d.id
  rcases Nat.eq_zero_or_pos (trips.countP (fun t => decide (t.driver_id = some d.id ∧
      (t.status = "Dispatched" ∨ t.status = "Completed")))) with hc | hc
  · have e := h0 hc
    simp only [e, Option.getD_none]
    refine ⟨trivial, ?_, ?_, ?_⟩
    · rw [hc]
      decide
    · intro h
      rw [hc] at h
      exact absurd h (by decide)
    · intro _
      refine ⟨?_, ?_, ?_⟩ <;> first | rfl | trivial
  · obtain ⟨st, e, a, b⟩ := hpos hc
    simp only [e, Option.getD_some]
    refine ⟨trivial, ?_, ?_, ?_⟩
    · rw [a]
      omega
    · intro _
      exact ⟨a, b⟩
    · intro h
      rw [h] at hc
      exact absurd hc (by decide)

/-- C21: for a vehicle whose acquisition cost is 0, with revenue 500 and fuel cost 100,
`calculateVehicleROI` answers the roi `"Infinity"`; for one with no acquisition cost and no
activity it answers `"NaN"`, and for an acquisition cost of -100 it answers `"-4.0000"`; for
the same three vehicles `getBusinessIntelligence` reports the roi `"0.0000"`. -/
theorem calculateVehicleROI_divides_by_zero (fl : Ratio → Ratio) :
    (calculateVehicleROI fl 1 zeroCostStore zeroCostFuel []).map (fun r => r.roi) =
      .ok "Infinity" ∧
    (calculateVehicleROI fl 2 zeroCostStore zeroCostFuel []).map (fun r => r.roi) = .ok "NaN" ∧
    (calculateVehicleROI exact 3 zeroCostStore zeroCostFuel []).map (fun r => r.roi) =
      .ok "-4.0000" ∧
    (processedVehicles fl zeroCostStore zeroCostFuel []).map (fun v => v.roi.text) =
      ["0.0000", "0.0000", "0.0000"] := by
  refine ⟨rfl, rfl, by decide, ?_⟩
  have h : ∀ v ∈ zeroCostStore.vehicles, ¬ toNumber v.acquisition_cost > 0 := by decide
  have e : ∀ v ∈ zeroCostStore.vehicles,
      (processVehicle fl zeroCostStore zeroCostFuel [] v).roi = toFixed 4 ⟨0, 1⟩ := by
    intro v hv
    simp only [processVehicle, if_neg (h v hv)]
  rw [processedVehicles, List.map_map]
  rw [List.map_congr_left (g := fun _ => "0.0000")]
  · rfl
  · intro v hv
    simp only [Function.comp, e v hv]
    decide

/-! ## Business intelligence -/

theorem quotient_den_pos (a b : Int) (hb : b ≠ 0) : 0 < (Ratio.quotient a b).den := by
  unfold Ratio.quotient
  split <;> exact Int.natAbs_pos.mpr hb

theorem quotient_value (a b : Int) :
    (Ratio.quotient a b).value = (a : ℚ) / (b : ℚ) := by
  unfold Ratio.quotient
  split
  · rename_i h
    simp only [Ratio.value]
    rw [Nat.cast_natAbs, abs_of_neg h]
    push_cast
    rw [neg_div_neg_eq]
  · rename_i h
    simp only [Ratio.value]
    rw [Nat.cast_natAbs, abs_of_nonneg (not_lt.mp h)]

/-- The number written by `(a / b).toFixed(d)` differs from the exact quotient by at most
half a unit of the last decimal and one roundoff of the division. -/
theorem rounded_quotient_close (fl : Ratio → Ratio) (hfl : IsRounding fl) (d : Nat) (a b : Int)
    (hb : b ≠ 0) :
    |(toFixed d (fl (Ratio.quotient a b))).value - (a : ℚ) / (b : ℚ)| ≤
      1 / (2 * 10 ^ d) + unitRoundoff * |(a : ℚ) / (b : ℚ)| := by
  obtain ⟨hd, hc⟩ := hfl _ (quotient_den_pos a b hb)
  rw [quotient_value a b] at hc
  have t := toFixed_value_close d _ hd
  calc |(toFixed d (fl (Ratio.quotient a b))).value - (a : ℚ) / (b : ℚ)|
      = |((toFixed d (fl (Ratio.quotient a b))).value - (fl (Ratio.quotient a b)).value) +
          ((fl (Ratio.quotient a b)).value - (a : ℚ) / (b : ℚ))| := by ring_nf
    _ ≤ |(toFixed d (fl (Ratio.quotient a b))).value - (fl (Ratio.quotient a b)).value| +
          |(fl (Ratio.quotient a b)).value - (a : ℚ) / (b : ℚ)| := abs_add _ _
    _ ≤ 1 / (2 * 10 ^ d) + unitRoundoff * |(a : ℚ) / (b : ℚ)| := add_le_add t hc

/-- Two strings of `toFixed` with the same number of decimals compare as their scaled
integers. -/
theorem fixed_value_le_iff (f g : Fixed) (h : f.digits = g.digits) :
    f.value ≤ g.value ↔ f.signed ≤ g.signed := by
  unfold Fixed.value
  rw [h, div_le_div_iff_of_pos_right (by positivity)]
  exact Int.cast_le

theorem insertionSort_descending {α : Type} (key : α → Int) (l : List α) :
    (l.insertionSort (fun a b => key a ≥ key b)).Pairwise (fun a b => key a ≥ key b) := by
  haveI : IsTotal α (fun a b => key a ≥ key b) := ⟨fun a b => le_total (key b) (key a)⟩
  haveI : IsTrans α (fun a b => key a ≥ key b) := ⟨fun a b c h1 h2 => le_trans h2 h1⟩
  exact List.sorted_insertionSort (fun a b => key a ≥ key b) l

/-- The first element of a list sorted in descending order of a key is in the list and has
the greatest key; there is one unless the list is empty. -/
theorem head_insertionSort_descending {α : Type} (key : α → Int) (l : List α) :
    (l = [] → (l.insertionSort (fun a b => key a ≥ key b)).head? = none) ∧
    (l ≠ [] → ∃ h, (l.insertionSort (fun a b => key a ≥ key b)).head? = some h) ∧
    ∀ h, (l.insertionSort (fun a b => key a ≥ key b)).head? = some h →
      h ∈ l ∧ ∀ p ∈ l, key p ≤ key h := by
  have hperm := List.perm_insertionSort (fun a b => key a ≥ key b) l
  have hsorted := insertionSort_descending key l
  refine ⟨?_, ?_, ?_⟩
  · intro h
    subst h
    rfl
  · intro hne
    cases hs : l.insertionSort (fun a b => key a ≥ key b) with
    | nil =>
      rw [hs] at hperm
      exact absurd (List.Perm.eq_nil (List.Perm.symm hperm)) hne
    | cons a t => exact ⟨a, rfl⟩
  · intro h hh
    cases hs : l.insertionSort (fun a b => key a ≥ key b) with
    | nil =>
      rw [hs] at hh
      exact absurd hh (by simp)
    | cons a t =>
      rw [hs] at hh hperm hsorted
      simp only [List.head?_cons, Option.some.injEq] at hh
      subst hh
      refine ⟨hperm.subset (List.mem_cons_self _ _), ?_⟩
      intro p hp
      have hp2 : p ∈ a :: t := hperm.symm.subset hp
      rcases List.mem_cons.mp hp2 with e | e
      · rw [e]
      · exact List.rel_of_pairwise_cons hsorted e

theorem processVehicle_fields (fl : Ratio → Ratio) (s : Store) (fuel_logs : List FuelLog)
    (maintenance_logs : List MaintenanceLog) (v : Vehicle) :
    (processVehicle fl s fuel_logs maintenance_logs v).id = v.id ∧
    (processVehicle fl s fuel_logs maintenance_logs v).region = v.region ∧
    (processVehicle fl s fuel_logs maintenance_logs v).revenue = completedRevenue s v.id ∧
    (processVehicle fl s fuel_logs maintenance_logs v).totalCost =
      operatingCost fuel_logs maintenance_logs v.id := by
  refine ⟨rfl, rfl, ?_, rfl⟩
  simp only [processVehicle, completedRevenue, List.filter_filter]
  congr 3
  funext t
  simp [and_comm]

/-- C20 (as stated) fails: a roi of a third is reported as `"0.3333"`, which is
not (100000 - 0) / 300000; and `highestROI` is the first of two vehicles both reported at
`"0.3333"`, although the quotient of the second, 100004 / 300000, is the greater one. -/
theorem roi_is_rounded_to_four_decimals :
    (processedVehicles exact roundedRoiStore [] []).map
        (fun p => (p.id, p.revenue, p.totalCost, p.roi.text)) =
      [(1, 100000, 0, "0.3333"), (2, 100004, 0, "0.3333")] ∧
    (∀ p ∈ processedVehicles exact roundedRoiStore [] [],
      p.roi.value ≠ ((p.revenue - p.totalCost : Int) : ℚ) / 300000) ∧
    (getBusinessIntelligence exact roundedRoiStore [] []).highestROI.map (fun p => p.id) =
      some 1 ∧
    ((100000 - 0 : Int) : ℚ) / 300000 < ((100004 - 0 : Int) : ℚ) / 300000 := by
  refine ⟨by decide, ?_, by decide, by norm_num⟩
  have e : processedVehicles exact roundedRoiStore [] [] =
      [⟨1, none, none, none, 100000, 0, ⟨false, 3333, 4⟩⟩,
        ⟨2, none, none, none, 100004, 0, ⟨false, 3333, 4⟩⟩] := by decide
  rw [e]
  intro p hp
  simp only [List.mem_cons, List.mem_singleton, List.not_mem_nil, or_false] at hp
  rcases hp with rfl | rfl <;> norm_num [Fixed.value, Fixed.signed]

/-- C20 (as amended): each processed vehicle carries the revenue of its Completed trips and the
cost of its fuel and maintenance logs; its roi is written with four decimals, and the number
written is (revenue - totalCost) / acquisition_cost up to half a ten-thousandth and the
roundoff of the division when the acquisition cost is positive, and `"0.0000"` otherwise;
`highestROI` is absent exactly when there is no vehicle, and otherwise is a processed vehicle
whose reported roi is the greatest. -/
theorem getBusinessIntelligence_roi (fl : Ratio → Ratio) (hfl : IsRounding fl) (s : Store)
    (fuel_logs : List FuelLog) (maintenance_logs : List MaintenanceLog) :
    List.Forall₂
      (fun (v : Vehicle) (p : ProcessedVehicle) =>
        p.id = v.id ∧ p.revenue = completedRevenue s v.id ∧
        p.totalCost = operatingCost fuel_logs maintenance_logs v.id ∧
        p.roi.digits = 4 ∧
        (toNumber v.acquisition_cost > 0 →
          |p.roi.value -
              ((p.revenue - p.totalCost : Int) : ℚ) / (toNumber v.acquisition_cost : ℚ)| ≤
            1 / 20000 + unitRoundoff *
              |((p.revenue - p.totalCost : Int) : ℚ) / (toNumber v.acquisition_cost : ℚ)|) ∧
        (toNumber v.acquisition_cost ≤ 0 → p.roi.text = "0.0000" ∧ p.roi.value = 0))
      s.vehicles (processedVehicles fl s fuel_logs maintenance_logs) ∧
    (s.vehicles = [] →
      (getBusinessIntelligence fl s fuel_logs maintenance_logs).highestROI = none) ∧
    (s.vehicles ≠ [] →
      ∃ h, (getBusinessIntelligence fl s fuel_logs maintenance_logs).highestROI = some h) ∧
    ∀ h, (getBusinessIntelligence fl s fuel_logs maintenance_logs).highestROI = some h →
      h ∈ processedVehicles fl s fuel_logs maintenance_logs ∧
      ∀ p ∈ processedVehicles fl s fuel_logs maintenance_logs, p.roi.value ≤ h.roi.value := by
  have hdig : ∀ p ∈ processedVehicles fl s fuel_logs maintenance_logs, p.roi.digits = 4 := by
    intro p hp
    obtain ⟨v, _, rfl⟩ := List.mem_map.mp hp
    rfl
  obtain ⟨k1, k2, k3⟩ := head_insertionSort_descending (fun p : ProcessedVehicle => p.roi.signed)
    (processedVehicles fl s fuel_logs maintenance_logs)
  refine ⟨?_, ?_, ?_, ?_⟩
  · unfold processedVehicles
    rw [List.forall₂_map_right_iff, List.forall₂_same]
    intro v _
    obtain ⟨f1, _, f3, f4⟩ := processVehicle_fields fl s fuel_logs maintenance_logs v
    refine ⟨f1, f3, f4, rfl, ?_, ?_⟩
    · intro hpos
      have hroi : (processVehicle fl s fuel_logs maintenance_logs v).roi =
          toFixed 4 (fl (Ratio.quotient
            ((processVehicle fl s fuel_logs maintenance_logs v).revenue -
              (processVehicle fl s fuel_logs maintenance_logs v).totalCost)
            (toNumber v.acquisition_cost))) := by
        simp only [processVehicle, if_pos hpos]
      rw [hroi]
      have := rounded_quotient_close fl hfl 4
        ((processVehicle fl s fuel_logs maintenance_logs v).revenue -
          (processVehicle fl s fuel_logs maintenance_logs v).totalCost)
        (toNumber v.acquisition_cost) (ne_of_gt hpos)
      norm_num at this ⊢
      exact this
    · intro hle
      have hroi : (processVehicle fl s fuel_logs maintenance_logs v).roi = toFixed 4 ⟨0, 1⟩ := by
        simp only [processVehicle, if_neg (not_lt.mpr hle)]
      rw [hroi]
      exact ⟨by decide, by norm_num [toFixed, Fixed.value, Fixed.signed]⟩
  · intro h
    apply k1
    unfold processedVehicles
    rw [h]
    rfl
  · intro h
    apply k2
    unfold processedVehicles
    intro e
    exact h (List.map_eq_nil_iff.mp e)
  · intro h hh
    obtain ⟨m1, m2⟩ := k3 h hh
    refine ⟨m1, fun p hp => ?_⟩
    rw [fixed_value_le_iff _ _ ((hdig p hp).trans (hdig h m1).symm)]
    exact m2 p hp

/-- Witness for C20 (as amended): vehicles without a positive acquisition cost are reported at
`0.0000`, and the two vehicles bought for 300000 carry the revenue of their Completed trips. -/
theorem getBusinessIntelligence_roi_witness :
    IsRounding exact ∧
    (getBusinessIntelligence exact zeroCostStore zeroCostFuel []).highestROI.map
        (fun p => (p.id, p.revenue, p.totalCost, p.roi.text)) = some (1, 500, 100, "0.0000") ∧
    (getBusinessIntelligence exact roundedRoiStore [] []).highestROI.isSome = true ∧
    List.Forall₂
      (fun (v : Vehicle) (p : ProcessedVehicle) =>
        p.revenue = completedRevenue roundedRoiStore v.id)
      roundedRoiStore.vehicles (processedVehicles exact roundedRoiStore [] []) :=
  ⟨exact_isRounding, by decide,
    Exists.elim
      ((getBusinessIntelligence_roi exact exact_isRounding roundedRoiStore [] []).2.2.1
        (by decide))
      (fun _ e => by rw [e]; rfl),
    List.Forall₂.imp (fun _ _ h => h.2.1)
      (getBusinessIntelligence_roi exact exact_isRounding roundedRoiStore [] []).1⟩

theorem regionInvariant_nil : RegionInvariant [] [] := by
  refine ⟨List.nodup_nil, ?_, ?_⟩
  · intro r hr
    exact absurd hr (List.not_mem_nil r)
  · intro v hv
    exact absurd hv (List.not_mem_nil v)

theorem regionInvariant_step (acc : List RegionTotals) (done : List ProcessedVehicle)
    (v : ProcessedVehicle) (h : RegionInvariant acc done) :
    RegionInvariant (regionStep acc v) (done ++ [v]) := by
  obtain ⟨hnd, hrows, hcov⟩ := h
  unfold regionStep
  by_cases hk : propertyKey v.region ∈ objectPrototypeKeys
  · simp only [if_pos hk]
    refine ⟨hnd, ?_, ?_⟩
    · intro r hr
      obtain ⟨a, b, c, d⟩ := hrows r hr
      have hne : ¬ propertyKey v.region = r.key := fun e => a (e ▸ hk)
      refine ⟨a, ?_, ?_, d⟩
      · rw [List.countP_append, b]
        simp [hne]
      · rw [List.filter_append, c]
        simp [hne]
    · intro w hw hwk
      rcases List.mem_append.mp hw with hw | hw
      · exact hcov w hw hwk
      · rw [List.mem_singleton] at hw
        subst hw
        exact absurd hk hwk
  · simp only [if_neg hk]
    have hkeys : ∀ l : List RegionTotals,
        (l.map (fun r =>
          if r.key = propertyKey v.region then
            { r with totalRevenue := r.totalRevenue + v.revenue,
                     vehicleCount := r.vehicleCount + 1 }
          else r)).map (fun r => r.key) = l.map (fun r => r.key) := by
      intro l
      rw [List.map_map]
      apply List.map_congr_left
      intro r _
      simp only [Function.comp]
      split <;> rfl
    have hold : ∀ r ∈ acc, ∀ r2,
        r2 = (if r.key = propertyKey v.region then
            { r with totalRevenue := r.totalRevenue + v.revenue,
                     vehicleCount := r.vehicleCount + 1 }
          else r) →
        r2.key ∉ objectPrototypeKeys ∧
        r2.vehicleCount =
          (done ++ [v]).countP (fun w => decide (propertyKey w.region = r2.key)) ∧
        r2.totalRevenue =
          (((done ++ [v]).filter (fun w => decide (propertyKey w.region = r2.key))).map
            (fun w => w.revenue)).sum ∧
        0 < r2.vehicleCount ∧ propertyKey r2.region = r2.key := by
      intro r hr r2 e
      obtain ⟨a, b, c, d⟩ := hrows r hr
      by_cases hrk : r.key = propertyKey v.region
      · rw [if_pos hrk] at e
        subst e
        refine ⟨a, ?_, ?_, Nat.succ_pos _, d.2⟩
        · show r.vehicleCount + 1 = _
          rw [List.countP_append, b]
          simp [hrk]
        · show r.totalRevenue + v.revenue = _
          rw [List.filter_append, c]
          simp [hrk]
      · rw [if_neg hrk] at e
        rw [e]
        have hne : ¬ propertyKey v.region = r.key := fun e => hrk e.symm
        refine ⟨a, ?_, ?_, d⟩
        · rw [List.countP_append, b]
          simp [hne]
        · rw [List.filter_append, c]
          simp [hne]
    by_cases hany : (acc.any (fun r => decide (r.key = propertyKey v.region))) = true
    · simp only [if_pos hany]
      have hmem : propertyKey v.region ∈ acc.map (fun r => r.key) := by
        obtain ⟨r, hr, e⟩ := List.any_eq_true.mp hany
        exact List.mem_map.mpr ⟨r, hr, of_decide_eq_true e⟩
      refine ⟨by rw [hkeys]; exact hnd, ?_, ?_⟩
      · intro r2 hr2
        obtain ⟨r, hr, e⟩ := List.mem_map.mp hr2
        exact hold r hr r2 e.symm
      · intro w hw hwk
        rw [hkeys]
        rcases List.mem_append.mp hw with hw | hw
        · exact hcov w hw hwk
        · rw [List.mem_singleton] at hw
          subst hw
          exact hmem
    · simp only [if_neg hany]
      have hnot : propertyKey v.region ∉ acc.map (fun r => r.key) := by
        intro hm
        obtain ⟨r, hr, e⟩ := List.mem_map.mp hm
        exact hany (List.any_eq_true.mpr ⟨r, hr, decide_eq_true e⟩)
      have hnone : ∀ w ∈ done, ¬ propertyKey w.region = propertyKey v.region := by
        intro w hw e
        exact hnot (e ▸ hcov w hw (e ▸ hk))
      refine ⟨?_, ?_, ?_⟩
      · rw [hkeys, List.map_append, List.map_singleton]
        exact List.Nodup.append hnd (List.nodup_singleton _)
          (List.disjoint_singleton.mpr hnot)
      · intro r2 hr2
        obtain ⟨r, hr, e⟩ := List.mem_map.mp hr2
        rcases List.mem_append.mp hr with hr | hr
        · exact hold r hr r2 e.symm
        · rw [List.mem_singleton] at hr
          subst hr
          rw [if_pos rfl] at e
          subst e
          refine ⟨hk, ?_, ?_, Nat.succ_pos _, rfl⟩
          · show 0 + 1 = _
            rw [List.countP_append, List.countP_eq_zero.mpr]
            · simp
            · intro w hw
              simpa using hnone w hw
          · show 0 + v.revenue = _
            rw [List.filter_append, List.filter_eq_nil_iff.mpr]
            · simp
            · intro w hw
              simpa using hnone w hw
      · intro w hw hwk
        rw [hkeys, List.map_append, List.map_singleton]
        rcases List.mem_append.mp hw with hw | hw
        · exact List.mem_append_left _ (hcov w hw hwk)
        · rw [List.mem_singleton] at hw
          subst hw
          exact List.mem_append_right _ (List.mem_singleton_self _)

theorem regionInvariant_foldl (l : List ProcessedVehicle) :
    ∀ (acc : List RegionTotals) (done : List ProcessedVehicle), RegionInvariant acc done →
      RegionInvariant (l.foldl regionStep acc) (done ++ l) := by
  induction l with
  | nil =>
    intro acc done h
    simpa using h
  | cons v l ih =>
    intro acc done h
    have := ih _ _ (regionInvariant_step acc done v h)
    simpa using this

theorem regionalBreakdown_invariant (l : List ProcessedVehicle) :
    RegionInvariant (regionalBreakdown l) l := by
  have := regionInvariant_foldl l [] [] regionInvariant_nil
  simpa using this

theorem objectValues_perm (acc : List RegionTotals) : (objectValues acc).Perm acc := by
  unfold objectValues
  have e : (fun r : RegionTotals => (arrayIndex r.key).isNone) =
      (fun r => !(arrayIndex r.key).isSome) := by
    funext r
    cases arrayIndex r.key <;> rfl
  rw [e]
  exact ((List.perm_insertionSort _ _).append_right _).trans (List.filter_append_perm _ acc)

theorem regionalMetrics_perm (fl : Ratio → Ratio) (processed : List ProcessedVehicle) :
    (regionalMetrics fl processed).Perm
      ((regionalBreakdown processed).map (withEfficiency fl)) := by
  unfold regionalMetrics
  exact (List.perm_insertionSort _ _).trans ((objectValues_perm _).map _)

/-- Every element of `regionalMetrics` is an own property of `regionalBreakdown` with its
efficiency attached. -/
theorem mem_regionalMetrics (fl : Ratio → Ratio) (processed : List ProcessedVehicle)
    (m : RegionalMetric) (hm : m ∈ regionalMetrics fl processed) :
    ∃ r ∈ regionalBreakdown processed, m = withEfficiency fl r := by
  obtain ⟨r, hr, e⟩ := List.mem_map.mp ((regionalMetrics_perm fl processed).subset hm)
  exact ⟨r, hr, e.symm⟩

/-- C19 (as stated) fails twice over: three vehicles of region X with a total revenue of 100
give the single entry of region X with efficiency `"33.33"`, which is not 100 / 3, the
efficiency being written with two decimals; and the vehicle whose region is named
`constructor` has no entry, which the reduction does not intend. -/
theorem regionalMetrics_rounds_and_skips_inherited_names :
    (getBusinessIntelligence exact thirdsStore [] []).regionalMetrics.map
        (fun m => (m.region, m.vehicleCount, m.totalRevenue, m.efficiency)) =
      [(some "X", 3, 100, .fixed ⟨false, 3333, 2⟩)] ∧
    Fixed.text ⟨false, 3333, 2⟩ = "33.33" ∧
    (∀ m ∈ (getBusinessIntelligence exact thirdsStore [] []).regionalMetrics,
      m.efficiency.value ≠ (m.totalRevenue : ℚ) / m.vehicleCount) ∧
    (thirdsStore.vehicles.map (fun v => v.region)).dedup = [some "X", some "constructor"] := by
  have e : (getBusinessIntelligence exact thirdsStore [] []).regionalMetrics =
      [⟨"X", some "X", 100, 3, .fixed ⟨false, 3333, 2⟩⟩] := by decide
  refine ⟨by decide, by decide, ?_, by decide⟩
  rw [e]
  intro m hm
  rw [List.mem_singleton] at hm
  subst hm
  norm_num [Rate.value, Fixed.value, Fixed.signed]

/-- C19 (as amended): when no vehicle has a region named like a member that objects inherit
from `Object.prototype`, `regionalMetrics` has exactly one entry per region key of the vehicles
(a missing region has the key `null`); the entry counts the vehicles of that key and sums the
revenue of their Completed trips; its efficiency is written with two decimals and is
totalRevenue / vehicleCount up to half a hundredth and the roundoff of the division; the
entries are in descending order of the written efficiency. -/
theorem regionalMetrics_entries (fl : Ratio → Ratio) (hfl : IsRounding fl) (s : Store)
    (fuel_logs : List FuelLog) (maintenance_logs : List MaintenanceLog)
    (hregions : ∀ v ∈ s.vehicles, propertyKey v.region ∉ objectPrototypeKeys) :
    ((getBusinessIntelligence fl s fuel_logs maintenance_logs).regionalMetrics.map
      (fun m => m.key)).Nodup ∧
    (∀ k, k ∈ (getBusinessIntelligence fl s fuel_logs maintenance_logs).regionalMetrics.map
        (fun m => m.key) ↔ ∃ v ∈ s.vehicles, propertyKey v.region = k) ∧
    (∀ m ∈ (getBusinessIntelligence fl s fuel_logs maintenance_logs).regionalMetrics,
      propertyKey m.region = m.key ∧
      m.vehicleCount = s.vehicles.countP (fun v => decide (propertyKey v.region = m.key)) ∧
      0 < m.vehicleCount ∧
      m.totalRevenue =
        ((s.vehicles.filter (fun v => decide (propertyKey v.region = m.key))).map
          (fun v => completedRevenue s v.id)).sum ∧
      ∃ f : Fixed, m.efficiency = .fixed f ∧ f.digits = 2 ∧
        |f.value - (m.totalRevenue : ℚ) / m.vehicleCount| ≤
          1 / 200 + unitRoundoff * |(m.totalRevenue : ℚ) / m.vehicleCount|) ∧
    (getBusinessIntelligence fl s fuel_logs maintenance_logs).regionalMetrics.Pairwise
      (fun a b => a.efficiency.value ≥ b.efficiency.value) := by
  show ((regionalMetrics fl (processedVehicles fl s fuel_logs maintenance_logs)).map
      (fun m => m.key)).Nodup ∧
    (∀ k, k ∈ (regionalMetrics fl (processedVehicles fl s fuel_logs maintenance_logs)).map
        (fun m => m.key) ↔ ∃ v ∈ s.vehicles, propertyKey v.region = k) ∧
    (∀ m ∈ regionalMetrics fl (processedVehicles fl s fuel_logs maintenance_logs),
      propertyKey m.region = m.key ∧
      m.vehicleCount = s.vehicles.countP (fun v => decide (propertyKey v.region = m.key)) ∧
      0 < m.vehicleCount ∧
      m.totalRevenue =
        ((s.vehicles.filter (fun v => decide (propertyKey v.region = m.key))).map
          (fun v => completedRevenue s v.id)).sum ∧
      ∃ f : Fixed, m.efficiency = .fixed f ∧ f.digits = 2 ∧
        |f.value - (m.totalRevenue : ℚ) / m.vehicleCount| ≤
          1 / 200 + unitRoundoff * |(m.totalRevenue : ℚ) / m.vehicleCount|) ∧
    (regionalMetrics fl (processedVehicles fl s fuel_logs maintenance_logs)).Pairwise
      (fun a b => a.efficiency.value ≥ b.efficiency.value)
  obtain ⟨hnd, hrows, hcov⟩ :=
    regionalBreakdown_invariant (processedVehicles fl s fuel_logs maintenance_logs)
  have hperm := regionalMetrics_perm fl (processedVehicles fl s fuel_logs maintenance_logs)
  have hkeys : ((regionalBreakdown (processedVehicles fl s fuel_logs maintenance_logs)).map
      (withEfficiency fl)).map (fun m => m.key) =
      (regionalBreakdown (processedVehicles fl s fuel_logs maintenance_logs)).map
        (fun r => r.key) := by
    rw [List.map_map]
    rfl
  have hentry : ∀ m ∈ regionalMetrics fl (processedVehicles fl s fuel_logs maintenance_logs),
      0 < m.vehicleCount ∧
      m.efficiency =
        .fixed (toFixed 2 (fl (Ratio.quotient m.totalRevenue m.vehicleCount))) := by
    intro m hm
    obtain ⟨r, hr, rfl⟩ := mem_regionalMetrics fl _ m hm
    obtain ⟨_, _, _, d, _⟩ := hrows r hr
    refine ⟨d, ?_⟩
    simp only [withEfficiency, gt_iff_lt, d, if_true]
  have hcount : ∀ k : String,
      (processedVehicles fl s fuel_logs maintenance_logs).countP
          (fun w => decide (propertyKey w.region = k)) =
        s.vehicles.countP (fun v => decide (propertyKey v.region = k)) := by
    intro k
    unfold processedVehicles
    rw [List.countP_map]
    rfl
  refine ⟨?_, ?_, ?_, ?_⟩
  · exact ((hperm.map _).nodup_iff).mpr (hkeys ▸ hnd)
  · intro k
    constructor
    · intro hk
      obtain ⟨m, hm, rfl⟩ := List.mem_map.mp hk
      obtain ⟨r, hr, rfl⟩ := mem_regionalMetrics fl _ m hm
      obtain ⟨_, b, _, d, _⟩ := hrows r hr
      rw [b, hcount r.key] at d
      obtain ⟨v, hv, e⟩ := List.countP_pos_iff.mp d
      exact ⟨v, hv, of_decide_eq_true e⟩
    · rintro ⟨v, hv, rfl⟩
      have h1 : processVehicle fl s fuel_logs maintenance_logs v ∈
          processedVehicles fl s fuel_logs maintenance_logs := List.mem_map_of_mem _ hv
      have h2 := hcov _ h1 (hregions v hv)
      exact (hperm.map _).symm.subset (hkeys ▸ h2)
  · intro m hm
    obtain ⟨hpos, heff⟩ := hentry m hm
    obtain ⟨r, hr, rfl⟩ := mem_regionalMetrics fl _ m hm
    obtain ⟨_, b, c, d, e⟩ := hrows r hr
    refine ⟨e, ?_, d, ?_, _, heff, rfl, ?_⟩
    · show r.vehicleCount = _
      rw [b]
      exact hcount r.key
    · show r.totalRevenue = _
      rw [c]
      unfold processedVehicles
      rw [List.filter_map, List.map_map]
      have e2 : ((fun w : ProcessedVehicle => decide (propertyKey w.region = r.key)) ∘
          processVehicle fl s fuel_logs maintenance_logs) =
          (fun v => decide (propertyKey v.region = r.key)) := rfl
      rw [e2]
      congr 1
      apply List.map_congr_left
      intro v _
      exact (processVehicle_fields fl s fuel_logs maintenance_logs v).2.2.1
    · have hb : ((r.vehicleCount : Nat) : Int) ≠ 0 := by
        have : 0 < r.vehicleCount := d
        omega
      have := rounded_quotient_close fl hfl 2 r.totalRevenue r.vehicleCount hb
      norm_num at this ⊢
      exact this
  · have hs := insertionSort_descending (fun m : RegionalMetric => m.efficiency.signed)
      ((objectValues (regionalBreakdown
        (processedVehicles fl s fuel_logs maintenance_logs))).map (withEfficiency fl))
    refine List.Pairwise.imp_of_mem ?_ hs
    intro x y hx hy hxy
    obtain ⟨_, ex⟩ := hentry x hx
    obtain ⟨_, ey⟩ := hentry y hy
    rw [ex, ey] at hxy ⊢
    exact (fixed_value_le_iff (toFixed 2 (fl (Ratio.quotient y.totalRevenue y.vehicleCount)))
      (toFixed 2 (fl (Ratio.quotient x.totalRevenue x.vehicleCount))) rfl).mpr hxy

/-- Witness for C19 (as amended): vehicles A and B of region X with revenues 100 and 300 give
the efficiency `200.00`, after region Y at `300.00`; there is one entry for each of the two
regions. -/
theorem regionalMetrics_entries_witness :
    IsRounding exact ∧
    (∀ v ∈ regionalStore.vehicles, propertyKey v.region ∉ objectPrototypeKeys) ∧
    (getBusinessIntelligence exact regionalStore [] []).regionalMetrics.map
        (fun m => (m.region, m.vehicleCount, m.totalRevenue, m.efficiency)) =
      [(some "Y", 1, 300, .fixed ⟨false, 30000, 2⟩),
        (some "X", 2, 400, .fixed ⟨false, 20000, 2⟩)] ∧
    Fixed.text ⟨false, 20000, 2⟩ = "200.00" ∧
    ((getBusinessIntelligence exact regionalStore [] []).regionalMetrics.map
      (fun m => m.key)).Nodup :=
  ⟨exact_isRounding, by decide, by decide, by decide,
    (regionalMetrics_entries exact exact_isRounding regionalStore [] [] (by decide)).1⟩

/-! ## Monthly financial evolution -/

theorem month_le_total (a b : Month) : Month.le a b ∨ Month.le b a := by
  unfold Month.le
  omega

theorem month_le_trans (a b c : Month) (h1 : Month.le a b) (h2 : Month.le b c) :
    Month.le a c := by
  unfold Month.le at *
  omega

theorem month_lt_of_le_of_ne (a b : Month) (h : Month.le a b) (hne : a ≠ b) : Month.lt a b := by
  unfold Month.le at h
  unfold Month.lt
  rcases h with h | ⟨h1, h2⟩
  · exact Or.inl h
  · refine Or.inr ⟨h1, lt_of_le_of_ne h2 ?_⟩
    intro e
    apply hne
    cases a
    cases b
    simp only at h1 e
    rw [h1, e]

theorem evolutionInvariant_nil : EvolutionInvariant [] (fun _ => 0) (fun _ => 0) [] 0 0 := by
  refine ⟨List.nodup_nil, ?_, ?_, ?_, rfl, rfl⟩
  · intro e he
    exact absurd he (List.not_mem_nil e)
  · intro k
    exact Iff.rfl
  · intro k _
    exact ⟨rfl, rfl⟩

/-- Adding to the property of one key adds to one element of the list. -/
theorem sum_map_update (field : MonthEntry → Int) (upd : MonthEntry → MonthEntry) (x : Int)
    (m : Month) (hfield : ∀ e, field (upd e) = field e + x) :
    ∀ l : List MonthEntry, (l.map (fun e => e.month)).Nodup → m ∈ l.map (fun e => e.month) →
      ((l.map (fun e => if e.month = m then upd e else e)).map field).sum =
        (l.map field).sum + x := by
  intro l
  induction l with
  | nil =>
    intro _ hm
    exact absurd hm (List.not_mem_nil m)
  | cons a l ih =>
    intro hnd hm
    rw [List.map_cons, List.nodup_cons] at hnd
    obtain ⟨ha, hl⟩ := hnd
    simp only [List.map_cons, List.sum_cons]
    by_cases e : a.month = m
    · rw [if_pos e, hfield]
      have hrest : l.map (fun e => if e.month = m then upd e else e) = l := by
        conv_rhs => rw [← List.map_id l]
        apply List.map_congr_left
        intro b hb
        have : b.month ≠ m := by
          intro eb
          apply ha
          rw [e, ← eb]
          exact List.mem_map_of_mem _ hb
        rw [if_neg this]
        rfl
      rw [hrest]
      ring
    · rw [if_neg e]
      have hm2 : m ∈ l.map (fun e => e.month) := by
        rcases List.mem_cons.mp hm with h | h
        · exact absurd h.symm e
        · exact h
      rw [ih hl hm2]
      ring

/-- One addition keeps the invariant: `y` is added to the revenue and `z` to the cost of the
month `m`. -/
theorem evolutionInvariant_add (upd : MonthEntry → MonthEntry) (y z : Int) (m : Month)
    (hmonth : ∀ e, (upd e).month = e.month)
    (hrev : ∀ e, (upd e).revenue = e.revenue + y)
    (hcost : ∀ e, (upd e).cost = e.cost + z)
    (evolution : List MonthEntry) (revenue cost : Month → Int) (months : List Month)
    (totalRevenue totalCost : Int)
    (h : EvolutionInvariant evolution revenue cost months totalRevenue totalCost) :
    EvolutionInvariant
      ((ensureMonth evolution m).map (fun e => if e.month = m then upd e else e))
      (fun k => revenue k + if k = m then y else 0)
      (fun k => cost k + if k = m then z else 0)
      (months ++ [m]) (totalRevenue + y) (totalCost + z) := by
  obtain ⟨hnd, hrows, hkeys, hzero, htr, htc⟩ := h
  have hk : ∀ l : List MonthEntry,
      (l.map (fun e => if e.month = m then upd e else e)).map (fun e => e.month) =
        l.map (fun e => e.month) := by
    intro l
    rw [List.map_map]
    apply List.map_congr_left
    intro e _
    simp only [Function.comp]
    split
    · exact hmonth e
    · rfl
  -- the list after `ensureMonth` keeps the invariant, with the month `m` among the keys
  have hens : EvolutionInvariant (ensureMonth evolution m) revenue cost (months ++ [m])
      totalRevenue totalCost ∧ m ∈ (ensureMonth evolution m).map (fun e => e.month) := by
    unfold ensureMonth
    by_cases hany : (evolution.any (fun e => decide (e.month = m))) = true
    · rw [if_pos hany]
      have hmem : m ∈ evolution.map (fun e => e.month) := by
        obtain ⟨e, he, em⟩ := List.any_eq_true.mp hany
        exact List.mem_map.mpr ⟨e, he, of_decide_eq_true em⟩
      refine ⟨⟨hnd, hrows, ?_, ?_, htr, htc⟩, hmem⟩
      · intro k
        rw [hkeys k, List.mem_append, List.mem_singleton]
        constructor
        · exact Or.inl
        · rintro (h | h)
          · exact h
          · rw [h]
            exact (hkeys m).mp hmem
      · intro k hknot
        apply hzero
        intro hkm
        exact hknot (List.mem_append_left _ hkm)
    · rw [if_neg hany]
      have hnot : m ∉ evolution.map (fun e => e.month) := by
        intro hm
        obtain ⟨e, he, em⟩ := List.mem_map.mp hm
        exact hany (List.any_eq_true.mpr ⟨e, he, decide_eq_true em⟩)
      have hz := hzero m (fun hm => hnot ((hkeys m).mpr hm))
      refine ⟨⟨?_, ?_, ?_, ?_, ?_, ?_⟩, ?_⟩
      · rw [List.map_append, List.map_singleton]
        exact List.Nodup.append hnd (List.nodup_singleton _) (List.disjoint_singleton.mpr hnot)
      · intro e he
        rcases List.mem_append.mp he with he | he
        · exact hrows e he
        · rw [List.mem_singleton] at he
          subst he
          exact ⟨hz.1.symm, hz.2.symm⟩
      · intro k
        rw [List.map_append, List.map_singleton, List.mem_append, List.mem_append, hkeys k]
      · intro k hknot
        apply hzero
        intro hkm
        exact hknot (List.mem_append_left _ hkm)
      · rw [List.map_append, List.sum_append, htr]
        simp
      · rw [List.map_append, List.sum_append, htc]
        simp
      · rw [List.map_append, List.map_singleton]
        exact List.mem_append_right _ (List.mem_singleton_self _)
  obtain ⟨⟨end1, erows, ekeys, ezero, etr, etc⟩, emem⟩ := hens
  refine ⟨by rw [hk]; exact end1, ?_, by rw [hk]; exact ekeys, ?_, ?_, ?_⟩
  · intro e2 he2
    obtain ⟨e, he, rfl⟩ := List.mem_map.mp he2
    obtain ⟨r1, r2⟩ := erows e he
    by_cases em : e.month = m
    · have e1 : (if e.month = m then upd e else e) = upd e := if_pos em
      rw [e1]
      refine ⟨?_, ?_⟩
      · show (upd e).revenue = revenue (upd e).month + (if (upd e).month = m then y else 0)
        rw [hmonth, hrev, if_pos em, r1]
      · show (upd e).cost = cost (upd e).month + (if (upd e).month = m then z else 0)
        rw [hmonth, hcost, if_pos em, r2]
    · have e1 : (if e.month = m then upd e else e) = e := if_neg em
      rw [e1]
      refine ⟨?_, ?_⟩
      · show e.revenue = revenue e.month + (if e.month = m then y else 0)
        rw [if_neg em, add_zero]
        exact r1
      · show e.cost = cost e.month + (if e.month = m then z else 0)
        rw [if_neg em, add_zero]
        exact r2
  · intro k hknot
    have hkm : k ≠ m := by
      intro e
      apply hknot
      rw [e]
      exact List.mem_append_right _ (List.mem_singleton_self _)
    obtain ⟨z1, z2⟩ := ezero k hknot
    refine ⟨?_, ?_⟩
    · show revenue k + (if k = m then y else 0) = 0
      rw [if_neg hkm, add_zero]
      exact z1
    · show cost k + (if k = m then z else 0) = 0
      rw [if_neg hkm, add_zero]
      exact z2
  · rw [sum_map_update (fun e => e.revenue) upd y m hrev _ end1 emem, etr]
  · rw [sum_map_update (fun e => e.cost) upd z m hcost _ end1 emem, etc]

theorem evolutionInvariant_congr (evolution : List MonthEntry) (r1 c1 r2 c2 : Month → Int)
    (k1 k2 : List Month) (tr1 tc1 tr2 tc2 : Int)
    (h : EvolutionInvariant evolution r1 c1 k1 tr1 tc1)
    (hr : ∀ k, r1 k = r2 k) (hc : ∀ k, c1 k = c2 k) (hk : ∀ k, k ∈ k1 ↔ k ∈ k2)
    (htr : tr1 = tr2) (htc : tc1 = tc2) :
    EvolutionInvariant evolution r2 c2 k2 tr2 tc2 := by
  obtain ⟨a, b, c, d, e, f⟩ := h
  refine ⟨a, ?_, ?_, ?_, htr ▸ e, htc ▸ f⟩
  · intro x hx
    rw [← hr, ← hc]
    exact b x hx
  · intro k
    rw [c k, hk k]
  · intro k hnot
    rw [← hr, ← hc]
    exact d k (fun hk1 => hnot ((hk k).mp hk1))

theorem evolutionInvariant_addRevenue (evolution : List MonthEntry) (revenue cost : Month → Int)
    (months : List Month) (totalRevenue totalCost : Int) (m : Month) (x : Int)
    (h : EvolutionInvariant evolution revenue cost months totalRevenue totalCost) :
    EvolutionInvariant (addRevenue evolution m x)
      (fun k => revenue k + if k = m then x else 0)
      (fun k => cost k + if k = m then (fun _ => (0 : Int)) x else 0)
      (months ++ [m]) (totalRevenue + x) (totalCost + (fun _ => (0 : Int)) x) :=
  evolutionInvariant_add (fun e => { e with revenue := e.revenue + x }) x 0 m
    (fun _ => rfl) (fun _ => rfl) (fun e => (add_zero e.cost).symm) evolution revenue cost
    months totalRevenue totalCost h

theorem evolutionInvariant_addCost (evolution : List MonthEntry) (revenue cost : Month → Int)
    (months : List Month) (totalRevenue totalCost : Int) (m : Month) (x : Int)
    (h : EvolutionInvariant evolution revenue cost months totalRevenue totalCost) :
    EvolutionInvariant (addCost evolution m x)
      (fun k => revenue k + if k = m then (fun _ => (0 : Int)) x else 0)
      (fun k => cost k + if k = m then x else 0)
      (months ++ [m]) (totalRevenue + (fun _ => (0 : Int)) x) (totalCost + x) :=
  evolutionInvariant_add (fun e => { e with cost := e.cost + x }) 0 x m
    (fun _ => rfl) (fun e => (add_zero e.revenue).symm) (fun _ => rfl) evolution revenue cost
    months totalRevenue totalCost h

/-- A `forEach` that returns was given rows with a date, and has added the amount of every
row to the month of the row: `toRevenue` of it to the revenue and `toCost` of it to the
cost. -/
theorem forEachDated_invariant {α : Type} (month : α → Option Month) (amount : α → Int)
    (add : List MonthEntry → Month → Int → List MonthEntry) (toRevenue toCost : Int → Int)
    (hadd : ∀ evolution revenue cost months totalRevenue totalCost m x,
      EvolutionInvariant evolution revenue cost months totalRevenue totalCost →
      EvolutionInvariant (add evolution m x)
        (fun k => revenue k + if k = m then toRevenue x else 0)
        (fun k => cost k + if k = m then toCost x else 0)
        (months ++ [m]) (totalRevenue + toRevenue x) (totalCost + toCost x)) :
    ∀ (rows : List α) (evolution : List MonthEntry) (revenue cost : Month → Int)
      (months : List Month) (totalRevenue totalCost : Int) (result : List MonthEntry),
      EvolutionInvariant evolution revenue cost months totalRevenue totalCost →
      forEachDated month amount add rows evolution = .ok result →
      (∀ r ∈ rows, month r ≠ none) ∧
      EvolutionInvariant result
        (fun k => revenue k +
          ((rows.filter (fun r => decide (month r = some k))).map
            (fun r => toRevenue (amount r))).sum)
        (fun k => cost k +
          ((rows.filter (fun r => decide (month r = some k))).map
            (fun r => toCost (amount r))).sum)
        (months ++ rows.filterMap month)
        (totalRevenue + (rows.map (fun r => toRevenue (amount r))).sum)
        (totalCost + (rows.map (fun r => toCost (amount r))).sum) := by
  intro rows
  induction rows with
  | nil =>
    intro evolution revenue cost months totalRevenue totalCost result h hres
    simp only [forEachDated, Except.ok.injEq] at hres
    subst hres
    refine ⟨fun r hr => absurd hr (List.not_mem_nil r), ?_⟩
    exact evolutionInvariant_congr _ _ _ _ _ _ _ _ _ _ _ h (fun k => by simp) (fun k => by simp)
      (fun k => by simp) (by simp) (by simp)
  | cons row rows ih =>
    intro evolution revenue cost months totalRevenue totalCost result h hres
    cases hm : month row with
    | none =>
      simp only [forEachDated, hm] at hres
      exact absurd hres (by simp)
    | some m =>
      simp only [forEachDated, hm] at hres
      obtain ⟨i1, i2⟩ := ih _ _ _ _ _ _ result
        (hadd evolution revenue cost months totalRevenue totalCost m (amount row) h) hres
      refine ⟨?_, ?_⟩
      · intro r hr
        rcases List.mem_cons.mp hr with e | e
        · rw [e, hm]
          simp
        · exact i1 r e
      · refine evolutionInvariant_congr _ _ _ _ _ _ _ _ _ _ _ i2 ?_ ?_ ?_ ?_ ?_
        · intro k
          by_cases e : k = m
          · subst e
            simp [List.filter_cons, hm, add_assoc]
          · have e2 : ¬ m = k := fun h => e h.symm
            simp [List.filter_cons, hm, e, e2]
        · intro k
          by_cases e : k = m
          · subst e
            simp [List.filter_cons, hm, add_assoc]
          · have e2 : ¬ m = k := fun h => e h.symm
            simp [List.filter_cons, hm, e, e2]
        · intro k
          simp [List.filterMap_cons, hm]
        · simp [add_assoc]
        · simp [add_assoc]

theorem forEachDated_total {α : Type} (month : α → Option Month) (amount : α → Int)
    (add : List MonthEntry → Month → Int → List MonthEntry) :
    ∀ (rows : List α), (∀ r ∈ rows, month r ≠ none) → ∀ evolution : List MonthEntry,
      ∃ result, forEachDated month amount add rows evolution = .ok result := by
  intro rows
  induction rows with
  | nil =>
    intro _ evolution
    exact ⟨evolution, rfl⟩
  | cons row rows ih =>
    intro h evolution
    cases hm : month row with
    | none => exact absurd hm (h row (List.mem_cons_self _ _))
    | some m =>
      obtain ⟨result, hr⟩ := ih (fun r hr => h r (List.mem_cons_of_mem _ hr))
        (add evolution m (amount row))
      exact ⟨result, by simp only [forEachDated, hm]; exact hr⟩

/-- With a date on every row it reads, `getFinancialEvolution` returns a series. -/
theorem getFinancialEvolution_total (monthOfTimestamp monthOfDay : Int → Month) (s : Store)
    (fuel : List FuelLog) (maintenance : List MaintenanceLog)
    (ht : ∀ t ∈ s.trips, t.status = "Completed" → t.created_at ≠ none)
    (hf : ∀ f ∈ fuel, f.date ≠ none) (hm : ∀ m ∈ maintenance, m.service_date ≠ none) :
    ∃ series, getFinancialEvolution monthOfTimestamp monthOfDay s fuel maintenance =
      .ok series := by
  have ht2 : ∀ t ∈ s.trips.filter (fun t => decide (t.status = "Completed")),
      t.created_at.map monthOfTimestamp ≠ none := by
    intro t h
    obtain ⟨h1, h2⟩ := List.mem_filter.mp h
    have := ht t h1 (of_decide_eq_true h2)
    cases hc : t.created_at with
    | none => exact absurd hc this
    | some x => simp
  have hf2 : ∀ f ∈ fuel, f.date.map monthOfDay ≠ none := by
    intro f h
    have := hf f h
    cases hc : f.date with
    | none => exact absurd hc this
    | some x => simp
  have hm2 : ∀ m ∈ maintenance, m.service_date.map monthOfDay ≠ none := by
    intro m h
    have := hm m h
    cases hc : m.service_date with
    | none => exact absurd hc this
    | some x => simp
  obtain ⟨e1, h1⟩ := forEachDated_total (fun t : Trip => t.created_at.map monthOfTimestamp)
    (fun t => toNumber t.revenue) addRevenue _ ht2 []
  obtain ⟨e2, h2⟩ := forEachDated_total (fun f : FuelLog => f.date.map monthOfDay)
    (fun f => toNumber f.cost) addCost _ hf2 e1
  obtain ⟨e3, h3⟩ := forEachDated_total (fun m : MaintenanceLog => m.service_date.map monthOfDay)
    (fun m => toNumber m.cost) addCost _ hm2 e2
  refine ⟨e3.insertionSort (fun a b => Month.le a.month b.month), ?_⟩
  simp only [getFinancialEvolution, h1, h2, h3]

/-- A series that `getFinancialEvolution` returns is the sorted list of the own properties
of an `evolution` object that holds a property for every month of a row, with the revenue
and the cost of the month. -/
theorem getFinancialEvolution_ok (monthOfTimestamp monthOfDay : Int → Month) (s : Store)
    (fuel : List FuelLog) (maintenance : List MaintenanceLog) (series : List MonthEntry)
    (h : getFinancialEvolution monthOfTimestamp monthOfDay s fuel maintenance = .ok series) :
    ∃ evolution, series = evolution.insertionSort (fun a b => Month.le a.month b.month) ∧
      EvolutionInvariant evolution
        (fun k => ((s.trips.filter (fun t => decide (t.status = "Completed" ∧
            t.created_at.map monthOfTimestamp = some k))).map (fun t => toNumber t.revenue)).sum)
        (fun k =>
          ((fuel.filter (fun f => decide (f.date.map monthOfDay = some k))).map
            (fun f => toNumber f.cost)).sum +
          ((maintenance.filter (fun m => decide (m.service_date.map monthOfDay = some k))).map
            (fun m => toNumber m.cost)).sum)
        ((s.trips.filter (fun t => decide (t.status = "Completed"))).filterMap
            (fun t => t.created_at.map monthOfTimestamp) ++
          fuel.filterMap (fun f => f.date.map monthOfDay) ++
          maintenance.filterMap (fun m => m.service_date.map monthOfDay))
        (((s.trips.filter (fun t => decide (t.status = "Completed"))).map
          (fun t => toNumber t.revenue)).sum)
        ((fuel.map (fun f => toNumber f.cost)).sum +
          (maintenance.map (fun m => toNumber m.cost)).sum) := by
  unfold getFinancialEvolution at h
  simp only [] at h
  cases h1 : forEachDated (fun t : Trip => t.created_at.map monthOfTimestamp)
      (fun t => toNumber t.revenue) addRevenue
      (s.trips.filter (fun t => decide (t.status = "Completed"))) [] with
  | error e =>
    rw [h1] at h
    exact absurd h (by simp)
  | ok e1 =>
    rw [h1] at h
    simp only [] at h
    cases h2 : forEachDated (fun f : FuelLog => f.date.map monthOfDay)
        (fun f => toNumber f.cost) addCost fuel e1 with
    | error e =>
      rw [h2] at h
      exact absurd h (by simp)
    | ok e2 =>
      rw [h2] at h
      simp only [] at h
      cases h3 : forEachDated (fun m : MaintenanceLog => m.service_date.map monthOfDay)
          (fun m => toNumber m.cost) addCost maintenance e2 with
      | error e =>
        rw [h3] at h
        exact absurd h (by simp)
      | ok e3 =>
        rw [h3] at h
        simp only [Except.ok.injEq] at h
        refine ⟨e3, h.symm, ?_⟩
        obtain ⟨_, i1⟩ := forEachDated_invariant _ _ addRevenue (fun x => x) (fun _ => 0)
          evolutionInvariant_addRevenue _ _ _ _ _ _ _ e1 evolutionInvariant_nil h1
        obtain ⟨_, i2⟩ := forEachDated_invariant _ _ addCost (fun _ => 0) (fun x => x)
          evolutionInvariant_addCost _ _ _ _ _ _ _ e2 i1 h2
        obtain ⟨_, i3⟩ := forEachDated_invariant _ _ addCost (fun _ => 0) (fun x => x)
          evolutionInvariant_addCost _ _ _ _ _ _ _ e3 i2 h3
        refine evolutionInvariant_congr _ _ _ _ _ _ _ _ _ _ _ i3 ?_ ?_ ?_ ?_ ?_
        · intro k
          simp [List.filter_filter]
          congr 3
          funext t
          exact Bool.and_comm _ _
        · intro k
          simp
        · intro k
          simp [List.mem_append, or_assoc]
        · simp
        · simp

/-- C23: with a date on every row it reads `getFinancialEvolution` returns a series, and a
series it returns has its month keys in strictly ascending order, hence without a duplicate,
and they are exactly the months of the Completed trips, of the fuel logs and of the
maintenance logs. -/
theorem getFinancialEvolution_months (monthOfTimestamp monthOfDay : Int → Month) (s : Store)
    (fuel : List FuelLog) (maintenance : List MaintenanceLog) :
    ((∀ t ∈ s.trips, t.status = "Completed" → t.created_at ≠ none) →
      (∀ f ∈ fuel, f.date ≠ none) → (∀ m ∈ maintenance, m.service_date ≠ none) →
      ∃ series, getFinancialEvolution monthOfTimestamp monthOfDay s fuel maintenance =
        .ok series) ∧
    ∀ series, getFinancialEvolution monthOfTimestamp monthOfDay s fuel maintenance =
        .ok series →
      (series.map (fun e => e.month)).Pairwise Month.lt ∧
      (series.map (fun e => e.month)).Nodup ∧
      ∀ k, k ∈ series.map (fun e => e.month) ↔
        ((∃ t ∈ s.trips, t.status = "Completed" ∧
            t.created_at.map monthOfTimestamp = some k) ∨
          (∃ f ∈ fuel, f.date.map monthOfDay = some k) ∨
          (∃ m ∈ maintenance, m.service_date.map monthOfDay = some k)) := by
  refine ⟨getFinancialEvolution_total monthOfTimestamp monthOfDay s fuel maintenance, ?_⟩
  intro series h
  obtain ⟨evolution, hs, hnd, _, hkeys, _, _, _⟩ :=
    getFinancialEvolution_ok monthOfTimestamp monthOfDay s fuel maintenance series h
  have hperm : (series.map (fun e => e.month)).Perm (evolution.map (fun e => e.month)) := by
    rw [hs]
    exact (List.perm_insertionSort _ _).map _
  have hnd2 : (series.map (fun e => e.month)).Nodup := hperm.nodup_iff.mpr hnd
  have hsorted : (series.map (fun e => e.month)).Pairwise Month.le := by
    rw [hs, List.pairwise_map]
    haveI : IsTotal MonthEntry (fun a b => Month.le a.month b.month) :=
      ⟨fun a b => month_le_total a.month b.month⟩
    haveI : IsTrans MonthEntry (fun a b => Month.le a.month b.month) :=
      ⟨fun a b c => month_le_trans a.month b.month c.month⟩
    exact List.sorted_insertionSort (fun a b => Month.le a.month b.month) evolution
  refine ⟨?_, hnd2, ?_⟩
  · exact (hsorted.and hnd2).imp (fun hab => month_lt_of_le_of_ne _ _ hab.1 hab.2)
  · intro k
    rw [hperm.mem_iff, hkeys k]
    simp only [List.mem_append, List.mem_filterMap, List.mem_filter, decide_eq_true_eq,
      or_assoc, and_assoc]

/-- Witness for C23: the example rows fall in four months, which the series lists in order. -/
theorem getFinancialEvolution_months_witness :
    (getFinancialEvolution demoMonth demoMonth evolutionStore evolutionFuel
        evolutionMaintenance).map (fun series => series.map (fun e => e.month)) =
      .ok [⟨2024, 1⟩, ⟨2024, 3⟩, ⟨2024, 12⟩, ⟨2025, 10⟩] ∧
    ([⟨⟨2024, 1⟩, 10, 0⟩, ⟨⟨2024, 3⟩, 140, 37⟩, ⟨⟨2024, 12⟩, 0, 0⟩,
        ⟨⟨2025, 10⟩, 0, 5⟩].map (fun e : MonthEntry => e.month)).Pairwise Month.lt :=
  ⟨by decide,
    ((getFinancialEvolution_months demoMonth demoMonth evolutionStore evolutionFuel
      evolutionMaintenance).2 _ (by decide)).1⟩

/-- C24: with a date on every row it reads `getFinancialEvolution` returns a series, and in a
series it returns every entry has the revenue of the Completed trips created in its month and
the cost of the fuel logs dated and of the maintenance logs serviced in its month; the
revenues of the series add up to the revenue of all Completed trips, and its costs to the
cost of all fuel and maintenance logs. -/
theorem getFinancialEvolution_sums (monthOfTimestamp monthOfDay : Int → Month) (s : Store)
    (fuel : List FuelLog) (maintenance : List MaintenanceLog) :
    ((∀ t ∈ s.trips, t.status = "Completed" → t.created_at ≠ none) →
      (∀ f ∈ fuel, f.date ≠ none) → (∀ m ∈ maintenance, m.service_date ≠ none) →
      ∃ series, getFinancialEvolution monthOfTimestamp monthOfDay s fuel maintenance =
        .ok series) ∧
    ∀ series, getFinancialEvolution monthOfTimestamp monthOfDay s fuel maintenance =
        .ok series →
      (∀ e ∈ series,
        e.revenue =
          ((s.trips.filter (fun t => decide (t.status = "Completed" ∧
            t.created_at.map monthOfTimestamp = some e.month))).map
              (fun t => toNumber t.revenue)).sum ∧
        e.cost =
          ((fuel.filter (fun f => decide (f.date.map monthOfDay = some e.month))).map
            (fun f => toNumber f.cost)).sum +
          ((maintenance.filter (fun m =>
            decide (m.service_date.map monthOfDay = some e.month))).map
              (fun m => toNumber m.cost)).sum) ∧
      (series.map (fun e => e.revenue)).sum =
        ((s.trips.filter (fun t => decide (t.status = "Completed"))).map
          (fun t => toNumber t.revenue)).sum ∧
      (series.map (fun e => e.cost)).sum =
        (fuel.map (fun f => toNumber f.cost)).sum +
          (maintenance.map (fun m => toNumber m.cost)).sum := by
  refine ⟨getFinancialEvolution_total monthOfTimestamp monthOfDay s fuel maintenance, ?_⟩
  intro series h
  obtain ⟨evolution, hs, _, hrows, _, _, htr, htc⟩ :=
    getFinancialEvolution_ok monthOfTimestamp monthOfDay s fuel maintenance series h
  have hperm : series.Perm evolution := by
    rw [hs]
    exact List.perm_insertionSort _ _
  refine ⟨?_, ?_, ?_⟩
  · intro e he
    exact hrows e (hperm.subset he)
  · rw [(hperm.map _).sum_eq]
    exact htr
  · rw [(hperm.map _).sum_eq]
    exact htc

/-- Witness for C24: the series of the example rows, whose revenues add up to the revenue of
the Completed trips. -/
theorem getFinancialEvolution_sums_witness :
    getFinancialEvolution demoMonth demoMonth evolutionStore evolutionFuel
        evolutionMaintenance =
      .ok [⟨⟨2024, 1⟩, 10, 0⟩, ⟨⟨2024, 3⟩, 140, 37⟩, ⟨⟨2024, 12⟩, 0, 0⟩, ⟨⟨2025, 10⟩, 0, 5⟩] ∧
    ([⟨⟨2024, 1⟩, 10, 0⟩, ⟨⟨2024, 3⟩, 140, 37⟩, ⟨⟨2024, 12⟩, 0, 0⟩,
        ⟨⟨2025, 10⟩, 0, 5⟩].map (fun e : MonthEntry => e.revenue)).sum =
      ((evolutionStore.trips.filter (fun t => decide (t.status = "Completed"))).map
        (fun t => toNumber t.revenue)).sum :=
  ⟨by decide,
    ((getFinancialEvolution_sums demoMonth demoMonth evolutionStore evolutionFuel
      evolutionMaintenance).2 _ (by decide)).2.1⟩
end Fleet
